import Mathlib

/-!
# HashCheck: the HashProp worker pipeline

A shallow embedding of `HashProp.c` (worker thread, update handler, results
coalescing, restart protocol) together with the parts of `libs/WinHash.h` and
`HashCheckCommon.h` it relies on.

Conventions.
* A `DWORD`/`UINT` value is a `Nat`; where the C code truncates or wraps, the
  embedding writes the `% 2 ^ w` explicitly.
* A pointer to a list item (`PHASHPROPITEM`) is the index of the item in the
  list; the list owns the item data.
* Everything the worker thread cannot decide by itself (file contents, the
  volatile `status` word written by the dialog thread, whether an allocation
  succeeds) is read from an explicit environment record.
-/

namespace HashCheck

set_option maxRecDepth 100000

/-! ## libs/WinHash.h -/

/-- `CCH_CRLF`. -/
def CCH_CRLF : Nat := 2

/-- `CRLF`. -/
def CRLF : List Char := ['\r', '\n']

/-- The terminating NUL character of a C string. -/
def NUL : Char := Char.ofNat 0

/-- `enum hash_algorithm`. -/
inductive hash_algorithm where
  | CRC32
  | MD5
  | SHA1
  | SHA256
  | SHA512
  | SHA3_256
  | SHA3_512
  | BLAKE3
  deriving DecidableEq, Repr

/-- The numeric value of an enumerator: `CRC32 = 1`, then counting up. -/
def hash_algorithm.val : hash_algorithm → Nat
  | .CRC32 => 1
  | .MD5 => 2
  | .SHA1 => 3
  | .SHA256 => 4
  | .SHA512 => 5
  | .SHA3_256 => 6
  | .SHA3_512 => 7
  | .BLAKE3 => 8

/-- `NUM_HASHES`, defined as `BLAKE3`. -/
def NUM_HASHES : Nat := hash_algorithm.BLAKE3.val

/-- `FOR_EACH_HASH(op)`: the algorithms in the order the macro applies `op`. -/
def FOR_EACH_HASH : List hash_algorithm :=
  [.CRC32, .MD5, .SHA1, .SHA256, .SHA512, .SHA3_256, .SHA3_512, .BLAKE3]

/-- `WHEX_CHECK##alg`, that is `1UL << (alg - 1)`. -/
def WHEX_CHECK (alg : hash_algorithm) : Nat := 1 <<< (alg.val - 1)

/-- `WHEX_ALL`, that is `(1UL << NUM_HASHES) - 1`. -/
def WHEX_ALL : Nat := (1 <<< NUM_HASHES) - 1

/-- `alg##_DIGEST_LENGTH`. -/
def DIGEST_LENGTH : hash_algorithm → Nat
  | .CRC32 => 4
  | .MD5 => 16
  | .SHA1 => 20
  | .SHA256 => 32
  | .SHA512 => 64
  | .SHA3_256 => 32
  | .SHA3_512 => 64
  | .BLAKE3 => 32

/-- `MAX_DIGEST_LENGTH`, defined as `SHA512_DIGEST_LENGTH`. -/
def MAX_DIGEST_LENGTH : Nat := DIGEST_LENGTH .SHA512

/-- `alg##_DIGEST_STRING_LENGTH`, that is `alg##_DIGEST_LENGTH * 2 + 1`. -/
def DIGEST_STRING_LENGTH (alg : hash_algorithm) : Nat := DIGEST_LENGTH alg * 2 + 1

/-- `HASH_RNAME_##alg`: the right-justified algorithm names. -/
def HASH_RNAME : hash_algorithm → List Char
  | .CRC32 => "  CRC-32".toList
  | .MD5 => "     MD5".toList
  | .SHA1 => "   SHA-1".toList
  | .SHA256 => " SHA-256".toList
  | .SHA512 => " SHA-512".toList
  | .SHA3_256 => "SHA3-256".toList
  | .SHA3_512 => "SHA3-512".toList
  | .BLAKE3 => "  BLAKE3".toList

/-- `HASH_RESULT_op(alg)`, that is `HASH_RNAME_##alg _T(": ")`. -/
def HASH_RESULT_op (alg : hash_algorithm) : List Char := HASH_RNAME alg ++ ": ".toList

/-- `WHRESULTEX`: one hex string per algorithm (a `TCHAR` array of
`alg##_DIGEST_STRING_LENGTH` elements) and the validity bits `dwFlags`. -/
structure WHRESULTEX where
  szHexCRC32 : List Char
  szHexMD5 : List Char
  szHexSHA1 : List Char
  szHexSHA256 : List Char
  szHexSHA512 : List Char
  szHexSHA3_256 : List Char
  szHexSHA3_512 : List Char
  szHexBLAKE3 : List Char
  dwFlags : Nat
  deriving DecidableEq, Repr

/-- The member `szHex##alg` of a `WHRESULTEX`. -/
def WHRESULTEX.szHex (r : WHRESULTEX) : hash_algorithm → List Char
  | .CRC32 => r.szHexCRC32
  | .MD5 => r.szHexMD5
  | .SHA1 => r.szHexSHA1
  | .SHA256 => r.szHexSHA256
  | .SHA512 => r.szHexSHA512
  | .SHA3_256 => r.szHexSHA3_256
  | .SHA3_512 => r.szHexSHA3_512
  | .BLAKE3 => r.szHexBLAKE3

/-- Assignment to the member `szHex##alg` of a `WHRESULTEX`. -/
def WHRESULTEX.setHex (r : WHRESULTEX) (alg : hash_algorithm) (s : List Char) : WHRESULTEX :=
  match alg with
  | .CRC32 => { r with szHexCRC32 := s }
  | .MD5 => { r with szHexMD5 := s }
  | .SHA1 => { r with szHexSHA1 := s }
  | .SHA256 => { r with szHexSHA256 := s }
  | .SHA512 => { r with szHexSHA512 := s }
  | .SHA3_256 => { r with szHexSHA3_256 := s }
  | .SHA3_512 => { r with szHexSHA3_512 := s }
  | .BLAKE3 => { r with szHexBLAKE3 := s }

/-! ## HashCheckCommon.h -/

/-- `MAX_PATH_BUFFER`. -/
def MAX_PATH_BUFFER : Nat := 0x800

/-- `READ_BUFFER_SIZE`. -/
def READ_BUFFER_SIZE : Nat := 0x40000

/-- `HCF_EXIT_PENDING`. -/
def HCF_EXIT_PENDING : Nat := 0x0001

/-- `HCF_MARQUEE`. -/
def HCF_MARQUEE : Nat := 0x0002

/-- `HCF_RESTARTING`. -/
def HCF_RESTARTING : Nat := 0x0004

/-- `HPF_HAS_RESIZED`. -/
def HPF_HAS_RESIZED : Nat := 0x0008

/-- `HPF_HLIST_PREPPED`. -/
def HPF_HLIST_PREPPED : Nat := 0x0010

/-- `HPF_INTERRUPTED`. -/
def HPF_INTERRUPTED : Nat := 0x0020

/-- `WORKERTHREADSTATUS`. -/
inductive WORKERTHREADSTATUS where
  | INACTIVE
  | ACTIVE
  | PAUSED
  | CANCEL_REQUESTED
  | CLEANUP_COMPLETED
  deriving DecidableEq, Repr

/-- The width of `DWORD` and `UINT`. -/
def DWORD_BITS : Nat := 32

/-- The value of `~x` for a `DWORD` `x`. -/
def DWORD_NOT (x : Nat) : Nat := 2 ^ DWORD_BITS - (x % 2 ^ DWORD_BITS + 1)

/-- The value of `++c` for a `UINT` counter `c` (`MSGCOUNT` is `volatile UINT`). -/
def UINT_INC (c : Nat) : Nat := (c + 1) % 2 ^ DWORD_BITS

/-! ## HashCalc.h and libs/SimpleList.h (declarations used by HashProp.c) -/

/-- Modelled from the spec: `HASHCALCITEM` (aliased `HASHPROPITEM`) is declared in
`HashCalc.h`, which is not among the sources. A work item is a file path with
its length in characters and the owning digest results; these are the members
`HashProp.c` reads (`szPath`, `cchPath`, `results`). -/
structure HASHPROPITEM where
  szPath : List Char
  cchPath : Nat
  results : WHRESULTEX
  deriving DecidableEq, Repr

/-- Modelled from the spec: the SimpleList handle `HSIMPLELIST` (`libs/SimpleList.h`
is not among the sources): an ordered, resettable sequence of work items with a
read cursor. -/
structure HSIMPLELIST where
  data : List HASHPROPITEM
  pos : Nat
  deriving DecidableEq, Repr

/-- `SLReset`: rewind the read cursor. -/
def SLReset (l : HSIMPLELIST) : HSIMPLELIST := { l with pos := 0 }

/-- `SLCreateEx(TRUE)`: a fresh, empty list. -/
def SLCreateEx : HSIMPLELIST := { data := [], pos := 0 }

/-- `SLGetDataAndStep`: the item under the cursor (as its index and data) and the
list with the cursor advanced, or `none` (a null pointer) at the end. -/
def SLGetDataAndStep (l : HSIMPLELIST) : Option ((Nat × HASHPROPITEM) × HSIMPLELIST) :=
  match l.data.get? l.pos with
  | some it => some ((l.pos, it), { l with pos := l.pos + 1 })
  | none => none

/-- `SLGetDataLast`: the last item of the list. -/
def SLGetDataLast (l : HSIMPLELIST) : Option HASHPROPITEM := l.data.getLast?

/-- The members `dwFlags` and `dwChecksums` of the options block `opt`. -/
structure HASHCHECKOPTIONS where
  dwFlags : Nat
  dwChecksums : Nat
  deriving DecidableEq, Repr

/-- Modelled from the spec: `HASHCALCCONTEXT` (aliased `HASHPROPCONTEXT`) is declared
in `HashCalc.h`, which is not among the sources. It starts with the members of
`COMMONCONTEXT` (`HashCheckCommon.h`); the remaining members are those
`HashProp.c` reads and writes. Window handles, fonts and window procedures are
left out; `hThread` records whether the handle is non-null, `hFileOut` is
`none` for `INVALID_HANDLE_VALUE`, and `scratch` holds the scratch struct
viewed as an array of `TCHAR`. -/
structure HASHPROPCONTEXT where
  status : WORKERTHREADSTATUS
  dwFlags : Nat
  cSentMsgs : Nat
  cHandledMsgs : Nat
  hThread : Bool
  hList : HSIMPLELIST
  hFileOut : Option Nat
  nFilterIndex : Nat
  cchPrefix : Nat
  cTotal : Nat
  cSuccess : Nat
  obScratch : Nat
  opt : HASHCHECKOPTIONS
  scratch : List Char
  deriving DecidableEq, Repr

/-- A message posted to the dialog window. The `lParam` of an update is the
pointer to the list item, that is its index in the list. -/
inductive Msg where
  | HM_WORKERTHREAD_DONE
  | HM_WORKERTHREAD_UPDATE (pItem : Nat)
  | HM_WORKERTHREAD_TOGGLEPREP (state : Bool)
  deriving DecidableEq, Repr

/-! ## HashProp.c: the worker thread -/

/-- What the worker thread reads from outside itself during one run.
`statusAtPauseCheck i` and `statusAtCancelCheck i` are the values of the volatile
`phpctx->status` read by the two tests that follow the hashing of the `i`-th
item fetched in this run (counting from 0); `unpauseSignalled i` tells whether
the wait on `hUnpauseEvent` entered there ever returns. -/
structure WorkerEnv where
  HashCalcPrepare : HASHPROPCONTEXT → Bool × HASHPROPCONTEXT
  VirtualAllocOk : Bool
  WorkerThreadHashFile : Nat → List Char → Nat → WHRESULTEX → WHRESULTEX
  statusAtPauseCheck : Nat → WORKERTHREADSTATUS
  unpauseSignalled : Nat → Bool
  statusAtCancelCheck : Nat → WORKERTHREADSTATUS

/-- One call of `WorkerThreadHashFile` made by the worker: the item it was made
for, the item data as fetched, and `whctx.dwFlags` as passed in. -/
structure HashCall where
  pItem : Nat
  item : HASHPROPITEM
  whctxFlags : Nat
  deriving DecidableEq, Repr

/-- The observable outcome of running the worker: the context (list included)
as the worker left it, the messages it posted (oldest first), the calls of the
hashing routine it made, and whether `HashPropWorkerMain` returned (`false`
when it is blocked for ever in `WaitForSingleObject`). -/
structure WorkerRun where
  ctx : HASHPROPCONTEXT
  posted : List Msg
  calls : List HashCall
  returned : Bool

/-- Store `it` at index `i` of the list data (the worker writes through the item
pointer). -/
def storeItem (l : HSIMPLELIST) (i : Nat) (it : HASHPROPITEM) : HSIMPLELIST :=
  { l with data := l.data.set i it }

/-- The `while (pItem = SLGetDataAndStep(phpctx->hList))` loop of
`HashPropWorkerMain`. `fuel` bounds the number of iterations (each iteration
advances the cursor, so `data.length - pos` iterations always suffice); `n`
counts the iterations made so far in this run. -/
def workerLoop (env : WorkerEnv) (checksumFlags : Nat) :
    Nat → Nat → WorkerRun → WorkerRun
  | 0, _, r => r
  | fuel + 1, n, r =>
    match SLGetDataAndStep r.ctx.hList with
    | none => r
    | some ((p, pItem), hList) =>
      -- whctx.dwFlags = checksumFlags & ~pItem->results.dwFlags;
      let whctxFlags := checksumFlags &&& DWORD_NOT pItem.results.dwFlags
      -- WorkerThreadHashFile(..., pItem->szPath, &whctx, &pItem->results, ...)
      let results := env.WorkerThreadHashFile n pItem.szPath whctxFlags pItem.results
      let ctx1 := { r.ctx with hList := storeItem hList p { pItem with results := results } }
      let calls := r.calls ++ [{ pItem := p, item := pItem, whctxFlags := whctxFlags }]
      -- if (phpctx->status == PAUSED) WaitForSingleObject(phpctx->hUnpauseEvent, INFINITE);
      if env.statusAtPauseCheck n = .PAUSED ∧ env.unpauseSignalled n = false then
        { r with ctx := ctx1, calls := calls, returned := false }
      -- if (phpctx->status == CANCEL_REQUESTED) break;
      else if env.statusAtCancelCheck n = .CANCEL_REQUESTED then
        { r with ctx := ctx1, calls := calls }
      else
        -- ++phpctx->cSentMsgs; PostMessage(..., HM_WORKERTHREAD_UPDATE, ..., pItem);
        workerLoop env checksumFlags fuel (n + 1)
          { r with
            ctx := { ctx1 with cSentMsgs := UINT_INC ctx1.cSentMsgs }
            posted := r.posted ++ [Msg.HM_WORKERTHREAD_UPDATE p]
            calls := calls }

/-- The statements of `HashPropWorkerMain` that precede the loop: the list
preparation and the allocation of the read buffer. The flag tells whether the
loop is reached (`false` for each of the two early `return`s). -/
def workerProlog (env : WorkerEnv) (phpctx : HASHPROPCONTEXT) : Bool × WorkerRun :=
  -- if (! (phpctx->dwFlags & HPF_HLIST_PREPPED))
  if phpctx.dwFlags &&& HPF_HLIST_PREPPED = 0 then
    match env.HashCalcPrepare phpctx with
    | (false, ctx) =>
      (false, { ctx := ctx, posted := [Msg.HM_WORKERTHREAD_TOGGLEPREP true],
                calls := [], returned := true })
    | (true, ctx) =>
      (env.VirtualAllocOk,
        { ctx := { ctx with dwFlags := ctx.dwFlags ||| HPF_HLIST_PREPPED },
          posted := [Msg.HM_WORKERTHREAD_TOGGLEPREP true, Msg.HM_WORKERTHREAD_TOGGLEPREP false],
          calls := [], returned := true })
  else
    (env.VirtualAllocOk,
      { ctx := phpctx, posted := [Msg.HM_WORKERTHREAD_TOGGLEPREP false],
        calls := [], returned := true })

/-- `HashPropWorkerMain`. -/
def HashPropWorkerMain (env : WorkerEnv) (phpctx : HASHPROPCONTEXT) : WorkerRun :=
  match workerProlog env phpctx with
  | (false, r) => r
  | (true, r) =>
    -- DWORD checksumFlags = (UINT8)phpctx->opt.dwChecksums;
    let checksumFlags := r.ctx.opt.dwChecksums % 2 ^ 8
    workerLoop env checksumFlags (r.ctx.hList.data.length - r.ctx.hList.pos) 0 r

/-- Modelled from the spec: `WorkerThreadHashFile` (`HashCheckCommon.c`) and the
`WHInitEx`/`WHUpdateEx`/`WHFinishEx` routines it drives (`WinHash.cpp`) are not
among the sources. Spec 4.1 and 4.4: the file is opened and streamed to one
digest context per algorithm of the compute set; algorithms outside the
compute set are skipped entirely and keep their previous value; `finish`
produces the hex digests and they become valid; on an open or read failure all
algorithms of the item are marked invalid. `file` is `none` for an open or
read failure, and otherwise gives, per algorithm, the hex digest of the bytes
read. -/
def WorkerThreadHashFile (file : Option (hash_algorithm → List Char))
    (whctxFlags : Nat) (pwhres : WHRESULTEX) : WHRESULTEX :=
  match file with
  | none => { pwhres with dwFlags := 0 }
  | some digest =>
    FOR_EACH_HASH.foldl
      (fun res alg =>
        if whctxFlags &&& WHEX_CHECK alg ≠ 0 then res.setHex alg (digest alg ++ [NUL]) else res)
      { pwhres with dwFlags := pwhres.dwFlags ||| whctxFlags }

/-! ## HashProp.c: the dialog side -/

/-- The value of `a - b` for `UINT` operands. -/
def UINT_SUB (a b : Nat) : Nat := (a % 2 ^ DWORD_BITS + 2 ^ DWORD_BITS - b % 2 ^ DWORD_BITS) % 2 ^ DWORD_BITS

/-- The value of `a + b` for `UINT` operands. -/
def UINT_ADD (a b : Nat) : Nat := (a + b) % 2 ^ DWORD_BITS

/-- Constants, resources and system outcomes that `HashProp.c` takes from headers
and libraries that are not among the sources: `sizeof(TCHAR)`, `MAX_STRINGRES`,
`sizeof(HASHPROPSCRATCH)`, the string resource `IDS_HP_FILELABEL`, the option
flag `HCOF_CHECKSUMS`, and whether `CreateThreadCRT` yields a thread. -/
structure DlgEnv where
  sizeofTCHAR : Nat
  MAX_STRINGRES : Nat
  sizeofHASHPROPSCRATCH : Nat
  IDS_HP_FILELABEL : List Char
  HCOF_CHECKSUMS : Nat
  CreateThreadCRT : Bool

/-- The state of the dialog controls that `HashProp.c` changes: the text of the
results box, the progress bar positions, and which controls are enabled. -/
structure HASHPROPUI where
  results : List Char
  pbTotalPos : Nat
  pbFilePos : Nat
  enSave : Bool
  enFindNext : Bool
  enSearchBox : Bool
  enProgTotal : Bool
  enProgFile : Bool
  enPause : Bool
  enStop : Bool
  deriving DecidableEq, Repr

/-- Calls that the dialog code makes and that the theorems speak about, recorded
in call order. `HashPropRestart` records the two message counters as they
are on entry; `assertion` records the source line of an `assert` and the
value of its condition. -/
inductive DlgCall where
  | WorkerThreadStop
  | WorkerThreadCleanup
  | CreateThreadCRT (ok : Bool)
  | HashPropRestart (cHandledMsgs cSentMsgs : Nat)
  | HashPropUpdateResults (pItem : Nat)
  | HashCalcClearInvalid (pItem : Nat)
  | EM_REPLACESEL (text : List Char)
  | HashPropDoSaveResults
  | assertion (line : Nat) (ok : Bool)
  deriving DecidableEq, Repr

/-- The dialog: its context, its controls, and the record of calls made. -/
structure HASHPROPDLG where
  ctx : HASHPROPCONTEXT
  ui : HASHPROPUI
  trace : List DlgCall
  deriving DecidableEq, Repr

/-- Modelled from the spec: `WorkerThreadStop` (`HashCheckCommon.c`) is not among
the sources. Spec 4.2: `{Active, Paused} → CancelRequested` (stop). -/
def WorkerThreadStop (ctx : HASHPROPCONTEXT) : HASHPROPCONTEXT :=
  if ctx.status = .ACTIVE ∨ ctx.status = .PAUSED then
    { ctx with status := .CANCEL_REQUESTED }
  else ctx

/-- Modelled from the spec: `WorkerThreadCleanup` (`HashCheckCommon.c`) is not
among the sources. Spec 4.2: once cleanup has completed the background thread
has exited, the state is `CleanupCompleted` and the held resources are
released. -/
def WorkerThreadCleanup (ctx : HASHPROPCONTEXT) : HASHPROPCONTEXT :=
  { ctx with status := .CLEANUP_COMPLETED, hThread := false }

/-- Modelled from the spec: `HashCalcClearInvalid` (`HashCalc.c`) is not among the
sources. Spec 3: absent or invalid entries are rendered with a sentinel fill
value. Every hex string whose validity bit is unset is filled with the
character `c` (`2 * digest length` times) and NUL-terminated. -/
def HashCalcClearInvalid (pwhres : WHRESULTEX) (c : Char) : WHRESULTEX :=
  FOR_EACH_HASH.foldl
    (fun res alg =>
      if pwhres.dwFlags &&& WHEX_CHECK alg = 0 then
        res.setHex alg (List.replicate (DIGEST_LENGTH alg * 2) c ++ [NUL])
      else res)
    pwhres

/-- `LoadString(hInstance, uID, lpBuffer, cchBufferMax)`: the characters copied to
the buffer (the resource cut to `cchBufferMax - 1` characters); a NUL follows
them and the return value is their number. -/
def LoadString (resource : List Char) (cchBufferMax : Nat) : List Char :=
  resource.take (cchBufferMax - 1)

/-- The `n` characters read from a `TCHAR` array from index `start` on (a position
past the end of the modelled array reads as NUL). -/
def readChars (src : List Char) (start n : Nat) : List Char :=
  (List.range n).map (fun i => src.getD (start + i) NUL)

/-- The characters the `FOR_EACH_HASH(HASH_RESULT_APPEND_op)` block appends: for
each requested algorithm, in macro order, `HASH_RESULT_op(alg)` without its
NUL, `alg##_DIGEST_LENGTH * 2` characters of `szHex##alg`, and `CRLF`. -/
def resultsText (dwChecksums : Nat) (results : WHRESULTEX) : List Char :=
  FOR_EACH_HASH.foldl
    (fun text alg =>
      if dwChecksums &&& WHEX_CHECK alg ≠ 0 then
        text ++ (HASH_RESULT_op alg ++ readChars (results.szHex alg) 0 (DIGEST_LENGTH alg * 2)
          ++ CRLF)
      else text)
    []

/-- The characters `HashPropUpdateResults` appends for one item, without the
terminating NUL: the file label, the path without its first `cchPrefix`
characters, `CRLF`, the results block, `CRLF`. -/
def itemText (denv : DlgEnv) (ctx : HASHPROPCONTEXT) (pItem : HASHPROPITEM) : List Char :=
  LoadString denv.IDS_HP_FILELABEL denv.MAX_STRINGRES
    ++ readChars pItem.szPath ctx.cchPrefix (UINT_SUB pItem.cchPath ctx.cchPrefix) ++ CRLF
    ++ resultsText ctx.opt.dwChecksums pItem.results
    ++ CRLF

/-- The final value of `cchMaxBufferRequired` in `HashPropUpdateResults` (build
without `_TIMED`): the sum of the four increments. `size_t` arithmetic is
taken as exact; the `UINT` expression `MAX_PATH_BUFFER - cchPrefix + CCH_CRLF`
wraps. -/
def cchMaxBufferRequired (denv : DlgEnv) (ctx : HASHPROPCONTEXT) (pItem : HASHPROPITEM) : Nat :=
  denv.MAX_STRINGRES
    + UINT_ADD (UINT_SUB MAX_PATH_BUFFER ctx.cchPrefix) CCH_CRLF
    + (resultsText ctx.opt.dwChecksums pItem.results).length
    + (CCH_CRLF + 1)

/-- Write `src` into the `TCHAR` array `buf` from index `off` on. -/
def memWrite (buf : List Char) (off : Nat) (src : List Char) : List Char :=
  (buf ++ List.replicate (off - buf.length) NUL).take off ++ src ++ buf.drop (off + src.length)

/-- The C string that starts at the beginning of a `TCHAR` array. -/
def cstr (buf : List Char) : List Char := buf.takeWhile (fun c => c ≠ NUL)

/-- The test `phpctx->opt.dwChecksums & ~pItem->results.dwFlags` at the head of
`HashPropUpdateResults`: some desired hash is not present in the results. -/
def hashesMissing (ctx : HASHPROPCONTEXT) (item : HASHPROPITEM) : Prop :=
  ctx.opt.dwChecksums &&& DWORD_NOT item.results.dwFlags ≠ 0

instance (ctx : HASHPROPCONTEXT) (item : HASHPROPITEM) : Decidable (hashesMissing ctx item) := by
  unfold hashesMissing; infer_instance

/-- The item as `HashPropUpdateResults` leaves it: with the invalid hashes replaced
by `X`s when some desired hash is missing, else unchanged. -/
def itemShown (ctx : HASHPROPCONTEXT) (item : HASHPROPITEM) : HASHPROPITEM :=
  if hashesMissing ctx item then { item with results := HashCalcClearInvalid item.results 'X' }
  else item

/-- The byte offset `BYTEDIFF(pszScratchAppend, &phpctx->scratch)` reached after the
text of `item` has been appended, as stored in the `UINT` `obScratch`. -/
def obScratchAfter (denv : DlgEnv) (ctx : HASHPROPCONTEXT) (item : HASHPROPITEM) : Nat :=
  (ctx.obScratch + (itemText denv ctx (itemShown ctx item)).length * denv.sizeofTCHAR)
    % 2 ^ DWORD_BITS

/-- `HashPropUpdateResults` (build without `_TIMED`). An item pointer that is not
in the list leaves the dialog unchanged. -/
def HashPropUpdateResults (denv : DlgEnv) (d : HASHPROPDLG) (pItem : Nat) : HASHPROPDLG :=
  match d.ctx.hList.data.get? pItem with
  | none => d
  | some item0 =>
    let ctx := d.ctx
    let trace := d.trace ++ [DlgCall.HashPropUpdateResults pItem]
    -- if (phpctx->opt.dwChecksums & ~pItem->results.dwFlags) HashCalcClearInvalid(...)
    -- else ++phpctx->cSuccess;
    let item := itemShown ctx item0
    let trace :=
      if hashesMissing ctx item0 then trace ++ [DlgCall.HashCalcClearInvalid pItem] else trace
    let cSuccess := if hashesMissing ctx item0 then ctx.cSuccess else UINT_INC ctx.cSuccess
    -- pszScratchAppend = BYTEADD(&phpctx->scratch, phpctx->obScratch); ... the appends
    let text := itemText denv ctx item
    let scratch := memWrite ctx.scratch (ctx.obScratch / denv.sizeofTCHAR) (text ++ [NUL])
    -- phpctx->obScratch = (UINT)BYTEDIFF(pszScratchAppend, &phpctx->scratch);
    let ctx1 : HASHPROPCONTEXT :=
      { ctx with
        hList := storeItem ctx.hList pItem item
        cSuccess := cSuccess
        scratch := scratch
        obScratch := obScratchAfter denv ctx item0 }
    -- Determine if we can skip flushing the buffer
    if ctx1.cSentMsgs > ctx1.cHandledMsgs ∧
        ctx1.obScratch + cchMaxBufferRequired denv ctx item * denv.sizeofTCHAR
          ≤ denv.sizeofHASHPROPSCRATCH then
      { d with ctx := ctx1, trace := trace }
    else
      -- Flush the buffer to the text box
      { ctx := { ctx1 with obScratch := 0 }
        ui := { d.ui with results := d.ui.results ++ cstr scratch, pbTotalPos := ctx1.cHandledMsgs }
        trace := trace ++ [DlgCall.EM_REPLACESEL (cstr scratch)] }

/-- The calls that `HashPropUpdateResults` records before it decides whether to
flush. -/
def updateTrace (d : HASHPROPDLG) (pItem : Nat) (item : HASHPROPITEM) : List DlgCall :=
  if hashesMissing d.ctx item then
    d.trace ++ [DlgCall.HashPropUpdateResults pItem] ++ [DlgCall.HashCalcClearInvalid pItem]
  else d.trace ++ [DlgCall.HashPropUpdateResults pItem]

/-- The condition under which `HashPropUpdateResults` flushes: the backlog has
drained, or the new offset plus one item's maximum text size in bytes exceeds
`sizeof(HASHPROPSCRATCH)`. -/
def mustFlush (denv : DlgEnv) (d : HASHPROPDLG) (item : HASHPROPITEM) : Prop :=
  ¬ (d.ctx.cSentMsgs > d.ctx.cHandledMsgs)
  ∨ obScratchAfter denv d.ctx item
      + cchMaxBufferRequired denv d.ctx (itemShown d.ctx item) * denv.sizeofTCHAR
      > denv.sizeofHASHPROPSCRATCH

/-- `HashPropRestart`. -/
def HashPropRestart (denv : DlgEnv) (d : HASHPROPDLG) : HASHPROPDLG :=
  let ctx := d.ctx
  let trace := d.trace ++ [DlgCall.HashPropRestart ctx.cHandledMsgs ctx.cSentMsgs]
  -- phpctx->dwFlags &= ~(HCF_RESTARTING | HPF_INTERRUPTED);
  let ctx := { ctx with dwFlags := ctx.dwFlags &&& DWORD_NOT (HCF_RESTARTING ||| HPF_INTERRUPTED) }
  -- Just reset the list if it's fully loaded, else reload it from scratch
  let ctx : HASHPROPCONTEXT :=
    if ctx.dwFlags &&& HPF_HLIST_PREPPED ≠ 0 then { ctx with hList := SLReset ctx.hList }
    else { ctx with hList := SLCreateEx, cTotal := 0 }
  -- Reset the GUI to its initial state
  let ui : HASHPROPUI :=
    { results := []
      pbTotalPos := 0
      pbFilePos := 0
      enSave := false
      enFindNext := false
      enSearchBox := false
      enProgTotal := true
      enProgFile := true
      enPause := true
      enStop := true }
  let ctx := { ctx with cSuccess := 0, obScratch := 0 }
  -- phpctx->hThread = CreateThreadCRT(NULL, phpctx);
  let ctx := { ctx with hThread := denv.CreateThreadCRT }
  let trace := trace ++ [DlgCall.CreateThreadCRT denv.CreateThreadCRT]
  -- if (!phpctx->hThread) WorkerThreadCleanup((PCOMMONCONTEXT)phpctx);
  if ctx.hThread = false then
    { ctx := WorkerThreadCleanup ctx, ui := ui, trace := trace ++ [DlgCall.WorkerThreadCleanup] }
  else
    { ctx := ctx, ui := ui, trace := trace }

/-- The `HM_WORKERTHREAD_UPDATE` case of `HashPropDlgProc`; `pItem` is the `lParam`. -/
def HashPropDlgProc_UPDATE (denv : DlgEnv) (d : HASHPROPDLG) (pItem : Nat) : HASHPROPDLG :=
  -- ++phpctx->cHandledMsgs;
  let d1 := { d with ctx := { d.ctx with cHandledMsgs := UINT_INC d.ctx.cHandledMsgs } }
  -- If we're restarting the worker thread, no need to update the GUI
  if d1.ctx.dwFlags &&& HCF_RESTARTING ≠ 0 then
    -- Only restart the worker thread once we're caught up on handled messages
    if d1.ctx.cHandledMsgs ≥ d1.ctx.cSentMsgs then HashPropRestart denv d1 else d1
  else
    HashPropUpdateResults denv d1 pItem

/-- `HashPropFinalStatus`: the search controls are enabled, and the save button is
enabled only if the run was not interrupted and some item succeeded. The
status text is left out. -/
def HashPropFinalStatus (d : HASHPROPDLG) : HASHPROPDLG :=
  let ui := { d.ui with enSearchBox := true, enFindNext := true }
  -- if (!(phpctx->dwFlags & HPF_INTERRUPTED) && phpctx->cSuccess > 0)
  if d.ctx.dwFlags &&& HPF_INTERRUPTED = 0 ∧ d.ctx.cSuccess > 0 then
    { d with ui := { ui with enSave := true } }
  else { d with ui := ui }

/-- `HashPropDoSaveResults`: unless the run was interrupted the list is rewound and
every item is written out (the writer, `HashCalcWriteResult`, is not among the
sources; the cursor ends at the end of the list); the output handle is closed
and invalidated. -/
def HashPropDoSaveResults (d : HASHPROPDLG) : HASHPROPDLG :=
  let trace := d.trace ++ [DlgCall.HashPropDoSaveResults,
    DlgCall.assertion 840 (decide (d.ctx.hFileOut ≠ none))]
  let hList : HSIMPLELIST :=
    if d.ctx.dwFlags &&& HPF_INTERRUPTED = 0 then
      { d.ctx.hList with pos := d.ctx.hList.data.length }
    else d.ctx.hList
  { d with ctx := { d.ctx with hList := hList, hFileOut := none }, trace := trace }

/-- `HashPropSaveResultsCleanup`: a partially generated checksum file is deleted and
its handle invalidated. -/
def HashPropSaveResultsCleanup (d : HASHPROPDLG) : HASHPROPDLG :=
  { d with ctx := { d.ctx with hFileOut := none } }

/-- `HashPropSaveResults`. `hFileOut` and `nFilterIndex` are what `HashCalcInitSave`
(not among the sources) stores in the context: the handle of the output file,
`none` when no file was chosen, and the index of the chosen file filter. An
empty list (a null `SLGetDataLast`) leaves the dialog as `HashCalcInitSave`
left it. -/
def HashPropSaveResults (denv : DlgEnv) (hFileOut : Option Nat) (nFilterIndex : Nat)
    (d : HASHPROPDLG) : HASHPROPDLG :=
  let trace := d.trace ++
    [DlgCall.assertion 812 (decide (d.ctx.dwFlags &&& HPF_INTERRUPTED = 0)),
     DlgCall.assertion 813 (decide (d.ctx.cSuccess > 0))]
  -- HashCalcInitSave will set the file handle
  let d1 : HASHPROPDLG :=
    { d with ctx := { d.ctx with hFileOut := hFileOut, nFilterIndex := nFilterIndex }, trace := trace }
  if d1.ctx.hFileOut ≠ none then
    -- DWORD dwDesiredHash = 1 << (phpctx->ofn.nFilterIndex - 1);
    let dwDesiredHash := (1 <<< UINT_SUB d1.ctx.nFilterIndex 1) % 2 ^ DWORD_BITS
    match SLGetDataLast d1.ctx.hList with
    | none => d1
    | some last =>
      if last.results.dwFlags &&& dwDesiredHash ≠ 0 then
        HashPropDoSaveResults d1
      else
        let trace := d1.trace ++
          [DlgCall.assertion 829 (decide (d1.ctx.status = .CLEANUP_COMPLETED)),
           DlgCall.assertion 830 (decide (d1.ctx.cHandledMsgs ≥ d1.ctx.cSentMsgs))]
        -- phpctx->opt.dwChecksums |= dwDesiredHash;
        let opt := { d1.ctx.opt with dwChecksums := d1.ctx.opt.dwChecksums ||| dwDesiredHash }
        HashPropRestart denv { d1 with ctx := { d1.ctx with opt := opt }, trace := trace }
  else d1

/-- The first part of `HashPropOptions`, up to and including `WorkerThreadStop`.
`opt` is the options block as `OptionsDialog` (not among the sources) leaves
it. The flag tells whether the checksum options changed with no file save in
progress, in which case `WorkerThreadCleanup` and the rest follow. The font
update at the end of the function is left out. -/
def HashPropOptions_stop (denv : DlgEnv) (opt : HASHCHECKOPTIONS) (d : HASHPROPDLG) :
    Bool × HASHPROPDLG :=
  let d1 : HASHPROPDLG := { d with ctx := { d.ctx with opt := opt } }
  -- if (phpctx->opt.dwFlags & HCOF_CHECKSUMS && phpctx->hFileOut == INVALID_HANDLE_VALUE)
  if d1.ctx.opt.dwFlags &&& denv.HCOF_CHECKSUMS ≠ 0 ∧ d1.ctx.hFileOut = none then
    -- phpctx->dwFlags |= HCF_RESTARTING; WorkerThreadStop((PCOMMONCONTEXT)phpctx);
    let ctx := { d1.ctx with dwFlags := d1.ctx.dwFlags ||| HCF_RESTARTING }
    (true, { d1 with ctx := WorkerThreadStop ctx, trace := d1.trace ++ [DlgCall.WorkerThreadStop] })
  else (false, d1)

/-- The second part of `HashPropOptions`, from `WorkerThreadCleanup` on (entered
when the worker thread has exited): the restart, unless updates are pending. -/
def HashPropOptions_cleanup (denv : DlgEnv) (d : HASHPROPDLG) : HASHPROPDLG :=
  let d1 : HASHPROPDLG :=
    { d with ctx := WorkerThreadCleanup d.ctx, trace := d.trace ++ [DlgCall.WorkerThreadCleanup] }
  -- if (phpctx->cHandledMsgs >= phpctx->cSentMsgs) HashPropRestart(phpctx);
  if d1.ctx.cHandledMsgs ≥ d1.ctx.cSentMsgs then HashPropRestart denv d1
  -- Otherwise the call to HashPropRestart() is made following the
  -- last pending HM_WORKERTHREAD_UPDATE message in HashPropDlgProc()
  else d1

/-- `HashPropOptions`, for a worker thread that makes no step while the function
runs. -/
def HashPropOptions (denv : DlgEnv) (opt : HASHCHECKOPTIONS) (d : HASHPROPDLG) : HASHPROPDLG :=
  match HashPropOptions_stop denv opt d with
  | (true, d1) => HashPropOptions_cleanup denv d1
  | (false, d1) => d1

/-- The `HM_WORKERTHREAD_DONE` case of `HashPropDlgProc`. -/
def HashPropDlgProc_DONE (d : HASHPROPDLG) : HASHPROPDLG :=
  let d1 : HASHPROPDLG :=
    { d with ctx := WorkerThreadCleanup d.ctx, trace := d.trace ++ [DlgCall.WorkerThreadCleanup] }
  -- if (phpctx->hFileOut != INVALID_HANDLE_VALUE) HashPropDoSaveResults(phpctx);
  let d2 := if d1.ctx.hFileOut ≠ none then HashPropDoSaveResults d1 else d1
  HashPropFinalStatus d2

/-- The `IDC_STOP` case of `WM_COMMAND` in `HashPropDlgProc`. -/
def HashPropDlgProc_STOP (d : HASHPROPDLG) : HASHPROPDLG :=
  -- phpctx->dwFlags |= HPF_INTERRUPTED;
  let ctx := { d.ctx with dwFlags := d.ctx.dwFlags ||| HPF_INTERRUPTED }
  HashPropSaveResultsCleanup
    { d with ctx := WorkerThreadStop ctx, trace := d.trace ++ [DlgCall.WorkerThreadStop] }

/-- Modelled from the spec: `WorkerThreadTogglePause` (`HashCheckCommon.c`) is not
among the sources. Spec 4.2: `Active ⇄ Paused` (toggle-pause/resume). -/
def WorkerThreadTogglePause (ctx : HASHPROPCONTEXT) : HASHPROPCONTEXT :=
  match ctx.status with
  | .ACTIVE => { ctx with status := .PAUSED }
  | .PAUSED => { ctx with status := .ACTIVE }
  | _ => ctx

/-- The `IDC_PAUSE` case of `WM_COMMAND` in `HashPropDlgProc`. -/
def HashPropDlgProc_PAUSE (d : HASHPROPDLG) : HASHPROPDLG :=
  { d with ctx := WorkerThreadTogglePause d.ctx }

instance (denv : DlgEnv) (d : HASHPROPDLG) (item : HASHPROPITEM) :
    Decidable (mustFlush denv d item) := by
  unfold mustFlush; infer_instance

/-- The scratch-buffer invariant stated in the comment of `HashPropUpdateResults`:
the buffer is empty, or it has room left for the maximum text of one more
item, whichever item comes next. -/
def ScratchInv (denv : DlgEnv) (d : HASHPROPDLG) : Prop :=
  d.ctx.obScratch = 0
  ∨ ∀ next : HASHPROPITEM,
      d.ctx.obScratch + cchMaxBufferRequired denv d.ctx next * denv.sizeofTCHAR
        ≤ denv.sizeofHASHPROPSCRATCH

/-! ## The producer/consumer pipeline -/

/-- A state of the update pipeline between the worker thread and the dialog
thread. `queue` holds the `lParam`s of the `HM_WORKERTHREAD_UPDATE` messages
posted and not yet handled (oldest first); `posting` is `some p` while the
worker is between `++phpctx->cSentMsgs` and the `PostMessage` for item `p`;
`nPosts` counts the increments of `cSentMsgs` executed so far. -/
structure PipeState where
  d : HASHPROPDLG
  queue : List Nat
  posting : Option Nat
  nPosts : Nat

/-- One step of the pipeline. `work`: the worker writes item results through the
list. `inc`: the worker executes `++phpctx->cSentMsgs` for item `p`. `post`:
the worker posts the update it has counted. `handle`: the dialog thread takes
the oldest posted update and runs the `HM_WORKERTHREAD_UPDATE` handler. -/
inductive PipeStep (denv : DlgEnv) : PipeState → PipeState → Prop where
  | work (s : PipeState) (hList : HSIMPLELIST) (h : s.posting = none) :
      PipeStep denv s { s with d := { s.d with ctx := { s.d.ctx with hList := hList } } }
  | inc (s : PipeState) (p : Nat) (h : s.posting = none) :
      PipeStep denv s
        { s with
          d := { s.d with ctx := { s.d.ctx with cSentMsgs := UINT_INC s.d.ctx.cSentMsgs } }
          posting := some p
          nPosts := s.nPosts + 1 }
  | post (s : PipeState) (p : Nat) (h : s.posting = some p) :
      PipeStep denv s { s with queue := s.queue ++ [p], posting := none }
  | handle (s : PipeState) (p : Nat) (q : List Nat) (h : s.queue = p :: q) :
      PipeStep denv s { s with d := HashPropDlgProc_UPDATE denv s.d p, queue := q }

/-- The states reachable from the dialog `d0` with no update queued and none
counted. -/
inductive PipeReach (denv : DlgEnv) (d0 : HASHPROPDLG) : PipeState → Prop where
  | init : PipeReach denv d0 { d := d0, queue := [], posting := none, nPosts := 0 }
  | step (s t : PipeState) (hs : PipeReach denv d0 s) (ht : PipeStep denv s t) :
      PipeReach denv d0 t

/-- The number of updates counted in `cSentMsgs` and not yet posted: 1 while the
worker is between the increment and the post, else 0. -/
def PipeState.inFlight (s : PipeState) : Nat := if s.posting.isSome then 1 else 0

/-! ## The dialog, its message queue and the worker thread -/

/-- Whether the dialog code has created a worker thread between `d1` and `d2`: the
record of calls has gained a successful `CreateThreadCRT`. -/
def startedThread (d1 d2 : HASHPROPDLG) : Bool :=
  decide (d1.trace.count (DlgCall.CreateThreadCRT true)
    < d2.trace.count (DlgCall.CreateThreadCRT true))

/-- The constants of the dialog side with the outcome of the next `CreateThreadCRT`. -/
def withThread (denv : DlgEnv) (ok : Bool) : DlgEnv := { denv with CreateThreadCRT := ok }

/-- A state of the whole dialog: the dialog data, the queue of messages posted by
worker threads and not yet handled (oldest first), whether a worker thread
that has not exited exists, the update it has counted and not yet posted,
whether the dialog thread stands inside the `WorkerThreadCleanup` of
`HashPropOptions` waiting for the worker to exit, and the number of
increments of `cSentMsgs` so far. `gen` and the number paired with each
queued message are bookkeeping only: `gen` counts the worker threads created
by the dialog code, and a message carries the value of `gen` at its post. -/
structure SysState where
  d : HASHPROPDLG
  queue : List (Msg × Nat)
  alive : Bool
  posting : Option Nat
  uiWait : Bool
  nPosts : Nat
  gen : Nat

/-- The state after the dialog thread has run a function that took the dialog data
to `d`: a worker thread exists if one existed or one was created. -/
def SysState.afterDialog (s : SysState) (d : HASHPROPDLG) : SysState :=
  { s with
    d := d
    alive := s.alive || startedThread s.d d
    gen := if startedThread s.d d then s.gen + 1 else s.gen }

/-- One step of the dialog with its worker thread.

Worker thread (`HashPropWorkerMain`, run by the thread that `CreateThreadCRT`
creates): `w_work` writes the list (preparation, item results), `w_inc` is
`++phpctx->cSentMsgs`, `w_post` the `PostMessage` of the counted update,
`w_exit` the end of the thread, where `HM_WORKERTHREAD_DONE` is posted or not
(the thread start-up routine is not among the sources; the spec has it posted
once per run).

Dialog thread, idle (`uiWait = false`): `ui_update` and `ui_done` handle the
oldest queued message; `ui_done` runs at the moment the `WorkerThreadCleanup`
at its head has seen the worker exit. `ui_options_stop` is an options change
up to `WorkerThreadStop`, after which the thread waits in
`WorkerThreadCleanup` if the checksum options changed; `ui_options_cleanup`
is the rest of `HashPropOptions`, once the worker has exited. `ui_save` is a
click on the save button, possible only while the button is enabled;
`ui_stop` and `ui_pause` are the other two buttons. -/
inductive SysStep (denv : DlgEnv) : SysState → SysState → Prop where
  | w_work (s : SysState) (hList : HSIMPLELIST) (cTotal cchPrefix : Nat) (prepped : Bool)
      (h1 : s.alive = true) :
      SysStep denv s
        { s with d := { s.d with ctx := { s.d.ctx with
            hList := hList
            cTotal := cTotal
            cchPrefix := cchPrefix
            dwFlags := if prepped then s.d.ctx.dwFlags ||| HPF_HLIST_PREPPED
              else s.d.ctx.dwFlags } } }
  | w_inc (s : SysState) (p : Nat) (h1 : s.alive = true) (h2 : s.posting = none) :
      SysStep denv s
        { s with
          d := { s.d with ctx := { s.d.ctx with cSentMsgs := UINT_INC s.d.ctx.cSentMsgs } }
          posting := some p
          nPosts := s.nPosts + 1 }
  | w_post (s : SysState) (p : Nat) (h1 : s.posting = some p) :
      SysStep denv s
        { s with queue := s.queue ++ [(Msg.HM_WORKERTHREAD_UPDATE p, s.gen)], posting := none }
  | w_exit (s : SysState) (done : Bool) (h1 : s.alive = true) (h2 : s.posting = none) :
      SysStep denv s
        { s with
          queue := s.queue ++ (if done then [(Msg.HM_WORKERTHREAD_DONE, s.gen)] else [])
          alive := false }
  | ui_update (s : SysState) (p g : Nat) (q : List (Msg × Nat)) (ok : Bool)
      (h1 : s.uiWait = false) (h2 : s.queue = (Msg.HM_WORKERTHREAD_UPDATE p, g) :: q) :
      SysStep denv s
        (SysState.afterDialog { s with queue := q }
          (HashPropDlgProc_UPDATE (withThread denv ok) s.d p))
  | ui_done (s : SysState) (g : Nat) (q : List (Msg × Nat))
      (h1 : s.uiWait = false) (h2 : s.alive = false)
      (h3 : s.queue = (Msg.HM_WORKERTHREAD_DONE, g) :: q) :
      SysStep denv s { s with queue := q, d := HashPropDlgProc_DONE s.d }
  | ui_options_stop (s : SysState) (opt : HASHCHECKOPTIONS) (h1 : s.uiWait = false) :
      SysStep denv s
        { s with
          d := (HashPropOptions_stop denv opt s.d).2
          uiWait := (HashPropOptions_stop denv opt s.d).1 }
  | ui_options_cleanup (s : SysState) (ok : Bool) (h1 : s.uiWait = true)
      (h2 : s.alive = false) :
      SysStep denv s
        (SysState.afterDialog { s with uiWait := false }
          (HashPropOptions_cleanup (withThread denv ok) s.d))
  | ui_save (s : SysState) (hFileOut : Option Nat) (nFilterIndex : Nat) (ok : Bool)
      (h1 : s.uiWait = false) (h2 : s.d.ui.enSave = true) :
      SysStep denv s
        (SysState.afterDialog s
          (HashPropSaveResults (withThread denv ok) hFileOut nFilterIndex s.d))
  | ui_stop (s : SysState) (h1 : s.uiWait = false) :
      SysStep denv s { s with d := HashPropDlgProc_STOP s.d }
  | ui_pause (s : SysState) (h1 : s.uiWait = false) :
      SysStep denv s { s with d := HashPropDlgProc_PAUSE s.d }

/-- The dialog when it opens: no message queued, nothing counted, both counters 0,
no restart pending, the save button disabled, no call recorded. -/
def SysInit (s : SysState) : Prop :=
  s.queue = [] ∧ s.posting = none ∧ s.uiWait = false ∧ s.nPosts = 0
  ∧ s.d.ctx.cSentMsgs = 0 ∧ s.d.ctx.cHandledMsgs = 0
  ∧ s.d.ctx.dwFlags &&& HCF_RESTARTING = 0 ∧ s.d.ui.enSave = false ∧ s.d.trace = []

/-- The reachable states of the dialog. -/
inductive SysReach (denv : DlgEnv) : SysState → Prop where
  | init (s : SysState) (h : SysInit s) : SysReach denv s
  | step (s t : SysState) (hs : SysReach denv s) (ht : SysStep denv s t) : SysReach denv t

/-- Whether a message is an `HM_WORKERTHREAD_UPDATE`. -/
def Msg.isUpdate : Msg → Bool
  | Msg.HM_WORKERTHREAD_UPDATE _ => true
  | _ => false

/-- The number of `HM_WORKERTHREAD_UPDATE` messages in a queue. -/
def updatesIn (q : List (Msg × Nat)) : Nat := q.countP (fun x => x.1.isUpdate)

/-- What the two properties of C7 say about one recorded call: a `HashPropRestart`
was entered with `cHandledMsgs >= cSentMsgs`, and the `assert` of line 830
held. -/
def eventOK : DlgCall → Prop
  | .HashPropRestart cHandledMsgs cSentMsgs => cHandledMsgs ≥ cSentMsgs
  | .assertion line ok => line = 830 → ok = true
  | _ => True

/-- Every recorded call satisfies `eventOK`. -/
def TraceOK (t : List DlgCall) : Prop := ∀ e ∈ t, eventOK e

/-- The order of two queued messages, the first posted before the second: the
second comes from the same or a later worker thread, and from a later one if
the first is the `HM_WORKERTHREAD_DONE` that a worker posts when it ends. -/
def QueueOrder (x y : Msg × Nat) : Prop :=
  x.2 ≤ y.2 ∧ (x.1 = Msg.HM_WORKERTHREAD_DONE → x.2 < y.2)

/-- The invariant of the dialog, for counters that have not wrapped.
`sent`, `handled`: `cSentMsgs` is the number of updates counted and
`cHandledMsgs` that number less the updates queued or counted and not yet
posted. `posting`: only a live worker stands between count and post.
`tagLe`, `doneOld`, `updCur`, `order`: the queued messages are in posting
order, the queued updates come from the latest worker, and while a worker
lives every queued `HM_WORKERTHREAD_DONE` is from an earlier one.
`stale`: while a `HM_WORKERTHREAD_DONE` of an earlier worker is queued, no
update of the latest worker has been handled (`cSuccess = 0`).
`save`: while the save button is enabled no worker lives and no update is
queued. `pending`: while a restart is pending and the dialog thread is idle,
no worker lives and updates are still unhandled. `trace`: every recorded
restart was entered with `cHandledMsgs >= cSentMsgs` and every recorded
`assert` of line 830 held. -/
structure SysInv (s : SysState) : Prop where
  sent : s.d.ctx.cSentMsgs = s.nPosts
  handled : s.d.ctx.cHandledMsgs + updatesIn s.queue + (if s.posting.isSome then 1 else 0)
    = s.nPosts
  posting : s.posting.isSome = true → s.alive = true
  tagLe : ∀ x ∈ s.queue, x.2 ≤ s.gen
  doneOld : s.alive = true → ∀ x ∈ s.queue, x.1 = Msg.HM_WORKERTHREAD_DONE → x.2 < s.gen
  updCur : ∀ x ∈ s.queue, x.1.isUpdate = true → x.2 = s.gen
  order : s.queue.Pairwise QueueOrder
  stale : (∃ x ∈ s.queue, x.1 = Msg.HM_WORKERTHREAD_DONE ∧ x.2 < s.gen) → s.d.ctx.cSuccess = 0
  save : s.d.ui.enSave = true → s.alive = false ∧ updatesIn s.queue = 0
  pending : s.d.ctx.dwFlags &&& HCF_RESTARTING ≠ 0 → s.uiWait = false →
    s.alive = false ∧ s.d.ctx.cHandledMsgs < s.d.ctx.cSentMsgs
  trace : TraceOK s.d.trace

/-! ## The backlog governor -/

/-- The watermark of the backlog governor (spec 4.3 and 6: reference value 50; the
comment of `HashPropUpdateResults` names the same value). -/
def WATERMARK : Nat := 50

/-- Modelled from the spec: the throttle is not in `HashProp.c`; the worker calls
`WorkerThreadHashFile` (`HashCheckCommon.c`, not among the sources) at the
start of every item. Spec 4.3: if `sent − handled` exceeds the watermark the
producer pauses additional production until the consumer catches up; it may
still finish the current item but defers starting the next. `throttled` is
the condition under which the start of the next item is deferred. -/
def throttled (ctx : HASHPROPCONTEXT) : Prop :=
  ctx.cSentMsgs > ctx.cHandledMsgs + WATERMARK

instance (ctx : HASHPROPCONTEXT) : Decidable (throttled ctx) := by
  unfold throttled; infer_instance

/-- A state of the pipeline with the governor: the pipeline state, and whether the
worker has started an item (passed the throttle) that it has not yet counted. -/
structure GovState where
  pipe : PipeState
  hashing : Bool

/-- One step of the governed pipeline. `start`: the worker, not throttled, starts the
next item. `inc`: the worker counts the item it has finished. `other`: any
pipeline step that is not a count (the post of a counted update, the handling
of a posted update, a write to the list). -/
inductive GovStep (denv : DlgEnv) : GovState → GovState → Prop where
  | start (s : GovState) (h1 : s.hashing = false) (h2 : s.pipe.posting = none)
      (h3 : ¬ throttled s.pipe.d.ctx) :
      GovStep denv s { s with hashing := true }
  | inc (s : GovState) (t : PipeState) (h1 : s.hashing = true)
      (h2 : PipeStep denv s.pipe t) (h3 : t.nPosts = s.pipe.nPosts + 1) :
      GovStep denv s { pipe := t, hashing := false }
  | other (s : GovState) (t : PipeState)
      (h2 : PipeStep denv s.pipe t) (h3 : t.nPosts = s.pipe.nPosts) :
      GovStep denv s { s with pipe := t }

/-- The states of the governed pipeline reachable from the dialog `d0` with no
update queued, none counted and no item started. -/
inductive GovReach (denv : DlgEnv) (d0 : HASHPROPDLG) : GovState → Prop where
  | init : GovReach denv d0
      { pipe := { d := d0, queue := [], posting := none, nPosts := 0 }, hashing := false }
  | step (s t : GovState) (hs : GovReach denv d0 s) (ht : GovStep denv s t) :
      GovReach denv d0 t

/-- The environment of an uninterrupted run: as `env`, but the status read between
items is always `ACTIVE`. -/
def uninterrupted (env : WorkerEnv) : WorkerEnv :=
  { env with
    statusAtPauseCheck := fun _ => .ACTIVE
    statusAtCancelCheck := fun _ => .ACTIVE }

/-! ## Sequences of handled updates -/

/-- What the worker thread has written by the time the dialog thread handles the
next update (the list with its item results, and `cSentMsgs`), together with
the `lParam` of that update. -/
structure UpdateStep where
  hList : HSIMPLELIST
  cSentMsgs : Nat
  pItem : Nat

/-- The dialog after the `HM_WORKERTHREAD_UPDATE` handler has run for one update. -/
def handleUpdate (denv : DlgEnv) (d : HASHPROPDLG) (u : UpdateStep) : HASHPROPDLG :=
  HashPropDlgProc_UPDATE denv
    { d with ctx := { d.ctx with hList := u.hList, cSentMsgs := u.cSentMsgs } } u.pItem

/-- The dialog after the updates `us` have been handled in order. -/
def handleUpdates (denv : DlgEnv) (d : HASHPROPDLG) (us : List UpdateStep) : HASHPROPDLG :=
  us.foldl (handleUpdate denv) d

/-- Whether the item of an update has, when the update is handled, every requested
algorithm valid. -/
def stepSucceeds (ctx : HASHPROPCONTEXT) (u : UpdateStep) : Bool :=
  match u.hList.data.get? u.pItem with
  | some item => decide (¬ hashesMissing ctx item)
  | none => false

/-! ## HashProp.c: dialog initialisation -/

/-- `HashPropDlgInit`, for the members of the context that are modelled. `opt` is the
options block as `OptionsLoad` (not among the sources) leaves it; the control
texts, the font and the subclassing of the edit boxes are left out. -/
def HashPropDlgInit (opt : HASHCHECKOPTIONS) (d : HASHPROPDLG) : HASHPROPDLG :=
  { d with ctx := { d.ctx with
      opt := opt
      hList := SLCreateEx
      dwFlags := 0
      cTotal := 0
      cSuccess := 0
      obScratch := 0
      hThread := false
      hFileOut := none
      nFilterIndex := 0 } }

/-- The `WM_INITDIALOG` case of `HashPropDlgProc`. -/
def HashPropDlgProc_INITDIALOG (denv : DlgEnv) (opt : HASHCHECKOPTIONS) (d : HASHPROPDLG) :
    HASHPROPDLG :=
  let d1 := HashPropDlgInit opt d
  -- phpctx->hThread = CreateThreadCRT(NULL, phpctx);
  let ctx := { d1.ctx with hThread := denv.CreateThreadCRT }
  let trace := d1.trace ++ [DlgCall.CreateThreadCRT denv.CreateThreadCRT]
  -- if (!phpctx->hThread) WorkerThreadCleanup((PCOMMONCONTEXT)phpctx);
  if ctx.hThread = false then
    { d1 with ctx := WorkerThreadCleanup ctx, trace := trace ++ [DlgCall.WorkerThreadCleanup] }
  else
    { d1 with ctx := ctx, trace := trace }

/-! ## HashProp.c: one line of the results text -/

/-- The characters one `HASH_RESULT_APPEND_op(alg)` appends (its `SSChainNCpy3` call):
`HASH_RESULT_op(alg)` without its NUL, `alg##_DIGEST_LENGTH * 2` characters of
`szHex##alg`, and `CRLF`. -/
def HASH_RESULT_APPEND_op (alg : hash_algorithm) (results : WHRESULTEX) : List Char :=
  HASH_RESULT_op alg ++ readChars (results.szHex alg) 0 (DIGEST_LENGTH alg * 2) ++ CRLF

/-! ## libs/WinHash.h: the CRC-32 wrapper -/

/-- `WHCTXCRC32`: the union of the `UINT32` `state` and the byte array `result`. The
value held is that of `state`; `result` reads the same four bytes. -/
structure WHCTXCRC32 where
  state : Nat
  deriving DecidableEq, Repr

/-- The member `result[i]` of a `WHCTXCRC32` on a little-endian machine: byte `i` of
`state`, counted from the least significant byte. -/
def WHCTXCRC32.result (c : WHCTXCRC32) (i : Nat) : Nat := c.state / 256 ^ i % 256

/-- Modelled from the spec: `SwapV32` (`BitwiseIntrinsics.h`) is not among the
sources. Spec 4.1: a checksum with a native internal representation is
converted to a canonical fixed-endian byte order at `finish()`. The four bytes
of a 32-bit value are put in the reverse order. -/
def SwapV32 (x : Nat) : Nat :=
  (x % 256) * 2 ^ 24 + (x / 2 ^ 8 % 256) * 2 ^ 16 + (x / 2 ^ 16 % 256) * 2 ^ 8 + x / 2 ^ 24 % 256

/-- `WHInitCRC32`. -/
def WHInitCRC32 (pContext : WHCTXCRC32) : WHCTXCRC32 := { pContext with state := 0 }

/-- `WHUpdateCRC32`; `crc32` is the library routine declared in `WinHash.h`. -/
def WHUpdateCRC32 (crc32 : Nat → List Nat → Nat) (pContext : WHCTXCRC32) (pbIn : List Nat) :
    WHCTXCRC32 :=
  { pContext with state := crc32 pContext.state pbIn }

/-- `WHFinishCRC32`. -/
def WHFinishCRC32 (pContext : WHCTXCRC32) : WHCTXCRC32 :=
  { pContext with state := SwapV32 pContext.state }

/-! ## libs/WinHash.h: the OpenSSL and BLAKE3 wrappers -/

/-- What an OpenSSL digest context (`EVP_MD_CTX`) stands for: the digest type it was
initialised with and the bytes fed to it so far. -/
structure EVP_MD_CTX where
  md : Nat
  data : List Nat
  deriving DecidableEq, Repr

/-- `WHCTXOPENSSL`: the context handle (`none` for `NULL`) and the result bytes. -/
structure WHCTXOPENSSL where
  ctx : Option EVP_MD_CTX
  result : List Nat
  deriving DecidableEq, Repr

/-- `OPENSSL_HASH_INIT`. -/
def OPENSSL_HASH_INIT (pContext : WHCTXOPENSSL) (md : Nat) : WHCTXOPENSSL :=
  { pContext with ctx := some { md := md, data := [] } }

/-- `OPENSSL_HASH_UPDATE`; `none` when the handle passed to `EVP_DigestUpdate` is
`NULL`. -/
def OPENSSL_HASH_UPDATE (pContext : WHCTXOPENSSL) (pbIn : List Nat) : Option WHCTXOPENSSL :=
  match pContext.ctx with
  | none => none
  | some e => some { pContext with ctx := some { e with data := e.data ++ pbIn } }

/-- `OPENSSL_HASH_FINISH`; `EVP_DigestFinal` gives the digest bytes of a context, which
are written to the start of `result`. `none` when the handle passed to
`EVP_DigestFinal` is `NULL`. -/
def OPENSSL_HASH_FINISH (EVP_DigestFinal : EVP_MD_CTX → List Nat) (pContext : WHCTXOPENSSL) :
    Option WHCTXOPENSSL :=
  match pContext.ctx with
  | none => none
  | some e =>
    -- EVP_DigestFinal(pContext->ctx, pContext->result, &dummy);
    let result := EVP_DigestFinal e ++ pContext.result.drop (EVP_DigestFinal e).length
    -- EVP_MD_CTX_reset(pContext->ctx); EVP_MD_CTX_free(pContext->ctx); pContext->ctx = NULL;
    some { ctx := none, result := result }

/-- `WHCTXBLAKE3`: the storage of the union, as bytes. The member `m_ctx` is the
whole of it and the member `result` its first `BLAKE3_DIGEST_LENGTH` bytes:
both members of a union start at its first byte. -/
structure WHCTXBLAKE3 where
  bytes : List Nat
  deriving DecidableEq, Repr

/-- `FINDOFFSET(WHCTXBLAKE3, result)`, the offset of the member `result` in the union
`WHCTXBLAKE3`: every member of a union has offset 0. -/
def FINDOFFSET_WHCTXBLAKE3_result : Nat := 0

/-- `memset(buf, c, n)` on a byte array. -/
def memset (buf : List Nat) (c n : Nat) : List Nat :=
  List.replicate (min n buf.length) c ++ buf.drop n

/-- `WHFinishBLAKE3`; `blake3_hasher_finalize` gives the `out_len` output bytes of a
hasher, which are written to `result`, that is to the start of the union. -/
def WHFinishBLAKE3 (blake3_hasher_finalize : List Nat → Nat → List Nat)
    (pContext : WHCTXBLAKE3) : WHCTXBLAKE3 :=
  -- blake3_hasher_finalize(&pContext->m_ctx, pContext->result, BLAKE3_DIGEST_LENGTH);
  let out := blake3_hasher_finalize pContext.bytes (DIGEST_LENGTH .BLAKE3)
  let bytes := out ++ pContext.bytes.drop out.length
  -- memset(pContext, 0, (size_t) FINDOFFSET(WHCTXBLAKE3,result));
  { bytes := memset bytes 0 FINDOFFSET_WHCTXBLAKE3_result }

/-! ## Runs of coalesced updates -/

/-- The dialog as `HashPropUpdateResults` finds it when the handler calls it for the
update `u`: the worker's writes are in, and `cHandledMsgs` has been
incremented. -/
def updateCallState (d : HASHPROPDLG) (u : UpdateStep) : HASHPROPDLG :=
  { d with ctx := { d.ctx with
      hList := u.hList
      cSentMsgs := u.cSentMsgs
      cHandledMsgs := UINT_INC d.ctx.cHandledMsgs } }

/-- Whether the calls of `HashPropUpdateResults` for the updates `us`, handled in
order from the dialog `d`, are all made for an item of the list and all
return without flushing. -/
def keepsAll (denv : DlgEnv) : HASHPROPDLG → List UpdateStep → Bool
  | _, [] => true
  | d, u :: us =>
    (match u.hList.data.get? u.pItem with
      | some item => !decide (mustFlush denv (updateCallState d u) item)
      | none => false)
    && keepsAll denv (handleUpdate denv d u) us

/-- The text that `HashPropUpdateResults` appends for the item of the update `u`. -/
def stepText (denv : DlgEnv) (ctx : HASHPROPCONTEXT) (u : UpdateStep) : List Char :=
  match u.hList.data.get? u.pItem with
  | some item => itemText denv ctx (itemShown ctx item)
  | none => []

/-! ## libs/WinHash.h: the save filters -/

/-- `HASH_NAME_##alg`. -/
def HASH_NAME : hash_algorithm → List Char
  | .CRC32 => "CRC-32".toList
  | .MD5 => "MD5".toList
  | .SHA1 => "SHA-1".toList
  | .SHA256 => "SHA-256".toList
  | .SHA512 => "SHA-512".toList
  | .SHA3_256 => "SHA3-256".toList
  | .SHA3_512 => "SHA3-512".toList
  | .BLAKE3 => "BLAKE3".toList

/-- `HASH_EXT_##alg`. -/
def HASH_EXT : hash_algorithm → List Char
  | .CRC32 => ".sfv".toList
  | .MD5 => ".md5".toList
  | .SHA1 => ".sha1".toList
  | .SHA256 => ".sha256".toList
  | .SHA512 => ".sha512".toList
  | .SHA3_256 => ".sha3-256".toList
  | .SHA3_512 => ".sha3-512".toList
  | .BLAKE3 => ".blake3".toList

/-- `HASH_FILTER_op(alg)`: one `OPENFILENAME` filter, a display string and a pattern,
each followed by a NUL, e.g. `MD5 (*.md5)\0*.md5\0`. -/
def HASH_FILTER_op (alg : hash_algorithm) : List Char :=
  HASH_NAME alg ++ " (*".toList ++ HASH_EXT alg ++ [')', NUL, '*'] ++ HASH_EXT alg ++ [NUL]

/-- `HASH_FILE_FILTERS`, that is `FOR_EACH_HASH(HASH_FILTER_op)`, kept as the list of
its filters; `nFilterIndex` counts them from 1. -/
def HASH_FILE_FILTERS : List (List Char) := FOR_EACH_HASH.map HASH_FILTER_op

/-! ## Updates handled since the last restart -/

/-- The number of calls of `HashPropUpdateResults` since the last `HashPropRestart`,
after one more recorded call. -/
def sinceRestartStep (n : Nat) : DlgCall → Nat
  | .HashPropRestart _ _ => 0
  | .HashPropUpdateResults _ => n + 1
  | _ => n

/-- The number of calls of `HashPropUpdateResults` recorded since the last recorded
`HashPropRestart` (since the beginning if there is none). -/
def sinceRestart (t : List DlgCall) : Nat := t.foldl sinceRestartStep 0

/-! ## Sample inputs -/

/-- Results in which only the algorithms of `valid` carry a digest. -/
def sampleResults (valid : Nat) : WHRESULTEX :=
  { szHexCRC32 := "1c291ca3".toList ++ [NUL]
    szHexMD5 := List.replicate 32 '0' ++ [NUL]
    szHexSHA1 := List.replicate 40 '0' ++ [NUL]
    szHexSHA256 := List.replicate 64 '0' ++ [NUL]
    szHexSHA512 := List.replicate 128 '0' ++ [NUL]
    szHexSHA3_256 := List.replicate 64 '0' ++ [NUL]
    szHexSHA3_512 := List.replicate 128 '0' ++ [NUL]
    szHexBLAKE3 := List.replicate 64 '0' ++ [NUL]
    dwFlags := valid }

/-- A work item for the file `C:\d\a`. -/
def sampleItemA (valid : Nat) : HASHPROPITEM :=
  { szPath := "C:\\d\\a".toList, cchPath := 6, results := sampleResults valid }

/-- A work item for the file `C:\d\b`. -/
def sampleItemB (valid : Nat) : HASHPROPITEM :=
  { szPath := "C:\\d\\b".toList, cchPath := 6, results := sampleResults valid }

/-- A context whose list is prepared and holds two items, the first with a valid
CRC-32 (bit 0), the second with none; CRC-32, SHA-1 and SHA-256 are requested. -/
def sampleCtx : HASHPROPCONTEXT :=
  { status := .ACTIVE
    dwFlags := HPF_HLIST_PREPPED
    cSentMsgs := 0
    cHandledMsgs := 0
    hThread := true
    hList := { data := [sampleItemA 1, sampleItemB 0], pos := 0 }
    hFileOut := none
    nFilterIndex := 0
    cchPrefix := 5
    cTotal := 2
    cSuccess := 0
    obScratch := 0
    opt := { dwFlags := 0, dwChecksums := 0x0D }
    scratch := [] }

/-- An environment in which the status is always `ACTIVE` and the hashing routine
marks the algorithms it was asked for as valid. -/
def sampleEnv : WorkerEnv :=
  { HashCalcPrepare := fun ctx => (true, ctx)
    VirtualAllocOk := true
    WorkerThreadHashFile := fun _ _ flags res => { res with dwFlags := res.dwFlags ||| flags }
    statusAtPauseCheck := fun _ => .ACTIVE
    unpauseSignalled := fun _ => true
    statusAtCancelCheck := fun _ => .ACTIVE }

/-- Sample constants of the dialog side: two-byte `TCHAR`, a 32768-byte scratch
struct, thread creation succeeds. -/
def sampleDlgEnv : DlgEnv :=
  { sizeofTCHAR := 2
    MAX_STRINGRES := 64
    sizeofHASHPROPSCRATCH := 0x8000
    IDS_HP_FILELABEL := "File: ".toList
    HCOF_CHECKSUMS := 2
    CreateThreadCRT := true }

/-- Sample dialog controls while a run is in progress. -/
def sampleUI : HASHPROPUI :=
  { results := []
    pbTotalPos := 0
    pbFilePos := 0
    enSave := false
    enFindNext := false
    enSearchBox := false
    enProgTotal := true
    enProgFile := true
    enPause := true
    enStop := true }

/-- A readable file whose digests are all-`a` strings. -/
def sampleWorld : Nat → List Char → Option (hash_algorithm → List Char) :=
  fun _ _ => some (fun alg => List.replicate (DIGEST_LENGTH alg * 2) 'a')

/-- The sample environment with the hashing routine modelled from the spec. -/
def sampleSpecEnv : WorkerEnv :=
  { sampleEnv with
    WorkerThreadHashFile := fun n path flags res => WorkerThreadHashFile (sampleWorld n path) flags res }

/-- A dialog after a completed first run that computed CRC-32 only, with the
requested set now changed to CRC-32 and SHA-1. -/
def sampleDlgAfterFirstRun : HASHPROPDLG :=
  { ctx := { sampleCtx with
      status := .CLEANUP_COMPLETED
      cSentMsgs := 2
      cHandledMsgs := 2
      cSuccess := 2
      hList := { data := [sampleItemA 1, sampleItemB 1], pos := 2 }
      opt := { dwFlags := 2, dwChecksums := 5 } }
    ui := sampleUI
    trace := [] }

/-- A dialog at the start of the first run. -/
def sampleDlg0 : HASHPROPDLG := { ctx := sampleCtx, ui := sampleUI, trace := [] }

/-- The pipeline after the worker has counted and posted the update of item 0. -/
def samplePipe1 : PipeState :=
  { d := { sampleDlg0 with ctx := { sampleCtx with cSentMsgs := 1 } }
    queue := [0]
    posting := none
    nPosts := 1 }

/-- The sample environment with a pause after the first item, later resumed. -/
def samplePausedEnv : WorkerEnv :=
  { sampleEnv with
    statusAtPauseCheck := fun n => if n = 0 then .PAUSED else .ACTIVE }

/-- The sample environment with a cancel request seen after the second item. -/
def sampleCancelEnv : WorkerEnv :=
  { sampleEnv with
    statusAtCancelCheck := fun n => if n = 1 then .CANCEL_REQUESTED else .ACTIVE }

/-- The governed pipeline after the worker has started, counted and posted item 0. -/
def sampleGov1 : GovState := { pipe := samplePipe1, hashing := false }

/-- The dialog when it opens, with the worker thread of the first run alive. -/
def sampleSys0 : SysState :=
  { d := sampleDlg0, queue := [], alive := true, posting := none, uiWait := false
    nPosts := 0, gen := 0 }

/-- The dialog after the worker has counted and posted the update of item 0. -/
def sampleSysPosted : SysState :=
  { d := { sampleDlg0 with ctx := { sampleCtx with cSentMsgs := 1 } }
    queue := [(Msg.HM_WORKERTHREAD_UPDATE 0, 0)]
    alive := true, posting := none, uiWait := false, nPosts := 1, gen := 0 }

/-- Options that change the checksum selection to CRC-32 and SHA-1. -/
def sampleOpt : HASHCHECKOPTIONS := { dwFlags := 2, dwChecksums := 5 }

/-- The dialog after an options change (the dialog thread waits for the worker)
and the exit of the worker, which posted `HM_WORKERTHREAD_DONE`. -/
def sampleSysStopped : SysState :=
  { d := (HashPropOptions_stop sampleDlgEnv sampleOpt sampleSysPosted.d).2
    queue := [(Msg.HM_WORKERTHREAD_UPDATE 0, 0), (Msg.HM_WORKERTHREAD_DONE, 0)]
    alive := false, posting := none, uiWait := true, nPosts := 1, gen := 0 }

/-- The dialog after the rest of `HashPropOptions`: one update is unhandled, so
the restart is pending. -/
def sampleSysDeferred : SysState :=
  SysState.afterDialog { sampleSysStopped with uiWait := false }
    (HashPropOptions_cleanup (withThread sampleDlgEnv true) sampleSysStopped.d)

/-- Two updates as the dialog thread sees them: the first for an item with CRC-32,
SHA-1 and SHA-256 valid, the second for an item with nothing valid. -/
def sampleUpdates : List UpdateStep :=
  [{ hList := { data := [sampleItemA 0x0D, sampleItemB 0], pos := 1 }, cSentMsgs := 1, pItem := 0 },
   { hList := { data := [sampleItemA 0x0D, sampleItemB 0], pos := 2 }, cSentMsgs := 2, pItem := 1 }]

/-- A context after the requested set has been reduced to CRC-32 while the one item
of the list still has CRC-32 and SHA-1 valid from an earlier run. -/
def sampleCtxShrunk : HASHPROPCONTEXT :=
  { sampleCtx with
    hList := { data := [sampleItemA 5], pos := 0 }
    cTotal := 1
    opt := { dwFlags := 2, dwChecksums := 1 } }

/-- The sample environment with the allocation of the read buffer failing. -/
def sampleNoMemEnv : WorkerEnv := { sampleEnv with VirtualAllocOk := false }

/-- A BLAKE3 context of 48 bytes, none of them zero. -/
def sampleBlake3 : WHCTXBLAKE3 := { bytes := (List.range 48).map (fun i => i + 1) }

/-- A finalisation routine whose output bytes are all `0xAA`. -/
def sampleFinalize : List Nat → Nat → List Nat := fun _ n => List.replicate n 0xAA

/-- A dialog with a restart pending and two of three updates still unhandled. -/
def sampleDlgStale : HASHPROPDLG :=
  { sampleDlg0 with ctx := { sampleCtx with
      dwFlags := HCF_RESTARTING ||| HPF_HLIST_PREPPED
      cSentMsgs := 3
      cHandledMsgs := 1
      cSuccess := 1 } }

/-- The sample list after the worker has hashed both items. -/
def sampleListDone : HSIMPLELIST := { data := [sampleItemA 0x0D, sampleItemB 0], pos := 2 }

/-- One update handled while a second one is already counted. -/
def sampleKept : List UpdateStep := [{ hList := sampleListDone, cSentMsgs := 2, pItem := 0 }]

/-- The second update, handled with no further update counted. -/
def sampleFlushed : UpdateStep := { hList := sampleListDone, cSentMsgs := 2, pItem := 1 }

/-- The dialog after the handler of the last unhandled update has performed the
pending restart. -/
def sampleSysRestarted : SysState :=
  SysState.afterDialog { sampleSysDeferred with queue := [(Msg.HM_WORKERTHREAD_DONE, 0)] }
    (HashPropDlgProc_UPDATE (withThread sampleDlgEnv true) sampleSysDeferred.d 0)

/-- The sample constants with a scratch struct of 1536 bytes (768 `TCHAR`s). -/
def sampleTightEnv : DlgEnv := { sampleDlgEnv with sizeofHASHPROPSCRATCH := 0x600 }

/-- A work item for a file with a one-letter name in a directory whose path, with
its trailing backslash, is 2040 characters long. -/
def sampleDeepItem (name : Char) (valid : Nat) : HASHPROPITEM :=
  { szPath := "C:\\".toList ++ List.replicate 2036 'd' ++ ['\\', name]
    cchPath := 2041
    results := sampleResults valid }

/-- Options with the checksum selection changed to all eight algorithms. -/
def sampleOptAll : HASHCHECKOPTIONS := { dwFlags := 2, dwChecksums := 0xFF }

/-- The dialog when it opens on two files of the deep directory, CRC-32 requested,
the list not yet prepared. -/
def sampleSave0 : SysState :=
  { d := { ctx := { sampleCtx with
              dwFlags := 0
              hList := { data := [], pos := 0 }
              cchPrefix := 0
              cTotal := 0
              opt := { dwFlags := 0, dwChecksums := 1 } }
           ui := sampleUI
           trace := [] }
    queue := [], alive := true, posting := none, uiWait := false, nPosts := 0, gen := 0 }

/-- First run: the worker has prepared the list and hashed the first file. -/
def sampleSave1 : SysState :=
  { sampleSave0 with d := { sampleSave0.d with ctx := { sampleSave0.d.ctx with
      hList := { data := [sampleDeepItem 'a' 1, sampleDeepItem 'b' 0], pos := 1 }
      cTotal := 2
      cchPrefix := 2040
      dwFlags := if true then sampleSave0.d.ctx.dwFlags ||| HPF_HLIST_PREPPED
        else sampleSave0.d.ctx.dwFlags } } }

/-- First run: the update of the first file is counted. -/
def sampleSave2 : SysState :=
  { sampleSave1 with
    d := { sampleSave1.d with ctx := { sampleSave1.d.ctx with
      cSentMsgs := UINT_INC sampleSave1.d.ctx.cSentMsgs } }
    posting := some 0
    nPosts := sampleSave1.nPosts + 1 }

/-- First run: the update of the first file is posted. -/
def sampleSave3 : SysState :=
  { sampleSave2 with
    queue := sampleSave2.queue ++ [(Msg.HM_WORKERTHREAD_UPDATE 0, sampleSave2.gen)]
    posting := none }

/-- First run: the worker has hashed the second file. -/
def sampleSave4 : SysState :=
  { sampleSave3 with d := { sampleSave3.d with ctx := { sampleSave3.d.ctx with
      hList := { data := [sampleDeepItem 'a' 1, sampleDeepItem 'b' 1], pos := 2 }
      cTotal := 2
      cchPrefix := 2040
      dwFlags := if false then sampleSave3.d.ctx.dwFlags ||| HPF_HLIST_PREPPED
        else sampleSave3.d.ctx.dwFlags } } }

/-- First run: the update of the second file is counted. -/
def sampleSave5 : SysState :=
  { sampleSave4 with
    d := { sampleSave4.d with ctx := { sampleSave4.d.ctx with
      cSentMsgs := UINT_INC sampleSave4.d.ctx.cSentMsgs } }
    posting := some 1
    nPosts := sampleSave4.nPosts + 1 }

/-- First run: the update of the second file is posted. -/
def sampleSave6 : SysState :=
  { sampleSave5 with
    queue := sampleSave5.queue ++ [(Msg.HM_WORKERTHREAD_UPDATE 1, sampleSave5.gen)]
    posting := none }

/-- First run: the worker has ended and posted `HM_WORKERTHREAD_DONE`. -/
def sampleSave7 : SysState :=
  { sampleSave6 with
    queue := sampleSave6.queue ++ (if true then [(Msg.HM_WORKERTHREAD_DONE, sampleSave6.gen)] else [])
    alive := false }

/-- First run: the dialog has handled the update of the first file. -/
def sampleSave8 : SysState :=
  SysState.afterDialog
    { sampleSave7 with
      queue := [(Msg.HM_WORKERTHREAD_UPDATE 1, 0), (Msg.HM_WORKERTHREAD_DONE, 0)] }
    (HashPropDlgProc_UPDATE (withThread sampleTightEnv true) sampleSave7.d 0)

/-- First run: the dialog has handled the update of the second file. -/
def sampleSave9 : SysState :=
  SysState.afterDialog { sampleSave8 with queue := [(Msg.HM_WORKERTHREAD_DONE, 0)] }
    (HashPropDlgProc_UPDATE (withThread sampleTightEnv true) sampleSave8.d 1)

/-- First run: the dialog has handled `HM_WORKERTHREAD_DONE`; the save button is
enabled. -/
def sampleSave10 : SysState :=
  { sampleSave9 with queue := [], d := HashPropDlgProc_DONE sampleSave9.d }

/-- The user saves with the SHA-512 filter (index 5): SHA-512 is added to the
selection and the worker is restarted, the output file staying open. -/
def sampleSave11 : SysState :=
  SysState.afterDialog sampleSave10
    (HashPropSaveResults (withThread sampleTightEnv true) (some 1) 5 sampleSave10.d)

/-- Second run: the worker has hashed the first file. -/
def sampleSave12 : SysState :=
  { sampleSave11 with d := { sampleSave11.d with ctx := { sampleSave11.d.ctx with
      hList := { data := [sampleDeepItem 'a' 17, sampleDeepItem 'b' 1], pos := 1 }
      cTotal := 2
      cchPrefix := 2040
      dwFlags := if false then sampleSave11.d.ctx.dwFlags ||| HPF_HLIST_PREPPED
        else sampleSave11.d.ctx.dwFlags } } }

/-- Second run: the update of the first file is counted. -/
def sampleSave13 : SysState :=
  { sampleSave12 with
    d := { sampleSave12.d with ctx := { sampleSave12.d.ctx with
      cSentMsgs := UINT_INC sampleSave12.d.ctx.cSentMsgs } }
    posting := some 0
    nPosts := sampleSave12.nPosts + 1 }

/-- Second run: the update of the first file is posted. -/
def sampleSave14 : SysState :=
  { sampleSave13 with
    queue := sampleSave13.queue ++ [(Msg.HM_WORKERTHREAD_UPDATE 0, sampleSave13.gen)]
    posting := none }

/-- Second run: the worker has hashed the second file. -/
def sampleSave15 : SysState :=
  { sampleSave14 with d := { sampleSave14.d with ctx := { sampleSave14.d.ctx with
      hList := { data := [sampleDeepItem 'a' 17, sampleDeepItem 'b' 17], pos := 2 }
      cTotal := 2
      cchPrefix := 2040
      dwFlags := if false then sampleSave14.d.ctx.dwFlags ||| HPF_HLIST_PREPPED
        else sampleSave14.d.ctx.dwFlags } } }

/-- Second run: the update of the second file is counted. -/
def sampleSave16 : SysState :=
  { sampleSave15 with
    d := { sampleSave15.d with ctx := { sampleSave15.d.ctx with
      cSentMsgs := UINT_INC sampleSave15.d.ctx.cSentMsgs } }
    posting := some 1
    nPosts := sampleSave15.nPosts + 1 }

/-- Second run: the dialog has handled the update of the first file with one more
update counted, so the text is kept in the scratch buffer. -/
def sampleSave17 : SysState :=
  SysState.afterDialog { sampleSave16 with queue := [] }
    (HashPropDlgProc_UPDATE (withThread sampleTightEnv true) sampleSave16.d 0)

/-- The user changes the selection to all eight algorithms while the save is in
progress. -/
def sampleSave18 : SysState :=
  { sampleSave17 with
    d := (HashPropOptions_stop sampleTightEnv sampleOptAll sampleSave17.d).2
    uiWait := (HashPropOptions_stop sampleTightEnv sampleOptAll sampleSave17.d).1 }

/-- Second run: the update of the second file is posted. -/
def sampleSave19 : SysState :=
  { sampleSave18 with
    queue := sampleSave18.queue ++ [(Msg.HM_WORKERTHREAD_UPDATE 1, sampleSave18.gen)]
    posting := none }

/-! ## Theorems -/

/-! ### Bit-level facts about the compute set -/

theorem testBit_DWORD_NOT (x b : Nat) :
    (DWORD_NOT x).testBit b = (decide (b < 32) && !x.testBit b) := by
  unfold DWORD_NOT DWORD_BITS
  rw [Nat.testBit_two_pow_sub_succ (Nat.mod_lt _ (by norm_num)), Nat.testBit_mod_two_pow]
  by_cases h : b < 32 <;> simp [h]

theorem testBit_computeSet (d v b : Nat) :
    ((d % 2 ^ 8) &&& DWORD_NOT v).testBit b
      = (decide (b < 8) && d.testBit b && !v.testBit b) := by
  rw [Nat.testBit_and, Nat.testBit_mod_two_pow, testBit_DWORD_NOT]
  by_cases h : b < 8
  · have : b < 32 := by omega
    simp [h, this]
  · simp [h]

theorem computeSet_subset (d v : Nat) :
    ((d % 2 ^ 8) &&& DWORD_NOT v) &&& d = (d % 2 ^ 8) &&& DWORD_NOT v := by
  apply Nat.eq_of_testBit_eq
  intro b
  rw [Nat.testBit_and, testBit_computeSet]
  cases decide (b < 8) <;> cases d.testBit b <;> cases v.testBit b <;> rfl

theorem computeSet_disjoint (d v : Nat) :
    ((d % 2 ^ 8) &&& DWORD_NOT v) &&& v = 0 := by
  apply Nat.eq_of_testBit_eq
  intro b
  rw [Nat.testBit_and, testBit_computeSet, Nat.zero_testBit]
  cases decide (b < 8) <;> cases d.testBit b <;> cases v.testBit b <;> rfl

theorem computeSet_empty (d v : Nat) (h : d &&& DWORD_NOT v = 0) :
    (d % 2 ^ 8) &&& DWORD_NOT v = 0 := by
  apply Nat.eq_of_testBit_eq
  intro b
  have hb := congrArg (fun x => Nat.testBit x b) h
  simp only [Nat.testBit_and, testBit_DWORD_NOT, Nat.zero_testBit] at hb
  rw [testBit_computeSet, Nat.zero_testBit]
  by_cases h8 : b < 8
  · have : b < 32 := by omega
    simp [this] at hb
    simp [h8]
    intro hd
    exact hb hd
  · simp [h8]

/-! ### The worker loop -/

theorem workerLoop_opt (env : WorkerEnv) (cf : Nat) (fuel n : Nat) (r : WorkerRun) :
    (workerLoop env cf fuel n r).ctx.opt = r.ctx.opt := by
  induction fuel generalizing n r with
  | zero => rfl
  | succ fuel ih =>
    unfold workerLoop
    cases hstep : SLGetDataAndStep r.ctx.hList with
    | none => rfl
    | some x =>
      obtain ⟨⟨p, pItem⟩, hList⟩ := x
      simp only []
      split_ifs
      · rfl
      · rfl
      · rw [ih]

theorem workerLoop_calls (env : WorkerEnv) (cf : Nat) (fuel n : Nat) (r : WorkerRun)
    (c : HashCall) (hc : c ∈ (workerLoop env cf fuel n r).calls) :
    c ∈ r.calls ∨ c.whctxFlags = cf &&& DWORD_NOT c.item.results.dwFlags := by
  induction fuel generalizing n r with
  | zero => exact Or.inl hc
  | succ fuel ih =>
    unfold workerLoop at hc
    cases hstep : SLGetDataAndStep r.ctx.hList with
    | none => rw [hstep] at hc; exact Or.inl hc
    | some x =>
      obtain ⟨⟨p, pItem⟩, hList⟩ := x
      rw [hstep] at hc
      simp only [] at hc
      split_ifs at hc
      · simp only [List.mem_append, List.mem_singleton] at hc
        rcases hc with h | h
        · exact Or.inl h
        · right; rw [h]
      · simp only [List.mem_append, List.mem_singleton] at hc
        rcases hc with h | h
        · exact Or.inl h
        · right; rw [h]
      · rcases ih _ _ hc with h | h
        · simp only [List.mem_append, List.mem_singleton] at h
          rcases h with h | h
          · exact Or.inl h
          · right; rw [h]
        · exact Or.inr h

theorem workerProlog_calls (env : WorkerEnv) (phpctx : HASHPROPCONTEXT) :
    (workerProlog env phpctx).2.calls = [] := by
  unfold workerProlog
  split_ifs
  · rcases h : env.HashCalcPrepare phpctx with ⟨b, ctx⟩
    cases b <;> rfl
  · rfl

theorem HashPropWorkerMain_calls (env : WorkerEnv) (phpctx : HASHPROPCONTEXT)
    (c : HashCall) (hc : c ∈ (HashPropWorkerMain env phpctx).calls) :
    c.whctxFlags = ((HashPropWorkerMain env phpctx).ctx.opt.dwChecksums % 2 ^ 8)
      &&& DWORD_NOT c.item.results.dwFlags := by
  unfold HashPropWorkerMain at hc ⊢
  have hp := workerProlog_calls env phpctx
  rcases h : workerProlog env phpctx with ⟨b, r⟩
  rw [h] at hc hp
  cases b
  · simp only [] at hc hp
    rw [hp] at hc
    cases hc
  · simp only [] at hc hp ⊢
    rw [workerLoop_opt]
    rcases workerLoop_calls _ _ _ _ _ _ hc with h1 | h1
    · rw [hp] at h1; cases h1
    · exact h1

theorem SLGetDataAndStep_some (l : HSIMPLELIST) (p : Nat) (it : HASHPROPITEM)
    (l2 : HSIMPLELIST) (h : SLGetDataAndStep l = some ((p, it), l2)) :
    p = l.pos ∧ l.data.get? l.pos = some it ∧ l2 = { l with pos := l.pos + 1 } := by
  unfold SLGetDataAndStep at h
  cases hg : l.data.get? l.pos with
  | none => rw [hg] at h; cases h
  | some x =>
    rw [hg] at h
    simp only [Option.some.injEq, Prod.mk.injEq] at h
    obtain ⟨⟨h1, h2⟩, h3⟩ := h
    exact ⟨h1.symm, by rw [h2], h3.symm⟩

theorem workerLoop_calls_item (env : WorkerEnv) (cf : Nat) (fuel n : Nat) (r : WorkerRun)
    (c : HashCall) (hc : c ∈ (workerLoop env cf fuel n r).calls) :
    c ∈ r.calls ∨ (r.ctx.hList.pos ≤ c.pItem ∧ r.ctx.hList.data.get? c.pItem = some c.item) := by
  induction fuel generalizing n r with
  | zero => exact Or.inl hc
  | succ fuel ih =>
    unfold workerLoop at hc
    cases hstep : SLGetDataAndStep r.ctx.hList with
    | none => rw [hstep] at hc; exact Or.inl hc
    | some x =>
      obtain ⟨⟨p, pItem⟩, hList⟩ := x
      rw [hstep] at hc
      obtain ⟨hp, hget, hl⟩ := SLGetDataAndStep_some _ _ _ _ hstep
      simp only [] at hc
      split_ifs at hc
      · simp only [List.mem_append, List.mem_singleton] at hc
        rcases hc with h | h
        · exact Or.inl h
        · right; rw [h]; simp only []; rw [hp]; exact ⟨le_refl _, hget⟩
      · simp only [List.mem_append, List.mem_singleton] at hc
        rcases hc with h | h
        · exact Or.inl h
        · right; rw [h]; simp only []; rw [hp]; exact ⟨le_refl _, hget⟩
      · rcases ih _ _ hc with h | h
        · simp only [List.mem_append, List.mem_singleton] at h
          rcases h with h | h
          · exact Or.inl h
          · right; rw [h]; simp only []; rw [hp]; exact ⟨le_refl _, hget⟩
        · right
          obtain ⟨h1, h2⟩ := h
          simp only [storeItem, hl, hp] at h1 h2
          refine ⟨by omega, ?_⟩
          rw [← h2]
          simp only [List.get?_eq_getElem?]
          rw [List.getElem?_set_ne (by omega)]

theorem HashPropWorkerMain_calls_item (env : WorkerEnv) (phpctx : HASHPROPCONTEXT)
    (c : HashCall) (hc : c ∈ (HashPropWorkerMain env phpctx).calls) :
    (workerProlog env phpctx).2.ctx.hList.data.get? c.pItem = some c.item := by
  unfold HashPropWorkerMain at hc
  have hp := workerProlog_calls env phpctx
  rcases h : workerProlog env phpctx with ⟨b, r⟩
  rw [h] at hc hp
  cases b
  · simp only [] at hc hp
    rw [hp] at hc
    cases hc
  · simp only [] at hc hp ⊢
    rcases workerLoop_calls_item _ _ _ _ _ _ hc with h1 | h1
    · rw [hp] at h1; cases h1
    · exact h1.2

theorem HashPropWorkerMain_opt (env : WorkerEnv) (phpctx : HASHPROPCONTEXT) :
    (HashPropWorkerMain env phpctx).ctx.opt = (workerProlog env phpctx).2.ctx.opt := by
  unfold HashPropWorkerMain
  rcases h : workerProlog env phpctx with ⟨b, r⟩
  cases b
  · rfl
  · simp only []
    rw [workerLoop_opt]

/-! ### C1 -/

/-- C1: every call of the hashing routine made by `HashPropWorkerMain` is made for
an item of the list, and the compute set `whctx.dwFlags` it passes is the
requested mask truncated to its low 8 bits with the item's validity bits
removed. Bit by bit: bit `b` is in the compute set exactly when `b < 8`, the
bit is requested and the bit is not valid for the item. Hence the compute set
is a subset of the requested set, disjoint from the validity bits, and empty
when every requested algorithm is already valid. -/
theorem C1_compute_set_is_requested_minus_valid (env : WorkerEnv) (phpctx : HASHPROPCONTEXT)
    (c : HashCall) (hc : c ∈ (HashPropWorkerMain env phpctx).calls) :
    (workerProlog env phpctx).2.ctx.hList.data.get? c.pItem = some c.item
    ∧ c.whctxFlags = ((workerProlog env phpctx).2.ctx.opt.dwChecksums % 256)
        &&& DWORD_NOT c.item.results.dwFlags
    ∧ (∀ b, c.whctxFlags.testBit b
        = (decide (b < 8) && (workerProlog env phpctx).2.ctx.opt.dwChecksums.testBit b
            && !c.item.results.dwFlags.testBit b))
    ∧ c.whctxFlags &&& (workerProlog env phpctx).2.ctx.opt.dwChecksums = c.whctxFlags
    ∧ c.whctxFlags &&& c.item.results.dwFlags = 0
    ∧ ((workerProlog env phpctx).2.ctx.opt.dwChecksums &&& DWORD_NOT c.item.results.dwFlags = 0
        → c.whctxFlags = 0) := by
  have h1 := HashPropWorkerMain_calls env phpctx c hc
  rw [HashPropWorkerMain_opt] at h1
  refine ⟨HashPropWorkerMain_calls_item env phpctx c hc, h1, ?_, ?_, ?_, ?_⟩
  · intro b; rw [h1]; exact testBit_computeSet _ _ _
  · rw [h1]; exact computeSet_subset _ _
  · rw [h1]; exact computeSet_disjoint _ _
  · intro h; rw [h1]; exact computeSet_empty _ _ h

/-- C1 at a concrete run: for the first sample item (CRC-32 already valid, CRC-32,
SHA-1 and SHA-256 requested) the compute set is SHA-1 and SHA-256. -/
theorem C1_compute_set_witness :
    ({ pItem := 0, item := sampleItemA 1, whctxFlags := 0x0C } : HashCall)
        ∈ (HashPropWorkerMain sampleEnv sampleCtx).calls
    ∧ (0x0C : Nat) &&& (sampleItemA 1).results.dwFlags = 0 :=
  ⟨by decide,
   (C1_compute_set_is_requested_minus_valid sampleEnv sampleCtx
      { pItem := 0, item := sampleItemA 1, whctxFlags := 0x0C } (by decide)).2.2.2.2.1⟩

/-! ### The restart pass -/

theorem and_two_pow_eq_zero_iff (x k : Nat) : x &&& 2 ^ k = 0 ↔ x.testBit k = false := by
  constructor
  · intro h
    have hb := congrArg (fun y => Nat.testBit y k) h
    simpa [Nat.testBit_and, Nat.testBit_two_pow_self] using hb
  · intro h
    apply Nat.eq_of_testBit_eq
    intro i
    rw [Nat.testBit_and, Nat.testBit_two_pow, Nat.zero_testBit]
    by_cases hki : k = i
    · subst hki; simp [h]
    · simp [hki]

theorem workerLoop_data_lt (env : WorkerEnv) (cf : Nat) (fuel n : Nat) (r : WorkerRun)
    (i : Nat) (hi : i < r.ctx.hList.pos) :
    (workerLoop env cf fuel n r).ctx.hList.data.get? i = r.ctx.hList.data.get? i := by
  induction fuel generalizing n r with
  | zero => rfl
  | succ fuel ih =>
    unfold workerLoop
    cases hstep : SLGetDataAndStep r.ctx.hList with
    | none => rfl
    | some x =>
      obtain ⟨⟨p, pItem⟩, hList⟩ := x
      obtain ⟨hp, hget, hl⟩ := SLGetDataAndStep_some _ _ _ _ hstep
      have hset : (storeItem hList p { pItem with
          results := env.WorkerThreadHashFile n pItem.szPath
            (cf &&& DWORD_NOT pItem.results.dwFlags) pItem.results }).data.get? i
            = r.ctx.hList.data.get? i := by
        simp only [storeItem, hl, hp, List.get?_eq_getElem?]
        rw [List.getElem?_set_ne (by omega)]
      simp only []
      split_ifs
      · exact hset
      · exact hset
      · rw [ih]
        · exact hset
        · simp only [storeItem, hl]; omega

theorem workerLoop_calls_final (env : WorkerEnv) (cf : Nat) (fuel n : Nat) (r : WorkerRun)
    (c : HashCall) (hc : c ∈ (workerLoop env cf fuel n r).calls) :
    c ∈ r.calls ∨ ∃ m, (workerLoop env cf fuel n r).ctx.hList.data.get? c.pItem
      = some { c.item with
          results := env.WorkerThreadHashFile m c.item.szPath c.whctxFlags c.item.results } := by
  induction fuel generalizing n r with
  | zero => exact Or.inl hc
  | succ fuel ih =>
    unfold workerLoop at hc ⊢
    cases hstep : SLGetDataAndStep r.ctx.hList with
    | none => rw [hstep] at hc; exact Or.inl hc
    | some x =>
      obtain ⟨⟨p, pItem⟩, hList⟩ := x
      rw [hstep] at hc
      obtain ⟨hp, hget, hl⟩ := SLGetDataAndStep_some _ _ _ _ hstep
      have hlen : r.ctx.hList.pos < r.ctx.hList.data.length := by
        rw [List.get?_eq_getElem?] at hget
        exact (List.getElem?_eq_some_iff.mp hget).1
      have hset : (storeItem hList p { pItem with
          results := env.WorkerThreadHashFile n pItem.szPath
            (cf &&& DWORD_NOT pItem.results.dwFlags) pItem.results }).data.get? p
            = some { pItem with
                results := env.WorkerThreadHashFile n pItem.szPath
                  (cf &&& DWORD_NOT pItem.results.dwFlags) pItem.results } := by
        simp only [storeItem, hl, hp, List.get?_eq_getElem?]
        rw [List.getElem?_set_self hlen]
      simp only [] at hc ⊢
      split_ifs at hc ⊢
      · simp only [List.mem_append, List.mem_singleton] at hc
        rcases hc with h | h
        · exact Or.inl h
        · right; subst h; exact ⟨n, hset⟩
      · simp only [List.mem_append, List.mem_singleton] at hc
        rcases hc with h | h
        · exact Or.inl h
        · right; subst h; exact ⟨n, hset⟩
      · rcases ih _ _ hc with h | h
        · simp only [List.mem_append, List.mem_singleton] at h
          rcases h with h | h
          · exact Or.inl h
          · right
            subst h
            refine ⟨n, ?_⟩
            rw [workerLoop_data_lt]
            · exact hset
            · simp only [storeItem, hl, hp]; omega
        · exact Or.inr h

theorem HashPropWorkerMain_calls_final (env : WorkerEnv) (phpctx : HASHPROPCONTEXT)
    (c : HashCall) (hc : c ∈ (HashPropWorkerMain env phpctx).calls) :
    ∃ m, (HashPropWorkerMain env phpctx).ctx.hList.data.get? c.pItem
      = some { c.item with
          results := env.WorkerThreadHashFile m c.item.szPath c.whctxFlags c.item.results } := by
  unfold HashPropWorkerMain at hc ⊢
  have hp := workerProlog_calls env phpctx
  rcases h : workerProlog env phpctx with ⟨b, r⟩
  rw [h] at hc hp
  cases b
  · simp only [] at hc hp
    rw [hp] at hc
    cases hc
  · simp only [] at hc hp ⊢
    rcases workerLoop_calls_final _ _ _ _ _ _ hc with h1 | h1
    · rw [hp] at h1; cases h1
    · exact h1

theorem szHex_setHex_ne (res : WHRESULTEX) (a alg : hash_algorithm) (t : List Char)
    (h : a ≠ alg) : (res.setHex a t).szHex alg = res.szHex alg := by
  cases a <;> cases alg <;> first | rfl | exact absurd rfl h

theorem szHex_setHex_self (res : WHRESULTEX) (alg : hash_algorithm) (t : List Char) :
    (res.setHex alg t).szHex alg = t := by
  cases alg <;> rfl

theorem dwFlags_setHex (res : WHRESULTEX) (a : hash_algorithm) (t : List Char) :
    (res.setHex a t).dwFlags = res.dwFlags := by
  cases a <;> rfl

theorem foldl_setHex_frame (l : List hash_algorithm) (cond : hash_algorithm → Prop)
    [DecidablePred cond] (val : hash_algorithm → List Char) (res : WHRESULTEX)
    (alg : hash_algorithm) (h : ¬ cond alg) :
    (l.foldl (fun r a => if cond a then r.setHex a (val a) else r) res).szHex alg
      = res.szHex alg := by
  induction l generalizing res with
  | nil => rfl
  | cons a l ih =>
    simp only [List.foldl_cons]
    rw [ih]
    by_cases hc : cond a
    · rw [if_pos hc]
      apply szHex_setHex_ne
      intro hEq
      subst hEq
      exact h hc
    · rw [if_neg hc]

theorem WorkerThreadHashFile_frame (file : Option (hash_algorithm → List Char))
    (whctxFlags : Nat) (pwhres : WHRESULTEX) (alg : hash_algorithm)
    (h : whctxFlags &&& WHEX_CHECK alg = 0) :
    (WorkerThreadHashFile file whctxFlags pwhres).szHex alg = pwhres.szHex alg := by
  cases file with
  | none => cases alg <;> rfl
  | some digest =>
    unfold WorkerThreadHashFile
    simp only []
    rw [foldl_setHex_frame FOR_EACH_HASH (fun a => whctxFlags &&& WHEX_CHECK a ≠ 0)
      (fun a => digest a ++ [NUL]) _ alg (by simp [h])]
    cases alg <;> rfl

theorem HashPropRestart_prepped (denv : DlgEnv) (d : HASHPROPDLG)
    (hprep : d.ctx.dwFlags &&& HPF_HLIST_PREPPED ≠ 0) :
    (HashPropRestart denv d).ctx.hList = SLReset d.ctx.hList
    ∧ (HashPropRestart denv d).ctx.opt = d.ctx.opt
    ∧ (HashPropRestart denv d).ctx.dwFlags &&& HPF_HLIST_PREPPED ≠ 0 := by
  have hbit : (d.ctx.dwFlags &&& DWORD_NOT (HCF_RESTARTING ||| HPF_INTERRUPTED))
      &&& HPF_HLIST_PREPPED ≠ 0 := by
    have h4 : HPF_HLIST_PREPPED = 2 ^ 4 := by decide
    rw [h4] at hprep ⊢
    rw [Ne, and_two_pow_eq_zero_iff] at hprep ⊢
    rw [Nat.testBit_and, testBit_DWORD_NOT]
    have : (HCF_RESTARTING ||| HPF_INTERRUPTED).testBit 4 = false := by decide
    simp [this]
    simpa using hprep
  unfold HashPropRestart
  simp only [hbit, ne_eq, not_false_eq_true, if_true]
  split_ifs <;> exact ⟨rfl, rfl, hbit⟩

theorem workerProlog_prepped (env : WorkerEnv) (phpctx : HASHPROPCONTEXT)
    (hprep : phpctx.dwFlags &&& HPF_HLIST_PREPPED ≠ 0) :
    workerProlog env phpctx
      = (env.VirtualAllocOk,
          { ctx := phpctx, posted := [Msg.HM_WORKERTHREAD_TOGGLEPREP false],
            calls := [], returned := true }) := by
  unfold workerProlog
  rw [if_neg hprep]

theorem computeSet_restart (A B : hash_algorithm) (hAB : A ≠ B) :
    ((WHEX_CHECK A ||| WHEX_CHECK B) % 2 ^ 8) &&& DWORD_NOT (WHEX_CHECK A) = WHEX_CHECK B := by
  cases A <;> cases B <;> first | exact absurd rfl hAB | decide

theorem WHEX_CHECK_disjoint (A B : hash_algorithm) (hAB : A ≠ B) :
    WHEX_CHECK B &&& WHEX_CHECK A = 0 := by
  cases A <;> cases B <;> first | exact absurd rfl hAB | decide

theorem foldl_setHex_dwFlags (l : List hash_algorithm) (cond : hash_algorithm → Prop)
    [DecidablePred cond] (val : hash_algorithm → List Char) (res : WHRESULTEX) :
    (l.foldl (fun r a => if cond a then r.setHex a (val a) else r) res).dwFlags
      = res.dwFlags := by
  induction l generalizing res with
  | nil => rfl
  | cons a l ih =>
    simp only [List.foldl_cons]
    rw [ih]
    split_ifs
    · exact dwFlags_setHex _ _ _
    · rfl

theorem foldl_setHex_hit (l : List hash_algorithm) (cond : hash_algorithm → Prop)
    [DecidablePred cond] (val : hash_algorithm → List Char) (res : WHRESULTEX)
    (alg : hash_algorithm) (hc : cond alg) (h : res.szHex alg = val alg ∨ alg ∈ l) :
    (l.foldl (fun r a => if cond a then r.setHex a (val a) else r) res).szHex alg
      = val alg := by
  induction l generalizing res with
  | nil =>
    rcases h with h | h
    · exact h
    · cases h
  | cons a l ih =>
    simp only [List.foldl_cons]
    apply ih
    by_cases ha : a = alg
    · left
      subst ha
      rw [if_pos hc]
      exact szHex_setHex_self _ _ _
    · rcases h with h | h
      · left
        split_ifs
        · rw [szHex_setHex_ne _ _ _ _ ha]; exact h
        · exact h
      · right
        rcases List.mem_cons.mp h with h1 | h1
        · exact absurd h1.symm ha
        · exact h1

theorem mem_FOR_EACH_HASH (alg : hash_algorithm) : alg ∈ FOR_EACH_HASH := by
  cases alg <;> decide

theorem WHEX_CHECK_ne_zero (alg : hash_algorithm) : WHEX_CHECK alg &&& WHEX_CHECK alg ≠ 0 := by
  cases alg <;> decide

theorem WorkerThreadHashFile_computed (digest : hash_algorithm → List Char)
    (whctxFlags : Nat) (pwhres : WHRESULTEX) (alg : hash_algorithm)
    (h : whctxFlags &&& WHEX_CHECK alg ≠ 0) :
    (WorkerThreadHashFile (some digest) whctxFlags pwhres).szHex alg = digest alg ++ [NUL]
    ∧ (WorkerThreadHashFile (some digest) whctxFlags pwhres).dwFlags
        = pwhres.dwFlags ||| whctxFlags := by
  unfold WorkerThreadHashFile
  simp only []
  constructor
  · exact foldl_setHex_hit FOR_EACH_HASH (fun a => whctxFlags &&& WHEX_CHECK a ≠ 0)
      (fun a => digest a ++ [NUL]) _ alg h (Or.inr (mem_FOR_EACH_HASH alg))
  · exact foldl_setHex_dwFlags FOR_EACH_HASH (fun a => whctxFlags &&& WHEX_CHECK a ≠ 0)
      (fun a => digest a ++ [NUL]) _

/-! ### C2 -/

/-- C2 (restart scenario): let the first run have completed (the list is prepared)
and the requested set be changed to `{A, B}`. In the pass that
`HashPropRestart` launches, every call of the hashing routine made for an item
whose validity set is `{A}` is made for the item kept from the first run and
its compute set is exactly `{B}`. With the hashing routine of the spec, which
skips the algorithms outside its compute set, the item holds after the pass
the same hex string for `A` (and the same path) as before, and when the file
is readable `B` is the one freshly computed digest: the validity set becomes
`{A, B}` and the hex string of `B` is the digest of the file. -/
theorem C2_restart_recomputes_only_missing (denv : DlgEnv) (env : WorkerEnv)
    (world : Nat → List Char → Option (hash_algorithm → List Char))
    (d : HASHPROPDLG) (A B : hash_algorithm) (c : HashCall)
    (hspec : ∀ n path flags res,
      env.WorkerThreadHashFile n path flags res = WorkerThreadHashFile (world n path) flags res)
    (hAB : A ≠ B)
    (hprep : d.ctx.dwFlags &&& HPF_HLIST_PREPPED ≠ 0)
    (hreq : d.ctx.opt.dwChecksums = WHEX_CHECK A ||| WHEX_CHECK B)
    (hc : c ∈ (HashPropWorkerMain env (HashPropRestart denv d).ctx).calls)
    (hvalid : c.item.results.dwFlags = WHEX_CHECK A) :
    d.ctx.hList.data.get? c.pItem = some c.item
    ∧ c.whctxFlags = WHEX_CHECK B
    ∧ ∃ m it, (HashPropWorkerMain env (HashPropRestart denv d).ctx).ctx.hList.data.get? c.pItem
          = some it
        ∧ it.szPath = c.item.szPath
        ∧ it.results.szHex A = c.item.results.szHex A
        ∧ ∀ digest, world m c.item.szPath = some digest →
            it.results.dwFlags = WHEX_CHECK A ||| WHEX_CHECK B
            ∧ it.results.szHex B = digest B ++ [NUL] := by
  obtain ⟨hlist, hopt, hflag⟩ := HashPropRestart_prepped denv d hprep
  have hpro := workerProlog_prepped env _ hflag
  have hflags : c.whctxFlags = WHEX_CHECK B := by
    have h1 := HashPropWorkerMain_calls env _ c hc
    rw [HashPropWorkerMain_opt, hpro] at h1
    simp only [] at h1
    rw [hopt, hreq, hvalid, computeSet_restart A B hAB] at h1
    exact h1
  refine ⟨?_, hflags, ?_⟩
  · have h2 := HashPropWorkerMain_calls_item env _ c hc
    rw [hpro] at h2
    simp only [] at h2
    rw [hlist] at h2
    exact h2
  · obtain ⟨m, hm⟩ := HashPropWorkerMain_calls_final env _ c hc
    refine ⟨m, _, hm, rfl, ?_, ?_⟩
    · simp only []
      rw [hspec, hflags]
      exact WorkerThreadHashFile_frame _ _ _ _ (WHEX_CHECK_disjoint A B hAB)
    · intro digest hd
      simp only []
      rw [hspec, hflags, hd]
      have := WorkerThreadHashFile_computed digest (WHEX_CHECK B) c.item.results B
        (WHEX_CHECK_ne_zero B)
      rw [hvalid] at this
      exact ⟨this.2, this.1⟩

/-- C2 at a concrete restart: CRC-32 valid from the first run, CRC-32 and SHA-1
requested; the call for the first item has compute set SHA-1 (bit 2). -/
theorem C2_restart_witness :
    ({ pItem := 0, item := sampleItemA 1, whctxFlags := 4 } : HashCall)
        ∈ (HashPropWorkerMain sampleSpecEnv (HashPropRestart sampleDlgEnv sampleDlgAfterFirstRun).ctx).calls
    ∧ (4 : Nat) = WHEX_CHECK .SHA1 :=
  ⟨by decide,
   (C2_restart_recomputes_only_missing sampleDlgEnv sampleSpecEnv sampleWorld
      sampleDlgAfterFirstRun .CRC32 .SHA1 { pItem := 0, item := sampleItemA 1, whctxFlags := 4 }
      (fun _ _ _ _ => rfl) (by decide) (by decide) (by decide) (by decide) (by decide)).2.1⟩

/-! ### The message counters -/

theorem HashPropUpdateResults_counters (denv : DlgEnv) (d : HASHPROPDLG) (pItem : Nat) :
    (HashPropUpdateResults denv d pItem).ctx.cSentMsgs = d.ctx.cSentMsgs
    ∧ (HashPropUpdateResults denv d pItem).ctx.cHandledMsgs = d.ctx.cHandledMsgs := by
  unfold HashPropUpdateResults
  cases d.ctx.hList.data.get? pItem with
  | none => exact ⟨rfl, rfl⟩
  | some item0 =>
    simp only []
    split_ifs <;> exact ⟨rfl, rfl⟩

theorem HashPropRestart_counters (denv : DlgEnv) (d : HASHPROPDLG) :
    (HashPropRestart denv d).ctx.cSentMsgs = d.ctx.cSentMsgs
    ∧ (HashPropRestart denv d).ctx.cHandledMsgs = d.ctx.cHandledMsgs := by
  unfold HashPropRestart
  simp only []
  split_ifs <;> exact ⟨rfl, rfl⟩

theorem HashPropDlgProc_UPDATE_counters (denv : DlgEnv) (d : HASHPROPDLG) (pItem : Nat) :
    (HashPropDlgProc_UPDATE denv d pItem).ctx.cSentMsgs = d.ctx.cSentMsgs
    ∧ (HashPropDlgProc_UPDATE denv d pItem).ctx.cHandledMsgs = UINT_INC d.ctx.cHandledMsgs := by
  unfold HashPropDlgProc_UPDATE
  simp only []
  split_ifs
  · exact HashPropRestart_counters denv _
  · exact ⟨rfl, rfl⟩
  · exact HashPropUpdateResults_counters denv _ pItem

/-- The counter invariant of the pipeline: `cSentMsgs` is the number of increments
modulo `2 ^ 32`, and `cHandledMsgs` is, modulo `2 ^ 32`, that number less the
updates queued or in flight. -/
theorem PipeReach_counters (denv : DlgEnv) (d0 : HASHPROPDLG) (s : PipeState)
    (hr : PipeReach denv d0 s) (h1 : d0.ctx.cSentMsgs = 0) (h2 : d0.ctx.cHandledMsgs = 0) :
    s.d.ctx.cSentMsgs = s.nPosts % 2 ^ 32
    ∧ ∃ h, s.d.ctx.cHandledMsgs = h % 2 ^ 32 ∧ h + s.queue.length + s.inFlight = s.nPosts := by
  induction hr with
  | init => exact ⟨by simp [h1], 0, by simp [h2], by simp [PipeState.inFlight]⟩
  | step s t _ ht ih =>
    obtain ⟨ih1, h, ih2, ih3⟩ := ih
    cases ht with
    | work hList hp => exact ⟨ih1, h, ih2, ih3⟩
    | inc p hp =>
      refine ⟨?_, h, ih2, ?_⟩
      · simp only [UINT_INC, DWORD_BITS, ih1]
        omega
      · simp only [PipeState.inFlight, hp, Option.isSome_none, Option.isSome_some] at ih3 ⊢
        simp at ih3 ⊢
        omega
    | post p hp =>
      refine ⟨ih1, h, ih2, ?_⟩
      simp only [PipeState.inFlight, hp, Option.isSome_none, Option.isSome_some,
        List.length_append, List.length_singleton] at ih3 ⊢
      simp at ih3 ⊢
      omega
    | handle p q hq =>
      obtain ⟨c1, c2⟩ := HashPropDlgProc_UPDATE_counters denv s.d p
      refine ⟨by simp only [c1]; exact ih1, h + 1, ?_, ?_⟩
      · simp only [c2, UINT_INC, DWORD_BITS, ih2]
        omega
      · simp only [PipeState.inFlight, hq, List.length_cons] at ih3 ⊢
        omega

theorem samplePipe1_reach : PipeReach sampleDlgEnv sampleDlg0 samplePipe1 :=
  PipeReach.step _ _
    (PipeReach.step _ _ PipeReach.init
      (PipeStep.inc { d := sampleDlg0, queue := [], posting := none, nPosts := 0 } 0 rfl))
    (PipeStep.post _ 0 rfl)

/-! ### C3 -/

/-- C3: in every state of the pipeline reachable from `cSentMsgs = cHandledMsgs = 0`
with no update queued (the counters are `UINT`s, so: as long as fewer than
`2 ^ 32` increments of `cSentMsgs` have been executed), `cSentMsgs >=
cHandledMsgs` holds, and `cSentMsgs - cHandledMsgs` is the number of posted
updates not yet handled, plus one while the worker stands between
`++cSentMsgs` and its `PostMessage`; so at every point where the worker has
posted what it has counted, the difference is exactly the queue length. -/
theorem C3_sent_ge_handled (denv : DlgEnv) (d0 : HASHPROPDLG) (s : PipeState)
    (h1 : d0.ctx.cSentMsgs = 0) (h2 : d0.ctx.cHandledMsgs = 0)
    (hr : PipeReach denv d0 s) (hn : s.nPosts < 2 ^ 32) :
    s.d.ctx.cHandledMsgs ≤ s.d.ctx.cSentMsgs
    ∧ s.d.ctx.cSentMsgs - s.d.ctx.cHandledMsgs = s.queue.length + s.inFlight
    ∧ (s.posting = none → s.d.ctx.cSentMsgs - s.d.ctx.cHandledMsgs = s.queue.length) := by
  obtain ⟨k1, h, k2, h3⟩ := PipeReach_counters denv d0 s hr h1 h2
  have hh : h < 2 ^ 32 := by omega
  rw [Nat.mod_eq_of_lt hn] at k1
  rw [Nat.mod_eq_of_lt hh] at k2
  refine ⟨by omega, by omega, ?_⟩
  intro hp
  have : s.inFlight = 0 := by simp [PipeState.inFlight, hp]
  omega

/-- C3 at a concrete reachable state: one update counted and posted, none handled. -/
theorem C3_sent_ge_handled_witness :
    PipeReach sampleDlgEnv sampleDlg0 samplePipe1
    ∧ samplePipe1.d.ctx.cHandledMsgs ≤ samplePipe1.d.ctx.cSentMsgs
    ∧ samplePipe1.d.ctx.cSentMsgs - samplePipe1.d.ctx.cHandledMsgs = 1 :=
  ⟨samplePipe1_reach,
    (C3_sent_ge_handled sampleDlgEnv sampleDlg0 samplePipe1 rfl rfl samplePipe1_reach (by decide)).1,
    (C3_sent_ge_handled sampleDlgEnv sampleDlg0 samplePipe1 rfl rfl samplePipe1_reach (by decide)).2.2 rfl⟩

/-! ### The scratch buffer -/

theorem memWrite_prefix_length (buf : List Char) (off : Nat) :
    ((buf ++ List.replicate (off - buf.length) NUL).take off).length = off := by
  rw [List.length_take, List.length_append, List.length_replicate]
  omega

theorem memWrite_drop (buf : List Char) (off : Nat) (src : List Char) :
    (memWrite buf off src).drop off = src ++ buf.drop (off + src.length) := by
  unfold memWrite
  rw [List.append_assoc, List.drop_append_eq_append_drop, memWrite_prefix_length]
  rw [List.drop_of_length_le (by rw [memWrite_prefix_length])]
  simp

theorem memWrite_text (buf : List Char) (off : Nat) (text : List Char) :
    ((memWrite buf off (text ++ [NUL])).drop off).take text.length = text
    ∧ (memWrite buf off (text ++ [NUL])).get? (off + text.length) = some NUL := by
  constructor
  · rw [memWrite_drop, List.append_assoc, List.take_left']
    rfl
  · have h := memWrite_drop buf off (text ++ [NUL])
    have h2 : (memWrite buf off (text ++ [NUL])).get? (off + text.length)
        = ((memWrite buf off (text ++ [NUL])).drop off).get? text.length := by
      simp only [List.get?_eq_getElem?, List.getElem?_drop]
    rw [h2, h]
    simp only [List.get?_eq_getElem?, List.append_assoc]
    rw [List.getElem?_append_right (le_refl _)]
    simp

theorem HashPropUpdateResults_flush (denv : DlgEnv) (d : HASHPROPDLG) (pItem : Nat)
    (item : HASHPROPITEM) (hget : d.ctx.hList.data.get? pItem = some item)
    (hf : mustFlush denv d item) :
    HashPropUpdateResults denv d pItem =
      { ctx := { d.ctx with
          hList := storeItem d.ctx.hList pItem (itemShown d.ctx item)
          cSuccess := if hashesMissing d.ctx item then d.ctx.cSuccess else UINT_INC d.ctx.cSuccess
          scratch := memWrite d.ctx.scratch (d.ctx.obScratch / denv.sizeofTCHAR)
            (itemText denv d.ctx (itemShown d.ctx item) ++ [NUL])
          obScratch := 0 }
        ui := { d.ui with
          results := d.ui.results ++ cstr (memWrite d.ctx.scratch (d.ctx.obScratch / denv.sizeofTCHAR)
            (itemText denv d.ctx (itemShown d.ctx item) ++ [NUL]))
          pbTotalPos := d.ctx.cHandledMsgs }
        trace := updateTrace d pItem item ++ [DlgCall.EM_REPLACESEL
          (cstr (memWrite d.ctx.scratch (d.ctx.obScratch / denv.sizeofTCHAR)
            (itemText denv d.ctx (itemShown d.ctx item) ++ [NUL])))] } := by
  unfold HashPropUpdateResults
  rw [hget]
  simp only []
  have hc : ¬ (d.ctx.cSentMsgs > d.ctx.cHandledMsgs ∧
      obScratchAfter denv d.ctx item
        + cchMaxBufferRequired denv d.ctx (itemShown d.ctx item) * denv.sizeofTCHAR
        ≤ denv.sizeofHASHPROPSCRATCH) := by
    unfold mustFlush at hf
    rcases hf with h | h
    · exact fun hh => h hh.1
    · exact fun hh => absurd hh.2 (by omega)
  rw [if_neg hc]
  unfold updateTrace
  split_ifs <;> rfl

theorem HashPropUpdateResults_keep (denv : DlgEnv) (d : HASHPROPDLG) (pItem : Nat)
    (item : HASHPROPITEM) (hget : d.ctx.hList.data.get? pItem = some item)
    (hf : ¬ mustFlush denv d item) :
    HashPropUpdateResults denv d pItem =
      { ctx := { d.ctx with
          hList := storeItem d.ctx.hList pItem (itemShown d.ctx item)
          cSuccess := if hashesMissing d.ctx item then d.ctx.cSuccess else UINT_INC d.ctx.cSuccess
          scratch := memWrite d.ctx.scratch (d.ctx.obScratch / denv.sizeofTCHAR)
            (itemText denv d.ctx (itemShown d.ctx item) ++ [NUL])
          obScratch := obScratchAfter denv d.ctx item }
        ui := d.ui
        trace := updateTrace d pItem item } := by
  unfold HashPropUpdateResults
  rw [hget]
  simp only []
  have hc : (d.ctx.cSentMsgs > d.ctx.cHandledMsgs ∧
      obScratchAfter denv d.ctx item
        + cchMaxBufferRequired denv d.ctx (itemShown d.ctx item) * denv.sizeofTCHAR
        ≤ denv.sizeofHASHPROPSCRATCH) := by
    unfold mustFlush at hf
    push_neg at hf
    exact ⟨hf.1, hf.2⟩
  rw [if_pos hc]
  unfold updateTrace
  split_ifs <;> rfl

/-! ### C5 -/

/-- C5: for every call of `HashPropUpdateResults` (on an item of the list), once the
item's text and a NUL have been written at the old offset, the scratch buffer
is flushed (one `EM_REPLACESEL` of the C string at the start of the scratch
buffer is recorded, the results box receives it, `obScratch` becomes 0) if
and only if the backlog has drained (`cSentMsgs` is not greater than
`cHandledMsgs`) or the new offset plus `cchMaxBufferRequired * sizeof(TCHAR)`
exceeds `sizeof(HASHPROPSCRATCH)`; otherwise nothing is delivered, the
controls are unchanged and `obScratch` is the new offset, which (for an
aligned old offset and an offset that fits a `UINT`) is the byte offset of the
terminating NUL of the text just appended. -/
theorem C5_flush_iff_drained_or_full (denv : DlgEnv) (d : HASHPROPDLG) (pItem : Nat)
    (item : HASHPROPITEM) (hget : d.ctx.hList.data.get? pItem = some item) :
    ((HashPropUpdateResults denv d pItem).trace
        = updateTrace d pItem item
          ++ [DlgCall.EM_REPLACESEL (cstr (HashPropUpdateResults denv d pItem).ctx.scratch)]
      ↔ mustFlush denv d item)
    ∧ (mustFlush denv d item →
        (HashPropUpdateResults denv d pItem).ctx.obScratch = 0
        ∧ (HashPropUpdateResults denv d pItem).ui.results
            = d.ui.results ++ cstr (HashPropUpdateResults denv d pItem).ctx.scratch)
    ∧ (¬ mustFlush denv d item →
        (HashPropUpdateResults denv d pItem).trace = updateTrace d pItem item
        ∧ (HashPropUpdateResults denv d pItem).ui = d.ui
        ∧ (HashPropUpdateResults denv d pItem).ctx.obScratch = obScratchAfter denv d.ctx item)
    ∧ (HashPropUpdateResults denv d pItem).ctx.scratch
        = memWrite d.ctx.scratch (d.ctx.obScratch / denv.sizeofTCHAR)
            (itemText denv d.ctx (itemShown d.ctx item) ++ [NUL])
    ∧ (0 < denv.sizeofTCHAR → denv.sizeofTCHAR ∣ d.ctx.obScratch →
        d.ctx.obScratch + (itemText denv d.ctx (itemShown d.ctx item)).length * denv.sizeofTCHAR
          < 2 ^ 32 →
        obScratchAfter denv d.ctx item
          = d.ctx.obScratch
            + (itemText denv d.ctx (itemShown d.ctx item)).length * denv.sizeofTCHAR
        ∧ denv.sizeofTCHAR ∣ obScratchAfter denv d.ctx item
        ∧ (HashPropUpdateResults denv d pItem).ctx.scratch.get?
            (obScratchAfter denv d.ctx item / denv.sizeofTCHAR) = some NUL
        ∧ (((HashPropUpdateResults denv d pItem).ctx.scratch.drop
              (d.ctx.obScratch / denv.sizeofTCHAR)).take
              (itemText denv d.ctx (itemShown d.ctx item)).length
            = itemText denv d.ctx (itemShown d.ctx item))) := by
  have hscratch : (HashPropUpdateResults denv d pItem).ctx.scratch
      = memWrite d.ctx.scratch (d.ctx.obScratch / denv.sizeofTCHAR)
          (itemText denv d.ctx (itemShown d.ctx item) ++ [NUL]) := by
    by_cases hf : mustFlush denv d item
    · rw [HashPropUpdateResults_flush denv d pItem item hget hf]
    · rw [HashPropUpdateResults_keep denv d pItem item hget hf]
  refine ⟨?_, ?_, ?_, hscratch, ?_⟩
  · by_cases hf : mustFlush denv d item
    · simp only [hf, iff_true]
      rw [HashPropUpdateResults_flush denv d pItem item hget hf]
    · simp only [hf, iff_false]
      rw [HashPropUpdateResults_keep denv d pItem item hget hf]
      simp only []
      intro h
      have := congrArg List.length h
      simp at this
  · intro hf
    rw [HashPropUpdateResults_flush denv d pItem item hget hf]
    exact ⟨rfl, rfl⟩
  · intro hf
    rw [HashPropUpdateResults_keep denv d pItem item hget hf]
    exact ⟨rfl, rfl, rfl⟩
  · intro hT hal hfit
    have hoff : obScratchAfter denv d.ctx item
        = d.ctx.obScratch
          + (itemText denv d.ctx (itemShown d.ctx item)).length * denv.sizeofTCHAR := by
      unfold obScratchAfter DWORD_BITS
      exact Nat.mod_eq_of_lt hfit
    have hidx : obScratchAfter denv d.ctx item / denv.sizeofTCHAR
        = d.ctx.obScratch / denv.sizeofTCHAR
          + (itemText denv d.ctx (itemShown d.ctx item)).length := by
      rw [hoff, Nat.add_mul_div_right _ _ hT]
    refine ⟨hoff, ?_, ?_, ?_⟩
    · rw [hoff]
      exact Dvd.dvd.add hal (Dvd.intro_left _ rfl)
    · rw [hscratch, hidx]
      exact (memWrite_text _ _ _).2
    · rw [hscratch]
      exact (memWrite_text _ _ _).1

/-- C5 at a concrete call: one update is still queued behind the one handled
(`cSentMsgs = 2`, `cHandledMsgs = 1`) and the buffer is far from full, so the
text of the first sample item is kept in the scratch buffer: the offset moves
from 0 to the NUL after its 159 two-byte characters. -/
theorem C5_flush_witness :
    { samplePipe1.d with ctx := { samplePipe1.d.ctx with cSentMsgs := 2, cHandledMsgs := 1 } }.ctx.hList.data.get? 0
        = some (sampleItemA 1)
    ∧ ¬ mustFlush sampleDlgEnv
        { samplePipe1.d with ctx := { samplePipe1.d.ctx with cSentMsgs := 2, cHandledMsgs := 1 } }
        (sampleItemA 1)
    ∧ (HashPropUpdateResults sampleDlgEnv
        { samplePipe1.d with ctx := { samplePipe1.d.ctx with cSentMsgs := 2, cHandledMsgs := 1 } }
        0).ctx.obScratch = 318 :=
  ⟨by decide, by decide,
    ((C5_flush_iff_drained_or_full sampleDlgEnv
      { samplePipe1.d with ctx := { samplePipe1.d.ctx with cSentMsgs := 2, cHandledMsgs := 1 } }
      0 (sampleItemA 1) (by decide)).2.2.1 (by decide)).2.2.trans (by decide)⟩

/-! ### The capacity of the scratch buffer -/

theorem readChars_length (src : List Char) (start n : Nat) :
    (readChars src start n).length = n := by
  unfold readChars
  rw [List.length_map, List.length_range]

theorem resultsText_foldl_length (dw : Nat) (r1 r2 : WHRESULTEX) (l : List hash_algorithm)
    (acc1 acc2 : List Char) (h : acc1.length = acc2.length) :
    (l.foldl (fun text alg =>
        if dw &&& WHEX_CHECK alg ≠ 0 then
          text ++ (HASH_RESULT_op alg ++ readChars (r1.szHex alg) 0 (DIGEST_LENGTH alg * 2) ++ CRLF)
        else text) acc1).length
    = (l.foldl (fun text alg =>
        if dw &&& WHEX_CHECK alg ≠ 0 then
          text ++ (HASH_RESULT_op alg ++ readChars (r2.szHex alg) 0 (DIGEST_LENGTH alg * 2) ++ CRLF)
        else text) acc2).length := by
  induction l generalizing acc1 acc2 with
  | nil => exact h
  | cons a l ih =>
    simp only [List.foldl_cons]
    apply ih
    split_ifs
    · simp only [List.length_append, readChars_length, h]
    · exact h

theorem resultsText_length (dw : Nat) (r1 r2 : WHRESULTEX) :
    (resultsText dw r1).length = (resultsText dw r2).length :=
  resultsText_foldl_length dw r1 r2 FOR_EACH_HASH [] [] rfl

theorem cchMaxBufferRequired_congr (denv : DlgEnv) (ctx1 ctx2 : HASHPROPCONTEXT)
    (i1 i2 : HASHPROPITEM) (hp : ctx1.cchPrefix = ctx2.cchPrefix) (ho : ctx1.opt = ctx2.opt) :
    cchMaxBufferRequired denv ctx1 i1 = cchMaxBufferRequired denv ctx2 i2 := by
  unfold cchMaxBufferRequired
  rw [hp, ho, resultsText_length ctx2.opt.dwChecksums i1.results i2.results]

theorem itemShown_path (ctx : HASHPROPCONTEXT) (item : HASHPROPITEM) :
    (itemShown ctx item).szPath = item.szPath ∧ (itemShown ctx item).cchPath = item.cchPath := by
  unfold itemShown
  split_ifs <;> exact ⟨rfl, rfl⟩

theorem UINT_SUB_of_le (a b : Nat) (hab : b ≤ a) (ha : a < 2 ^ 32) : UINT_SUB a b = a - b := by
  unfold UINT_SUB DWORD_BITS
  rw [Nat.mod_eq_of_lt ha, Nat.mod_eq_of_lt (lt_of_le_of_lt hab ha)]
  omega

/-- The text appended for one item, with its terminating NUL, is never longer than
`cchMaxBufferRequired` when the path has the prefix and fits the path buffer. -/
theorem itemText_length_le (denv : DlgEnv) (ctx : HASHPROPCONTEXT) (item : HASHPROPITEM)
    (h1 : ctx.cchPrefix ≤ item.cchPath) (h2 : item.cchPath ≤ MAX_PATH_BUFFER) :
    (itemText denv ctx item).length + 1 ≤ cchMaxBufferRequired denv ctx item := by
  have hM : MAX_PATH_BUFFER = 2048 := by decide
  have hlabel : (LoadString denv.IDS_HP_FILELABEL denv.MAX_STRINGRES).length
      ≤ denv.MAX_STRINGRES := by
    unfold LoadString
    rw [List.length_take]
    omega
  have hsub1 : UINT_SUB item.cchPath ctx.cchPrefix = item.cchPath - ctx.cchPrefix :=
    UINT_SUB_of_le _ _ h1 (by omega)
  have hsub2 : UINT_SUB MAX_PATH_BUFFER ctx.cchPrefix = MAX_PATH_BUFFER - ctx.cchPrefix :=
    UINT_SUB_of_le _ _ (le_trans h1 h2) (by omega)
  have hadd : UINT_ADD (MAX_PATH_BUFFER - ctx.cchPrefix) CCH_CRLF
      = MAX_PATH_BUFFER - ctx.cchPrefix + 2 := by
    unfold UINT_ADD DWORD_BITS CCH_CRLF
    apply Nat.mod_eq_of_lt
    omega
  unfold itemText cchMaxBufferRequired
  simp only [List.length_append, readChars_length, hsub1, hsub2, hadd]
  have hcr : CRLF.length = 2 := rfl
  have hcc : CCH_CRLF = 2 := rfl
  rw [hcr, hcc]
  omega

theorem HashPropUpdateResults_frame (denv : DlgEnv) (d : HASHPROPDLG) (pItem : Nat) :
    (HashPropUpdateResults denv d pItem).ctx.opt = d.ctx.opt
    ∧ (HashPropUpdateResults denv d pItem).ctx.cchPrefix = d.ctx.cchPrefix := by
  unfold HashPropUpdateResults
  cases d.ctx.hList.data.get? pItem with
  | none => exact ⟨rfl, rfl⟩
  | some item0 =>
    simp only []
    split_ifs <;> exact ⟨rfl, rfl⟩

theorem HashPropRestart_frame (denv : DlgEnv) (d : HASHPROPDLG) :
    (HashPropRestart denv d).ctx.opt = d.ctx.opt
    ∧ (HashPropRestart denv d).ctx.cchPrefix = d.ctx.cchPrefix
    ∧ (HashPropRestart denv d).ctx.obScratch = 0
    ∧ (HashPropRestart denv d).ctx.cSuccess = 0 := by
  unfold HashPropRestart
  simp only []
  split_ifs <;> exact ⟨rfl, rfl, rfl, rfl⟩

/-- On return from every call of `HashPropUpdateResults` the scratch invariant
holds. -/
theorem HashPropUpdateResults_inv (denv : DlgEnv) (d : HASHPROPDLG) (pItem : Nat)
    (item : HASHPROPITEM) (hget : d.ctx.hList.data.get? pItem = some item) :
    ScratchInv denv (HashPropUpdateResults denv d pItem) := by
  by_cases hf : mustFlush denv d item
  · left
    rw [HashPropUpdateResults_flush denv d pItem item hget hf]
  · right
    intro next
    rw [HashPropUpdateResults_keep denv d pItem item hget hf]
    simp only []
    unfold mustFlush at hf
    push_neg at hf
    have hc := cchMaxBufferRequired_congr denv
      { d.ctx with
          hList := storeItem d.ctx.hList pItem (itemShown d.ctx item)
          cSuccess := if hashesMissing d.ctx item then d.ctx.cSuccess else UINT_INC d.ctx.cSuccess
          scratch := memWrite d.ctx.scratch (d.ctx.obScratch / denv.sizeofTCHAR)
            (itemText denv d.ctx (itemShown d.ctx item) ++ [NUL])
          obScratch := obScratchAfter denv d.ctx item }
      d.ctx next (itemShown d.ctx item) rfl rfl
    rw [hc]
    exact hf.2

theorem ScratchInv_congr (denv : DlgEnv) (d1 d2 : HASHPROPDLG)
    (hob : d1.ctx.obScratch = d2.ctx.obScratch) (hp : d1.ctx.cchPrefix = d2.ctx.cchPrefix)
    (ho : d1.ctx.opt = d2.ctx.opt) (h : ScratchInv denv d2) : ScratchInv denv d1 := by
  rcases h with h | h
  · left; rw [hob]; exact h
  · right
    intro next
    rw [hob, cchMaxBufferRequired_congr denv d1.ctx d2.ctx next next hp ho]
    exact h next

theorem HashPropDlgProc_UPDATE_inv (denv : DlgEnv) (d : HASHPROPDLG) (pItem : Nat)
    (h : ScratchInv denv d) :
    ScratchInv denv (HashPropDlgProc_UPDATE denv d pItem)
    ∧ (HashPropDlgProc_UPDATE denv d pItem).ctx.opt = d.ctx.opt
    ∧ (HashPropDlgProc_UPDATE denv d pItem).ctx.cchPrefix = d.ctx.cchPrefix := by
  unfold HashPropDlgProc_UPDATE
  simp only []
  split_ifs
  · obtain ⟨h1, h2, h3, _⟩ := HashPropRestart_frame denv
      { d with ctx := { d.ctx with cHandledMsgs := UINT_INC d.ctx.cHandledMsgs } }
    exact ⟨Or.inl h3, h1, h2⟩
  · exact ⟨ScratchInv_congr denv _ d rfl rfl rfl h, rfl, rfl⟩
  · obtain ⟨h1, h2⟩ := HashPropUpdateResults_frame denv
      { d with ctx := { d.ctx with cHandledMsgs := UINT_INC d.ctx.cHandledMsgs } } pItem
    refine ⟨?_, h1, h2⟩
    cases hget : d.ctx.hList.data.get? pItem with
    | none =>
      have : HashPropUpdateResults denv
          { d with ctx := { d.ctx with cHandledMsgs := UINT_INC d.ctx.cHandledMsgs } } pItem
          = { d with ctx := { d.ctx with cHandledMsgs := UINT_INC d.ctx.cHandledMsgs } } := by
        unfold HashPropUpdateResults
        simp only [hget]
      rw [this]
      exact ScratchInv_congr denv _ d rfl rfl rfl h
    | some item => exact HashPropUpdateResults_inv denv _ pItem item hget

theorem PipeReach_scratch (denv : DlgEnv) (d0 : HASHPROPDLG) (s : PipeState)
    (hr : PipeReach denv d0 s) (h0 : d0.ctx.obScratch = 0) :
    ScratchInv denv s.d ∧ s.d.ctx.opt = d0.ctx.opt ∧ s.d.ctx.cchPrefix = d0.ctx.cchPrefix := by
  induction hr with
  | init => exact ⟨Or.inl h0, rfl, rfl⟩
  | step s t _ ht ih =>
    obtain ⟨ih1, ih2, ih3⟩ := ih
    cases ht with
    | work hList hp => exact ⟨ScratchInv_congr denv _ s.d rfl rfl rfl ih1, ih2, ih3⟩
    | inc p hp => exact ⟨ScratchInv_congr denv _ s.d rfl rfl rfl ih1, ih2, ih3⟩
    | post p hp => exact ⟨ih1, ih2, ih3⟩
    | handle p q hq =>
      obtain ⟨k1, k2, k3⟩ := HashPropDlgProc_UPDATE_inv denv s.d p ih1
      exact ⟨k1, k2.trans ih2, k3.trans ih3⟩

/-- In the pipeline of worker and update handler alone (no options change between
two updates), started with an empty scratch buffer that can hold the maximum
text of one item, every reachable state satisfies the scratch-buffer
invariant, and the text and NUL that the next call appends for a list item
whose path has the prefix and fits `MAX_PATH_BUFFER` end inside the scratch
buffer. -/
theorem PipeReach_append_in_bounds (denv : DlgEnv) (d0 : HASHPROPDLG) (s : PipeState)
    (hr : PipeReach denv d0 s) (h0 : d0.ctx.obScratch = 0)
    (hcap : ∀ next : HASHPROPITEM,
      cchMaxBufferRequired denv d0.ctx next * denv.sizeofTCHAR ≤ denv.sizeofHASHPROPSCRATCH) :
    ScratchInv denv s.d
    ∧ (∀ (pItem : Nat) (item : HASHPROPITEM),
        s.d.ctx.hList.data.get? pItem = some item →
        s.d.ctx.cchPrefix ≤ item.cchPath → item.cchPath ≤ MAX_PATH_BUFFER →
        s.d.ctx.obScratch
            + ((itemText denv s.d.ctx (itemShown s.d.ctx item)).length + 1) * denv.sizeofTCHAR
          ≤ denv.sizeofHASHPROPSCRATCH) := by
  obtain ⟨hinv, hopt, hpre⟩ := PipeReach_scratch denv d0 s hr h0
  refine ⟨hinv, ?_⟩
  intro pItem item _ h1 h2
  have hp := itemShown_path s.d.ctx item
  have hlen := itemText_length_le denv s.d.ctx (itemShown s.d.ctx item)
    (by rw [hp.2]; exact h1) (by rw [hp.2]; exact h2)
  have hmul := Nat.mul_le_mul_right denv.sizeofTCHAR hlen
  rcases hinv with h | h
  · have hc := hcap (itemShown s.d.ctx item)
    rw [← cchMaxBufferRequired_congr denv s.d.ctx d0.ctx (itemShown s.d.ctx item)
      (itemShown s.d.ctx item) hpre hopt] at hc
    omega
  · have hc := h (itemShown s.d.ctx item)
    omega

/-! ### An options change while a save is in progress -/

theorem sampleSave19_reach : SysReach sampleTightEnv sampleSave19 := by
  have r0 : SysReach sampleTightEnv sampleSave0 :=
    SysReach.init _ ⟨rfl, rfl, rfl, rfl, rfl, rfl, by decide, rfl, rfl⟩
  have r1 : SysReach sampleTightEnv sampleSave1 :=
    SysReach.step _ _ r0 (SysStep.w_work sampleSave0 _ 2 2040 true rfl)
  have r2 : SysReach sampleTightEnv sampleSave2 :=
    SysReach.step _ _ r1 (SysStep.w_inc sampleSave1 0 rfl rfl)
  have r3 : SysReach sampleTightEnv sampleSave3 :=
    SysReach.step _ _ r2 (SysStep.w_post sampleSave2 0 rfl)
  have r4 : SysReach sampleTightEnv sampleSave4 :=
    SysReach.step _ _ r3 (SysStep.w_work sampleSave3 _ 2 2040 false rfl)
  have r5 : SysReach sampleTightEnv sampleSave5 :=
    SysReach.step _ _ r4 (SysStep.w_inc sampleSave4 1 rfl rfl)
  have r6 : SysReach sampleTightEnv sampleSave6 :=
    SysReach.step _ _ r5 (SysStep.w_post sampleSave5 1 rfl)
  have r7 : SysReach sampleTightEnv sampleSave7 :=
    SysReach.step _ _ r6 (SysStep.w_exit sampleSave6 true rfl rfl)
  have r8 : SysReach sampleTightEnv sampleSave8 :=
    SysReach.step _ _ r7 (SysStep.ui_update sampleSave7 0 0 _ true rfl rfl)
  have r9 : SysReach sampleTightEnv sampleSave9 :=
    SysReach.step _ _ r8 (SysStep.ui_update sampleSave8 1 0 _ true rfl rfl)
  have r10 : SysReach sampleTightEnv sampleSave10 :=
    SysReach.step _ _ r9 (SysStep.ui_done sampleSave9 0 [] rfl rfl rfl)
  have r11 : SysReach sampleTightEnv sampleSave11 :=
    SysReach.step _ _ r10 (SysStep.ui_save sampleSave10 (some 1) 5 true rfl (by decide))
  have r12 : SysReach sampleTightEnv sampleSave12 :=
    SysReach.step _ _ r11 (SysStep.w_work sampleSave11 _ 2 2040 false (by decide))
  have r13 : SysReach sampleTightEnv sampleSave13 :=
    SysReach.step _ _ r12 (SysStep.w_inc sampleSave12 0 (by decide) rfl)
  have r14 : SysReach sampleTightEnv sampleSave14 :=
    SysReach.step _ _ r13 (SysStep.w_post sampleSave13 0 rfl)
  have r15 : SysReach sampleTightEnv sampleSave15 :=
    SysReach.step _ _ r14 (SysStep.w_work sampleSave14 _ 2 2040 false (by decide))
  have r16 : SysReach sampleTightEnv sampleSave16 :=
    SysReach.step _ _ r15 (SysStep.w_inc sampleSave15 1 (by decide) rfl)
  have r17 : SysReach sampleTightEnv sampleSave17 :=
    SysReach.step _ _ r16 (SysStep.ui_update sampleSave16 0 1 [] true rfl (by decide))
  have r18 : SysReach sampleTightEnv sampleSave18 :=
    SysReach.step _ _ r17 (SysStep.ui_options_stop sampleSave17 sampleOptAll (by decide))
  exact SysReach.step _ _ r18 (SysStep.w_post sampleSave18 1 (by decide))

theorem HashPropOptions_saving (denv : DlgEnv) (opt : HASHCHECKOPTIONS) (d : HASHPROPDLG)
    (h : d.ctx.hFileOut ≠ none) :
    HashPropOptions denv opt d = { d with ctx := { d.ctx with opt := opt } } := by
  unfold HashPropOptions HashPropOptions_stop
  simp only []
  rw [if_neg (fun hc => h hc.2)]

/-! ### C6 -/

/-- C6 (scratch-buffer invariant), evaluated on the code: the invariant holds on
return from each call, and an options change during a save breaks it before
the next call.
(1) On return from every call of `HashPropUpdateResults`, with the options the
call was made under, `obScratch = 0` or `obScratch + cchMaxBufferRequired *
sizeof(TCHAR) <= sizeof(HASHPROPSCRATCH)`.
(2) `HashPropOptions`, entered while a file save is in progress (`hFileOut` is a
valid handle), stores the new options and nothing else: no restart, and
`obScratch` stays as it was.
(3) The sample dialog (scratch struct of 1536 bytes, two files in a directory
whose path has 2040 characters) reaches the following state. A first run with
CRC-32 has completed; the user has saved with the SHA-512 filter, which
restarted the worker with the output file open; the text of the first file
was kept in the buffer (`obScratch = 342`, invariant true); then the user
selected all eight algorithms. The buffer holds the maximum text of one item
under the new options, but the invariant is now false, and the handler of the
queued update of the second file, a list item whose path has the prefix and
fits `MAX_PATH_BUFFER`, writes its text and NUL up to byte 1614, past the end
of the scratch struct. -/
theorem C6_scratch_invariant_broken_by_options (denv : DlgEnv) :
    (∀ (d : HASHPROPDLG) (pItem : Nat) (item : HASHPROPITEM),
        d.ctx.hList.data.get? pItem = some item →
        (HashPropUpdateResults denv d pItem).ctx.obScratch = 0
        ∨ (HashPropUpdateResults denv d pItem).ctx.obScratch
            + cchMaxBufferRequired denv d.ctx (itemShown d.ctx item) * denv.sizeofTCHAR
            ≤ denv.sizeofHASHPROPSCRATCH)
    ∧ (∀ (opt : HASHCHECKOPTIONS) (d : HASHPROPDLG), d.ctx.hFileOut ≠ none →
        HashPropOptions denv opt d = { d with ctx := { d.ctx with opt := opt } })
    ∧ SysReach sampleTightEnv sampleSave19
    ∧ sampleSave17.d.ctx.hFileOut = some 1
    ∧ sampleSave17.d.ctx.obScratch = 342
    ∧ ScratchInv sampleTightEnv sampleSave17.d
    ∧ sampleSave18.d = HashPropOptions sampleTightEnv sampleOptAll sampleSave17.d
    ∧ sampleSave19.d.ctx.opt = sampleOptAll
    ∧ sampleSave19.d.ctx.obScratch = 342
    ∧ (∀ next : HASHPROPITEM,
        cchMaxBufferRequired sampleTightEnv sampleSave19.d.ctx next * sampleTightEnv.sizeofTCHAR
          ≤ sampleTightEnv.sizeofHASHPROPSCRATCH)
    ∧ ¬ ScratchInv sampleTightEnv sampleSave19.d
    ∧ sampleSave19.uiWait = false
    ∧ sampleSave19.queue = [(Msg.HM_WORKERTHREAD_UPDATE 1, 1)]
    ∧ sampleSave19.d.ctx.hList.data.get? 1 = some (sampleDeepItem 'b' 17)
    ∧ sampleSave19.d.ctx.cchPrefix ≤ (sampleDeepItem 'b' 17).cchPath
    ∧ (sampleDeepItem 'b' 17).cchPath ≤ MAX_PATH_BUFFER
    ∧ sampleSave19.d.ctx.obScratch
        + ((itemText sampleTightEnv sampleSave19.d.ctx
              (itemShown sampleSave19.d.ctx (sampleDeepItem 'b' 17))).length + 1)
          * sampleTightEnv.sizeofTCHAR = 1614
    ∧ (HashPropDlgProc_UPDATE sampleTightEnv sampleSave19.d 1).ctx.scratch.length
          * sampleTightEnv.sizeofTCHAR = 1614
    ∧ sampleTightEnv.sizeofHASHPROPSCRATCH = 1536 := by
  refine ⟨?_, fun opt d h => HashPropOptions_saving denv opt d h, sampleSave19_reach,
    by decide, by decide, ?_, ?_, by decide, by decide, ?_, ?_, by decide, by decide, rfl,
    by decide, by decide, by decide, by decide, rfl⟩
  · intro d pItem item hget
    rcases HashPropUpdateResults_inv denv d pItem item hget with h | h
    · exact Or.inl h
    · right
      have hf := HashPropUpdateResults_frame denv d pItem
      rw [← cchMaxBufferRequired_congr denv (HashPropUpdateResults denv d pItem).ctx d.ctx
        (itemShown d.ctx item) (itemShown d.ctx item) hf.2 hf.1]
      exact h _
  · right
    intro next
    rw [cchMaxBufferRequired_congr sampleTightEnv sampleSave17.d.ctx sampleSave17.d.ctx next
      (sampleItemA 1) rfl rfl]
    decide
  · rw [HashPropOptions_saving sampleTightEnv sampleOptAll sampleSave17.d (by decide)]
    rfl
  · intro next
    rw [cchMaxBufferRequired_congr sampleTightEnv sampleSave19.d.ctx sampleSave19.d.ctx next
      (sampleItemA 1) rfl rfl]
    decide
  · intro h
    rcases h with h | h
    · revert h; decide
    · have h1 := h (sampleItemA 1)
      revert h1; decide

/-! ### Runs of the worker loop -/

/-- The worker neither blocks for ever nor sees a cancel request at iteration `n`. -/
theorem workerLoop_continue (env : WorkerEnv) (cf fuel n : Nat) (r : WorkerRun)
    (p : Nat) (pItem : HASHPROPITEM) (hList : HSIMPLELIST)
    (hstep : SLGetDataAndStep r.ctx.hList = some ((p, pItem), hList))
    (hb : ¬ (env.statusAtPauseCheck n = .PAUSED ∧ env.unpauseSignalled n = false))
    (hc : env.statusAtCancelCheck n ≠ .CANCEL_REQUESTED) :
    workerLoop env cf (fuel + 1) n r
      = workerLoop env cf fuel (n + 1)
          { r with
            ctx := { r.ctx with
              hList := storeItem hList p { pItem with
                results := env.WorkerThreadHashFile n pItem.szPath
                  (cf &&& DWORD_NOT pItem.results.dwFlags) pItem.results }
              cSentMsgs := UINT_INC r.ctx.cSentMsgs }
            posted := r.posted ++ [Msg.HM_WORKERTHREAD_UPDATE p]
            calls := r.calls ++
              [{ pItem := p, item := pItem, whctxFlags := cf &&& DWORD_NOT pItem.results.dwFlags }] } := by
  conv_lhs => unfold workerLoop
  rw [hstep]
  simp only []
  rw [if_neg hb, if_neg hc]

theorem workerLoop_cancel (env : WorkerEnv) (cf fuel n : Nat) (r : WorkerRun)
    (p : Nat) (pItem : HASHPROPITEM) (hList : HSIMPLELIST)
    (hstep : SLGetDataAndStep r.ctx.hList = some ((p, pItem), hList))
    (hb : ¬ (env.statusAtPauseCheck n = .PAUSED ∧ env.unpauseSignalled n = false))
    (hc : env.statusAtCancelCheck n = .CANCEL_REQUESTED) :
    workerLoop env cf (fuel + 1) n r
      = { r with
          ctx := { r.ctx with
            hList := storeItem hList p { pItem with
              results := env.WorkerThreadHashFile n pItem.szPath
                (cf &&& DWORD_NOT pItem.results.dwFlags) pItem.results } }
          calls := r.calls ++
              [{ pItem := p, item := pItem, whctxFlags := cf &&& DWORD_NOT pItem.results.dwFlags }] } := by
  conv_lhs => unfold workerLoop
  rw [hstep]
  simp only []
  rw [if_neg hb, if_pos hc]

theorem SLGetDataAndStep_of_lt (l : HSIMPLELIST) (h : l.pos < l.data.length) :
    ∃ it, l.data.get? l.pos = some it
      ∧ SLGetDataAndStep l = some ((l.pos, it), { l with pos := l.pos + 1 }) := by
  refine ⟨l.data[l.pos], ?_, ?_⟩
  · rw [List.get?_eq_getElem?, List.getElem?_eq_getElem h]
  · unfold SLGetDataAndStep
    rw [List.get?_eq_getElem?, List.getElem?_eq_getElem h]

/-- The closed form of a run of the loop in which the first `t` iterations go
through and, if items remain after them, the next one sees the cancel request. -/
theorem workerLoop_run (env : WorkerEnv) (cf : Nat) (fuel : Nat) :
    ∀ (t n : Nat) (r : WorkerRun),
      fuel = r.ctx.hList.data.length - r.ctx.hList.pos → t ≤ fuel →
      (∀ m, n ≤ m → m < n + t →
        ¬ (env.statusAtPauseCheck m = .PAUSED ∧ env.unpauseSignalled m = false)
        ∧ env.statusAtCancelCheck m ≠ .CANCEL_REQUESTED) →
      (t < fuel →
        ¬ (env.statusAtPauseCheck (n + t) = .PAUSED ∧ env.unpauseSignalled (n + t) = false)
        ∧ env.statusAtCancelCheck (n + t) = .CANCEL_REQUESTED) →
      (workerLoop env cf fuel n r).posted
          = r.posted ++ (List.range' r.ctx.hList.pos t).map Msg.HM_WORKERTHREAD_UPDATE
      ∧ (workerLoop env cf fuel n r).ctx.cSentMsgs = UINT_INC^[t] r.ctx.cSentMsgs
      ∧ (workerLoop env cf fuel n r).returned = r.returned
      ∧ (workerLoop env cf fuel n r).calls.map (fun c => c.pItem)
          = r.calls.map (fun c => c.pItem) ++ List.range' r.ctx.hList.pos (min fuel (t + 1))
      ∧ (workerLoop env cf fuel n r).ctx.hList.pos = r.ctx.hList.pos + min fuel (t + 1)
      ∧ (∀ i, r.ctx.hList.pos + min fuel (t + 1) ≤ i →
          (workerLoop env cf fuel n r).ctx.hList.data.get? i = r.ctx.hList.data.get? i) := by
  induction fuel with
  | zero =>
    intro t n r _ ht _ _
    have : t = 0 := by omega
    subst this
    simp [workerLoop]
  | succ fuel ih =>
    intro t n r hfuel ht hok hstop
    have hlt : r.ctx.hList.pos < r.ctx.hList.data.length := by omega
    obtain ⟨it, hget, hstep⟩ := SLGetDataAndStep_of_lt r.ctx.hList hlt
    cases t with
    | zero =>
      obtain ⟨hb, hc⟩ := hstop (by omega)
      simp only [Nat.add_zero] at hb hc
      rw [workerLoop_cancel env cf fuel n r _ _ _ hstep hb hc]
      have hmin : min (fuel + 1) (0 + 1) = 1 := by omega
      simp only [hmin, List.range'_zero, List.map_nil, List.append_nil, Function.iterate_zero,
        id_eq, List.map_append, List.map_cons, List.range'_one, storeItem, true_and]
      intro i hi
      simp only [List.get?_eq_getElem?]
      rw [List.getElem?_set_ne (by omega)]
    | succ t =>
      obtain ⟨hb, hc⟩ := hok n (le_refl _) (by omega)
      rw [workerLoop_continue env cf fuel n r _ _ _ hstep hb hc]
      have hih := ih t (n + 1)
        { r with
          ctx := { r.ctx with
            hList := storeItem { r.ctx.hList with pos := r.ctx.hList.pos + 1 } r.ctx.hList.pos
              { it with
                results := env.WorkerThreadHashFile n it.szPath
                  (cf &&& DWORD_NOT it.results.dwFlags) it.results }
            cSentMsgs := UINT_INC r.ctx.cSentMsgs }
          posted := r.posted ++ [Msg.HM_WORKERTHREAD_UPDATE r.ctx.hList.pos]
          calls := r.calls ++
              [{ pItem := r.ctx.hList.pos, item := it, whctxFlags := cf &&& DWORD_NOT it.results.dwFlags }] }
        (by simp only [storeItem, List.length_set]; omega)
        (by omega)
        (fun m hm1 hm2 => hok m (by omega) (by omega))
        (fun hlt2 => by
          have := hstop (by omega)
          rw [show n + (t + 1) = n + 1 + t by omega] at this
          exact this)
      obtain ⟨h1, h2, h3, h4, h5, h6⟩ := hih
      have hmin : min (fuel + 1) (t + 1 + 1) = min fuel (t + 1) + 1 := by omega
      refine ⟨?_, ?_, ?_, ?_, ?_, ?_⟩
      · rw [h1]
        simp only [storeItem, List.range'_succ, List.map_cons, List.append_assoc,
          List.singleton_append]
      · rw [h2]; rfl
      · rw [h3]
      · rw [h4, hmin]
        simp only [storeItem, List.range'_succ, List.map_append, List.append_assoc,
          List.map_cons, List.map_nil, List.singleton_append]
      · rw [h5, hmin]
        simp only [storeItem]
        omega
      · intro i hi
        rw [h6 i (by simp only [storeItem]; omega)]
        simp only [storeItem, List.get?_eq_getElem?]
        rw [List.getElem?_set_ne (by omega)]

/-- In any run of the loop, whatever the environment and the number of iterations
made, the updates posted are those of consecutive items and `cSentMsgs` has
been incremented once for each of them. -/
theorem workerLoop_posted (env : WorkerEnv) (cf : Nat) (fuel n : Nat) (r : WorkerRun) :
    ∃ k, (workerLoop env cf fuel n r).posted
          = r.posted ++ (List.range' r.ctx.hList.pos k).map Msg.HM_WORKERTHREAD_UPDATE
      ∧ (workerLoop env cf fuel n r).ctx.cSentMsgs = UINT_INC^[k] r.ctx.cSentMsgs := by
  induction fuel generalizing n r with
  | zero => exact ⟨0, by simp [workerLoop], rfl⟩
  | succ fuel ih =>
    unfold workerLoop
    cases hstep : SLGetDataAndStep r.ctx.hList with
    | none => exact ⟨0, by simp, rfl⟩
    | some x =>
      obtain ⟨⟨p, pItem⟩, hList⟩ := x
      obtain ⟨hp, hget, hl⟩ := SLGetDataAndStep_some _ _ _ _ hstep
      simp only []
      split_ifs
      · exact ⟨0, by simp, rfl⟩
      · exact ⟨0, by simp, rfl⟩
      · obtain ⟨k, hk1, hk2⟩ := ih (n + 1)
          { r with
            ctx := { r.ctx with
              hList := storeItem hList p { pItem with
                results := env.WorkerThreadHashFile n pItem.szPath
                  (cf &&& DWORD_NOT pItem.results.dwFlags) pItem.results }
              cSentMsgs := UINT_INC r.ctx.cSentMsgs }
            posted := r.posted ++ [Msg.HM_WORKERTHREAD_UPDATE p]
            calls := r.calls ++
              [{ pItem := p, item := pItem, whctxFlags := cf &&& DWORD_NOT pItem.results.dwFlags }] }
        refine ⟨k + 1, ?_, ?_⟩
        · rw [hk1]
          simp only [storeItem, hl, hp, List.range'_succ, List.map_cons, List.append_assoc]
          rfl
        · rw [hk2, Function.iterate_succ_apply]

theorem workerProlog_returned (env : WorkerEnv) (phpctx : HASHPROPCONTEXT) :
    (workerProlog env phpctx).2.returned = true
    ∧ ∀ p, Msg.HM_WORKERTHREAD_UPDATE p ∉ (workerProlog env phpctx).2.posted := by
  unfold workerProlog
  split_ifs
  · rcases h : env.HashCalcPrepare phpctx with ⟨b, ctx⟩
    cases b <;> exact ⟨rfl, fun p hp => by simp at hp⟩
  · exact ⟨rfl, fun p hp => by simp at hp⟩

theorem workerLoop_uninterrupted (env : WorkerEnv) (cf : Nat)
    (hc : ∀ n, env.statusAtCancelCheck n ≠ .CANCEL_REQUESTED)
    (hres : ∀ n, env.statusAtPauseCheck n = .PAUSED → env.unpauseSignalled n = true)
    (fuel n : Nat) (r : WorkerRun) :
    workerLoop env cf fuel n r = workerLoop (uninterrupted env) cf fuel n r := by
  induction fuel generalizing n r with
  | zero => rfl
  | succ fuel ih =>
    cases hstep : SLGetDataAndStep r.ctx.hList with
    | none =>
      unfold workerLoop
      rw [hstep]
    | some x =>
      obtain ⟨⟨p, pItem⟩, hList⟩ := x
      rw [workerLoop_continue env cf fuel n r _ _ _ hstep
        (fun h => by rw [hres n h.1] at h; exact absurd h.2 (by decide)) (hc n)]
      rw [workerLoop_continue (uninterrupted env) cf fuel n r _ _ _ hstep
        (fun h => by cases h.1) (fun h => by cases h)]
      exact ih _ _

theorem UINT_INC_iterate (c k : Nat) (hc : c < 2 ^ 32) : UINT_INC^[k] c = (c + k) % 2 ^ 32 := by
  induction k generalizing c with
  | zero =>
    rw [Function.iterate_zero, id_eq, Nat.add_zero, Nat.mod_eq_of_lt hc]
  | succ k ih =>
    have hlt : UINT_INC c < 2 ^ 32 := Nat.mod_lt _ (by norm_num)
    rw [Function.iterate_succ_apply, ih _ hlt]
    simp only [UINT_INC, DWORD_BITS]
    omega

/-! ### C8 -/

/-- C8: when no cancel request is ever observed and every pause observed between
items is resumed, `HashPropWorkerMain` returns, and its whole outcome (the
calls of the hashing routine with their items and compute sets, the messages
posted in order, the context with the list and its digest results) is equal
to that of the run in which the status read between items is always
`ACTIVE`. -/
theorem C8_pause_resume_equals_uninterrupted (env : WorkerEnv) (phpctx : HASHPROPCONTEXT)
    (hc : ∀ n, env.statusAtCancelCheck n ≠ .CANCEL_REQUESTED)
    (hres : ∀ n, env.statusAtPauseCheck n = .PAUSED → env.unpauseSignalled n = true) :
    HashPropWorkerMain env phpctx = HashPropWorkerMain (uninterrupted env) phpctx
    ∧ (HashPropWorkerMain env phpctx).returned = true := by
  have hpro : workerProlog (uninterrupted env) phpctx = workerProlog env phpctx := rfl
  have hret := (workerProlog_returned env phpctx).1
  unfold HashPropWorkerMain
  rw [hpro]
  rcases h : workerProlog env phpctx with ⟨b, r⟩
  rw [h] at hret
  cases b
  · exact ⟨rfl, hret⟩
  · simp only []
    refine ⟨workerLoop_uninterrupted env _ hc hres _ _ _, ?_⟩
    have hrun := workerLoop_run env (r.ctx.opt.dwChecksums % 2 ^ 8)
      (r.ctx.hList.data.length - r.ctx.hList.pos)
      (r.ctx.hList.data.length - r.ctx.hList.pos) 0 r rfl (le_refl _)
      (fun m _ _ => ⟨fun hb => by rw [hres m hb.1] at hb; exact absurd hb.2 (by decide), hc m⟩)
      (fun hlt => absurd hlt (lt_irrefl _))
    rw [hrun.2.2.1]
    exact hret

/-- C8 at a concrete run: a pause observed after the first item and later resumed;
both updates are posted, as in the uninterrupted run. -/
theorem C8_pause_resume_witness :
    samplePausedEnv.statusAtPauseCheck 0 = .PAUSED
    ∧ (HashPropWorkerMain samplePausedEnv sampleCtx).posted
        = [Msg.HM_WORKERTHREAD_TOGGLEPREP false, Msg.HM_WORKERTHREAD_UPDATE 0,
            Msg.HM_WORKERTHREAD_UPDATE 1]
    ∧ HashPropWorkerMain samplePausedEnv sampleCtx
        = HashPropWorkerMain (uninterrupted samplePausedEnv) sampleCtx :=
  ⟨rfl, by decide,
    (C8_pause_resume_equals_uninterrupted samplePausedEnv sampleCtx
      (fun n h => by cases h) (fun _ _ => rfl)).1⟩

/-! ### C10 -/

/-- C10: (1) in any run of `HashPropWorkerMain`, and after any number of iterations
of its loop, the updates posted are those of consecutive list items starting
at the cursor, in list order, and `cSentMsgs` has been incremented exactly
once per update posted; the statements before the loop post no update.
(2) When the loop is reached, no cancel request is observed and every pause is
resumed, the run returns having posted exactly one update for each of the `n`
items from the cursor to the end of the list, the `i`-th carrying the `i`-th
of them, and `cSentMsgs` has been incremented exactly `n` times (for a `UINT`
start value it is the start value plus `n` modulo `2 ^ 32`). -/
theorem C10_one_update_per_item_in_order (env : WorkerEnv) (phpctx : HASHPROPCONTEXT) :
    (∃ k, (HashPropWorkerMain env phpctx).posted
          = (workerProlog env phpctx).2.posted
            ++ (List.range' (workerProlog env phpctx).2.ctx.hList.pos k).map
                Msg.HM_WORKERTHREAD_UPDATE
        ∧ (HashPropWorkerMain env phpctx).ctx.cSentMsgs
            = UINT_INC^[k] (workerProlog env phpctx).2.ctx.cSentMsgs)
    ∧ (∀ fuel, ∃ k,
        (workerLoop env ((workerProlog env phpctx).2.ctx.opt.dwChecksums % 2 ^ 8) fuel 0
            (workerProlog env phpctx).2).posted
          = (workerProlog env phpctx).2.posted
            ++ (List.range' (workerProlog env phpctx).2.ctx.hList.pos k).map
                Msg.HM_WORKERTHREAD_UPDATE
        ∧ (workerLoop env ((workerProlog env phpctx).2.ctx.opt.dwChecksums % 2 ^ 8) fuel 0
            (workerProlog env phpctx).2).ctx.cSentMsgs
            = UINT_INC^[k] (workerProlog env phpctx).2.ctx.cSentMsgs)
    ∧ (∀ p, Msg.HM_WORKERTHREAD_UPDATE p ∉ (workerProlog env phpctx).2.posted)
    ∧ ((workerProlog env phpctx).1 = true →
        (∀ n, env.statusAtCancelCheck n ≠ .CANCEL_REQUESTED) →
        (∀ n, env.statusAtPauseCheck n = .PAUSED → env.unpauseSignalled n = true) →
        (HashPropWorkerMain env phpctx).posted
          = (workerProlog env phpctx).2.posted
            ++ (List.range' (workerProlog env phpctx).2.ctx.hList.pos
                ((workerProlog env phpctx).2.ctx.hList.data.length
                  - (workerProlog env phpctx).2.ctx.hList.pos)).map Msg.HM_WORKERTHREAD_UPDATE
        ∧ (HashPropWorkerMain env phpctx).ctx.cSentMsgs
            = UINT_INC^[(workerProlog env phpctx).2.ctx.hList.data.length
                  - (workerProlog env phpctx).2.ctx.hList.pos]
                (workerProlog env phpctx).2.ctx.cSentMsgs
        ∧ ((workerProlog env phpctx).2.ctx.cSentMsgs < 2 ^ 32 →
            (HashPropWorkerMain env phpctx).ctx.cSentMsgs
              = ((workerProlog env phpctx).2.ctx.cSentMsgs
                  + ((workerProlog env phpctx).2.ctx.hList.data.length
                      - (workerProlog env phpctx).2.ctx.hList.pos)) % 2 ^ 32)
        ∧ (HashPropWorkerMain env phpctx).returned = true) := by
  have hret := workerProlog_returned env phpctx
  refine ⟨?_, fun fuel => workerLoop_posted env _ fuel 0 _, hret.2, ?_⟩
  · unfold HashPropWorkerMain
    rcases h : workerProlog env phpctx with ⟨b, r⟩
    cases b
    · exact ⟨0, by simp, rfl⟩
    · exact workerLoop_posted env _ _ 0 r
  · intro hloop hc hres
    have hrun := workerLoop_run env ((workerProlog env phpctx).2.ctx.opt.dwChecksums % 2 ^ 8)
      ((workerProlog env phpctx).2.ctx.hList.data.length
        - (workerProlog env phpctx).2.ctx.hList.pos)
      ((workerProlog env phpctx).2.ctx.hList.data.length
        - (workerProlog env phpctx).2.ctx.hList.pos) 0 (workerProlog env phpctx).2 rfl (le_refl _)
      (fun m _ _ => ⟨fun hb => by rw [hres m hb.1] at hb; exact absurd hb.2 (by decide), hc m⟩)
      (fun hlt => absurd hlt (lt_irrefl _))
    have hmain : HashPropWorkerMain env phpctx
        = workerLoop env ((workerProlog env phpctx).2.ctx.opt.dwChecksums % 2 ^ 8)
            ((workerProlog env phpctx).2.ctx.hList.data.length
              - (workerProlog env phpctx).2.ctx.hList.pos) 0 (workerProlog env phpctx).2 := by
      unfold HashPropWorkerMain
      rcases h : workerProlog env phpctx with ⟨b, r⟩
      rw [h] at hloop
      simp only [] at hloop
      subst hloop
      rfl
    rw [hmain]
    refine ⟨hrun.1, hrun.2.1, ?_, ?_⟩
    · intro hlt
      rw [hrun.2.1, UINT_INC_iterate _ _ hlt]
    · rw [hrun.2.2.1]
      exact hret.1

/-- C10 at a concrete run over the two sample items: two updates, in list order, and
`cSentMsgs` goes from 0 to 2. -/
theorem C10_one_update_per_item_witness :
    (HashPropWorkerMain sampleEnv sampleCtx).posted
        = [Msg.HM_WORKERTHREAD_TOGGLEPREP false]
          ++ (List.range' 0 2).map Msg.HM_WORKERTHREAD_UPDATE
    ∧ (HashPropWorkerMain sampleEnv sampleCtx).ctx.cSentMsgs = (0 + 2) % 2 ^ 32 :=
  have h := (C10_one_update_per_item_in_order sampleEnv sampleCtx).2.2.2 rfl
    (fun n hn => by cases hn) (fun _ _ => rfl)
  ⟨h.1, h.2.2.1 (by decide)⟩

/-! ### The success count -/

theorem UINT_INC_le (c : Nat) : UINT_INC c ≤ c + 1 := Nat.mod_le _ _

theorem HashPropUpdateResults_cSuccess (denv : DlgEnv) (d : HASHPROPDLG) (pItem : Nat) :
    (HashPropUpdateResults denv d pItem).ctx.cSuccess ≤ d.ctx.cSuccess + 1 := by
  unfold HashPropUpdateResults
  cases d.ctx.hList.data.get? pItem with
  | none => exact Nat.le_succ _
  | some item0 =>
    simp only []
    split_ifs
    · exact Nat.le_succ _
    · exact UINT_INC_le _
    · exact Nat.le_succ _
    · exact UINT_INC_le _

theorem HashPropDlgProc_UPDATE_cSuccess (denv : DlgEnv) (d : HASHPROPDLG) (pItem : Nat) :
    (HashPropDlgProc_UPDATE denv d pItem).ctx.cSuccess ≤ d.ctx.cSuccess + 1 := by
  unfold HashPropDlgProc_UPDATE
  simp only []
  split_ifs
  · rw [(HashPropRestart_frame denv _).2.2.2]
    exact Nat.zero_le _
  · exact Nat.le_succ _
  · exact HashPropUpdateResults_cSuccess denv _ pItem

/-- In the pipeline the success count never exceeds its start value plus the number
of updates handled, that is the updates counted less those queued or in
flight. -/
theorem PipeReach_cSuccess (denv : DlgEnv) (d0 : HASHPROPDLG) (s : PipeState)
    (hr : PipeReach denv d0 s) :
    s.d.ctx.cSuccess + s.queue.length + s.inFlight ≤ d0.ctx.cSuccess + s.nPosts := by
  induction hr with
  | init => simp [PipeState.inFlight]
  | step s t _ ht ih =>
    cases ht with
    | work hList hp => exact ih
    | inc p hp =>
      simp only [PipeState.inFlight, hp, Option.isSome_none, Option.isSome_some] at ih ⊢
      simp at ih ⊢
      omega
    | post p hp =>
      simp only [PipeState.inFlight, hp, Option.isSome_none, Option.isSome_some,
        List.length_append, List.length_singleton] at ih ⊢
      simp at ih ⊢
      omega
    | handle p q hq =>
      have h := HashPropDlgProc_UPDATE_cSuccess denv s.d p
      simp only [PipeState.inFlight, hq, List.length_cons] at ih ⊢
      omega

/-! ### C9 -/

/-- C9: let the loop be reached and let the cancel request be first observed at the
check that follows the hashing of the `k`-th item fetched, `k = j + 1` (the
earlier iterations neither block nor see a cancel request). Then the worker
returns having left the loop at once: it has posted updates for the first `j`
items only and incremented `cSentMsgs` exactly `j` times (none for the `k`-th
item), it has called the hashing routine for the first `k` items only, and
every item after the `k`-th is unchanged in the list. In the pipeline started
with `cSuccess = 0`, as long as the worker has counted no more than these `j`
updates, `cSuccess` is at most `j`, hence at most `k`. -/
theorem C9_cancel_after_item_k (env : WorkerEnv) (phpctx : HASHPROPCONTEXT) (j : Nat)
    (hloop : (workerProlog env phpctx).1 = true)
    (hitem : (workerProlog env phpctx).2.ctx.hList.pos + j
      < (workerProlog env phpctx).2.ctx.hList.data.length)
    (hok : ∀ m, m < j →
      ¬ (env.statusAtPauseCheck m = .PAUSED ∧ env.unpauseSignalled m = false)
      ∧ env.statusAtCancelCheck m ≠ .CANCEL_REQUESTED)
    (hnb : ¬ (env.statusAtPauseCheck j = .PAUSED ∧ env.unpauseSignalled j = false))
    (hcancel : env.statusAtCancelCheck j = .CANCEL_REQUESTED) :
    (HashPropWorkerMain env phpctx).returned = true
    ∧ (HashPropWorkerMain env phpctx).posted
        = (workerProlog env phpctx).2.posted
          ++ (List.range' (workerProlog env phpctx).2.ctx.hList.pos j).map
              Msg.HM_WORKERTHREAD_UPDATE
    ∧ (HashPropWorkerMain env phpctx).ctx.cSentMsgs
        = UINT_INC^[j] (workerProlog env phpctx).2.ctx.cSentMsgs
    ∧ (HashPropWorkerMain env phpctx).calls.map (fun c => c.pItem)
        = List.range' (workerProlog env phpctx).2.ctx.hList.pos (j + 1)
    ∧ (∀ i, (workerProlog env phpctx).2.ctx.hList.pos + (j + 1) ≤ i →
        (HashPropWorkerMain env phpctx).ctx.hList.data.get? i
          = (workerProlog env phpctx).2.ctx.hList.data.get? i)
    ∧ (∀ (denv : DlgEnv) (d0 : HASHPROPDLG) (s : PipeState),
        PipeReach denv d0 s → d0.ctx.cSuccess = 0 → s.nPosts ≤ j →
        s.d.ctx.cSuccess ≤ j ∧ s.d.ctx.cSuccess ≤ j + 1) := by
  have hret := workerProlog_returned env phpctx
  have hcalls := workerProlog_calls env phpctx
  have hrun := workerLoop_run env ((workerProlog env phpctx).2.ctx.opt.dwChecksums % 2 ^ 8)
    ((workerProlog env phpctx).2.ctx.hList.data.length
      - (workerProlog env phpctx).2.ctx.hList.pos)
    j 0 (workerProlog env phpctx).2 rfl (by omega)
    (fun m _ hm => hok m (by omega))
    (fun _ => by rw [Nat.zero_add]; exact ⟨hnb, hcancel⟩)
  have hmain : HashPropWorkerMain env phpctx
      = workerLoop env ((workerProlog env phpctx).2.ctx.opt.dwChecksums % 2 ^ 8)
          ((workerProlog env phpctx).2.ctx.hList.data.length
            - (workerProlog env phpctx).2.ctx.hList.pos) 0 (workerProlog env phpctx).2 := by
    unfold HashPropWorkerMain
    rcases h : workerProlog env phpctx with ⟨b, r⟩
    rw [h] at hloop
    simp only [] at hloop
    subst hloop
    rfl
  have hmin : min ((workerProlog env phpctx).2.ctx.hList.data.length
      - (workerProlog env phpctx).2.ctx.hList.pos) (j + 1) = j + 1 := by omega
  rw [hmin] at hrun
  obtain ⟨h1, h2, h3, h4, _, h6⟩ := hrun
  rw [hmain]
  refine ⟨by rw [h3]; exact hret.1, h1, h2, ?_, h6, ?_⟩
  · rw [h4, hcalls]
    rfl
  · intro denv d0 s hr h0 hn
    have := PipeReach_cSuccess denv d0 s hr
    constructor <;> omega

/-- C9 at a concrete run: the cancel request is seen after the second of the two
sample items; only the first item is notified, both were hashed. -/
theorem C9_cancel_witness :
    sampleCancelEnv.statusAtCancelCheck 1 = .CANCEL_REQUESTED
    ∧ (HashPropWorkerMain sampleCancelEnv sampleCtx).posted
        = [Msg.HM_WORKERTHREAD_TOGGLEPREP false] ++ (List.range' 0 1).map Msg.HM_WORKERTHREAD_UPDATE
    ∧ (HashPropWorkerMain sampleCancelEnv sampleCtx).calls.map (fun c => c.pItem)
        = List.range' 0 2 :=
  have h := C9_cancel_after_item_k sampleCancelEnv sampleCtx 1 rfl (by decide)
    (fun m hm => by
      have : m = 0 := by omega
      subst this
      exact ⟨fun hb => (by cases hb.1), fun hc => (by cases hc)⟩)
    (fun hb => by cases hb.1) rfl
  ⟨rfl, h.2.1, h.2.2.2.1⟩

/-! ### The governed pipeline -/

theorem GovReach_pipe (denv : DlgEnv) (d0 : HASHPROPDLG) (s : GovState)
    (hr : GovReach denv d0 s) : PipeReach denv d0 s.pipe := by
  induction hr with
  | init => exact PipeReach.init
  | step s t _ ht ih =>
    cases ht with
    | start h1 h2 h3 => exact ih
    | inc t h1 h2 h3 => exact PipeReach.step _ _ ih h2
    | other t h2 h3 => exact PipeReach.step _ _ ih h2

theorem PipeStep_nPosts (denv : DlgEnv) (s t : PipeState) (h : PipeStep denv s t) :
    s.nPosts ≤ t.nPosts := by
  cases h <;> simp

/-- A pipeline step that is not a count leaves `cSentMsgs` alone and does not lower
`cHandledMsgs` (as long as the counters have not wrapped). -/
theorem PipeStep_other_counters (denv : DlgEnv) (d0 : HASHPROPDLG) (s t : PipeState)
    (h1 : d0.ctx.cSentMsgs = 0) (h2 : d0.ctx.cHandledMsgs = 0)
    (hr : PipeReach denv d0 s) (hn : s.nPosts < 2 ^ 32)
    (h : PipeStep denv s t) (hsame : t.nPosts = s.nPosts) :
    t.d.ctx.cSentMsgs = s.d.ctx.cSentMsgs ∧ s.d.ctx.cHandledMsgs ≤ t.d.ctx.cHandledMsgs := by
  obtain ⟨k1, hh, k2, k3⟩ := PipeReach_counters denv d0 s hr h1 h2
  cases h with
  | work hList hp => exact ⟨rfl, le_refl _⟩
  | inc p hp => simp at hsame
  | post p hp => exact ⟨rfl, le_refl _⟩
  | handle p q hq =>
    obtain ⟨c1, c2⟩ := HashPropDlgProc_UPDATE_counters denv s.d p
    refine ⟨c1, ?_⟩
    simp only [c2, UINT_INC, DWORD_BITS, k2]
    rw [hq, List.length_cons] at k3
    have hlt : hh + 1 < 2 ^ 32 := by omega
    rw [Nat.mod_eq_of_lt (by omega : hh < 2 ^ 32)]
    omega

theorem PipeStep_inc_counters (denv : DlgEnv) (s t : PipeState)
    (h : PipeStep denv s t) (hinc : t.nPosts = s.nPosts + 1) :
    t.d.ctx.cSentMsgs = UINT_INC s.d.ctx.cSentMsgs
    ∧ t.d.ctx.cHandledMsgs = s.d.ctx.cHandledMsgs := by
  cases h with
  | work hList hp => simp at hinc
  | inc p hp => exact ⟨rfl, rfl⟩
  | post p hp => simp at hinc
  | handle p q hq => simp at hinc

theorem GovReach_backlog (denv : DlgEnv) (d0 : HASHPROPDLG) (s : GovState)
    (h1 : d0.ctx.cSentMsgs = 0) (h2 : d0.ctx.cHandledMsgs = 0)
    (hr : GovReach denv d0 s) (hn : s.pipe.nPosts < 2 ^ 32) :
    s.pipe.d.ctx.cSentMsgs ≤ s.pipe.d.ctx.cHandledMsgs + WATERMARK + 1
    ∧ (s.hashing = true → s.pipe.d.ctx.cSentMsgs ≤ s.pipe.d.ctx.cHandledMsgs + WATERMARK) := by
  induction hr with
  | init => simp [h1]
  | step s t hs ht ih =>
    cases ht with
    | start k1 k2 k3 =>
      unfold throttled at k3
      simp only [true_implies]
      constructor <;> omega
    | inc t k1 k2 k3 =>
      obtain ⟨c1, c2⟩ := PipeStep_inc_counters denv s.pipe t k2 k3
      simp only [] at hn ⊢
      have := (ih (by omega)).2 k1
      have hle := UINT_INC_le s.pipe.d.ctx.cSentMsgs
      rw [c1, c2]
      exact ⟨by omega, fun h => by cases h⟩
    | other t k2 k3 =>
      simp only [] at hn ⊢
      obtain ⟨c1, c2⟩ := PipeStep_other_counters denv d0 s.pipe t h1 h2
        (GovReach_pipe denv d0 s hs) (by omega) k2 k3
      obtain ⟨i1, i2⟩ := ih (by omega)
      rw [c1]
      exact ⟨by omega, fun h => by have := i2 h; omega⟩

/-! ### C4 -/

/-- C4: in the pipeline governed by the throttle of the spec (the worker starts an
item only while `cSentMsgs - cHandledMsgs` does not exceed the watermark 50),
started from `cSentMsgs = cHandledMsgs = 0` and as long as the `UINT`
counters have not wrapped, every reachable state has `cSentMsgs -
cHandledMsgs <= 51`: the watermark plus the one item in production. While an
item is in production the backlog is at most 50, and in a state whose backlog
exceeds 50 no item is in production and no step counts a further update:
`cSentMsgs` stays as it is until the dialog thread has handled enough updates
for the worker to pass the throttle again. -/
theorem C4_backlog_bounded_by_watermark (denv : DlgEnv) (d0 : HASHPROPDLG) (s : GovState)
    (h1 : d0.ctx.cSentMsgs = 0) (h2 : d0.ctx.cHandledMsgs = 0)
    (hr : GovReach denv d0 s) (hn : s.pipe.nPosts < 2 ^ 32) :
    s.pipe.d.ctx.cSentMsgs - s.pipe.d.ctx.cHandledMsgs ≤ WATERMARK + 1
    ∧ (s.hashing = true → s.pipe.d.ctx.cSentMsgs - s.pipe.d.ctx.cHandledMsgs ≤ WATERMARK)
    ∧ (s.pipe.d.ctx.cSentMsgs - s.pipe.d.ctx.cHandledMsgs > WATERMARK →
        s.hashing = false
        ∧ ∀ t, GovStep denv s t →
            t.hashing = false ∧ t.pipe.nPosts = s.pipe.nPosts
            ∧ t.pipe.d.ctx.cSentMsgs = s.pipe.d.ctx.cSentMsgs) := by
  obtain ⟨i1, i2⟩ := GovReach_backlog denv d0 s h1 h2 hr hn
  refine ⟨by omega, fun h => by have := i2 h; omega, ?_⟩
  intro hbig
  have hh : s.hashing = false := by
    cases hs : s.hashing with
    | false => rfl
    | true => have := i2 hs; omega
  refine ⟨hh, ?_⟩
  intro t ht
  cases ht with
  | start k1 k2 k3 =>
    unfold throttled at k3
    omega
  | inc t k1 k2 k3 => rw [hh] at k1; cases k1
  | other t k2 k3 =>
    obtain ⟨c1, _⟩ := PipeStep_other_counters denv d0 s.pipe t h1 h2
      (GovReach_pipe denv d0 s hr) hn k2 k3
    exact ⟨hh, k3, c1⟩

theorem sampleGov1_reach : GovReach sampleDlgEnv sampleDlg0 sampleGov1 :=
  GovReach.step _ _
    (GovReach.step _ _
      (GovReach.step _ _ GovReach.init
        (GovStep.start _ rfl rfl (by decide)))
      (GovStep.inc _ _ rfl
        (PipeStep.inc { d := sampleDlg0, queue := [], posting := none, nPosts := 0 } 0 rfl) rfl))
    (GovStep.other { pipe := _, hashing := false } samplePipe1 (PipeStep.post _ 0 rfl) rfl)

/-- C4 at a concrete reachable state: one update counted and posted, none handled;
the backlog is 1. -/
theorem C4_backlog_witness :
    GovReach sampleDlgEnv sampleDlg0 sampleGov1
    ∧ sampleGov1.pipe.d.ctx.cSentMsgs - sampleGov1.pipe.d.ctx.cHandledMsgs ≤ WATERMARK + 1 :=
  ⟨sampleGov1_reach,
    (C4_backlog_bounded_by_watermark sampleDlgEnv sampleDlg0 sampleGov1 rfl rfl
      sampleGov1_reach (by decide)).1⟩

/-! ### Summaries of the dialog functions -/

theorem TraceOK_append (a b : List DlgCall) : TraceOK (a ++ b) ↔ TraceOK a ∧ TraceOK b := by
  unfold TraceOK
  simp only [List.mem_append]
  constructor
  · intro h
    exact ⟨fun e he => h e (Or.inl he), fun e he => h e (Or.inr he)⟩
  · rintro ⟨h1, h2⟩ e (he | he)
    · exact h1 e he
    · exact h2 e he

theorem TraceOK_nil : TraceOK [] := by
  intro e he
  cases he

theorem TraceOK_cons (e : DlgCall) (t : List DlgCall) :
    TraceOK (e :: t) ↔ eventOK e ∧ TraceOK t := by
  unfold TraceOK
  simp

theorem TraceOK_singleton (e : DlgCall) : TraceOK [e] ↔ eventOK e := by
  unfold TraceOK
  simp

theorem startedThread_append (d1 d2 : HASHPROPDLG) (delta : List DlgCall)
    (h : d2.trace = d1.trace ++ delta) :
    startedThread d1 d2 = decide (0 < delta.count (DlgCall.CreateThreadCRT true)) := by
  unfold startedThread
  rw [h, List.count_append]
  simp

theorem flag_or_INTERRUPTED (x : Nat) :
    (x ||| HPF_INTERRUPTED) &&& HCF_RESTARTING = x &&& HCF_RESTARTING := by
  apply Nat.eq_of_testBit_eq
  intro i
  have h1 : HPF_INTERRUPTED = 2 ^ 5 := by decide
  have h2 : HCF_RESTARTING = 2 ^ 2 := by decide
  rw [h1, h2]
  simp only [Nat.testBit_and, Nat.testBit_or, Nat.testBit_two_pow]
  by_cases h : 2 = i
  · subst h; simp
  · simp [h]

theorem flag_or_PREPPED (x : Nat) :
    (x ||| HPF_HLIST_PREPPED) &&& HCF_RESTARTING = x &&& HCF_RESTARTING := by
  apply Nat.eq_of_testBit_eq
  intro i
  have h1 : HPF_HLIST_PREPPED = 2 ^ 4 := by decide
  have h2 : HCF_RESTARTING = 2 ^ 2 := by decide
  rw [h1, h2]
  simp only [Nat.testBit_and, Nat.testBit_or, Nat.testBit_two_pow]
  by_cases h : 2 = i
  · subst h; simp
  · simp [h]

theorem flag_or_RESTARTING (x : Nat) : (x ||| HCF_RESTARTING) &&& HCF_RESTARTING ≠ 0 := by
  have h2 : HCF_RESTARTING = 2 ^ 2 := by decide
  rw [h2, Ne, and_two_pow_eq_zero_iff, Nat.testBit_or, Nat.testBit_two_pow_self]
  simp

theorem flag_cleared (x : Nat) :
    (x &&& DWORD_NOT (HCF_RESTARTING ||| HPF_INTERRUPTED)) &&& HCF_RESTARTING = 0 := by
  have h2 : HCF_RESTARTING = 2 ^ 2 := by decide
  rw [h2, and_two_pow_eq_zero_iff, Nat.testBit_and, testBit_DWORD_NOT]
  have : (2 ^ 2 ||| HPF_INTERRUPTED).testBit 2 = true := by decide
  rw [this]
  simp

/-- What `HashPropRestart` does to the data the invariant reads. -/
theorem HashPropRestart_summary (denv : DlgEnv) (d : HASHPROPDLG) :
    (HashPropRestart denv d).ctx.cSentMsgs = d.ctx.cSentMsgs
    ∧ (HashPropRestart denv d).ctx.cHandledMsgs = d.ctx.cHandledMsgs
    ∧ (HashPropRestart denv d).ctx.cSuccess = 0
    ∧ (HashPropRestart denv d).ctx.dwFlags &&& HCF_RESTARTING = 0
    ∧ (HashPropRestart denv d).ui.enSave = false
    ∧ startedThread d (HashPropRestart denv d) = denv.CreateThreadCRT
    ∧ (TraceOK d.trace → d.ctx.cHandledMsgs ≥ d.ctx.cSentMsgs →
        TraceOK (HashPropRestart denv d).trace) := by
  have hc := HashPropRestart_counters denv d
  have hf := HashPropRestart_frame denv d
  refine ⟨hc.1, hc.2, hf.2.2.2, ?_, ?_, ?_, ?_⟩
  · unfold HashPropRestart
    simp only []
    split_ifs <;> exact flag_cleared _
  · unfold HashPropRestart
    simp only []
    split_ifs <;> rfl
  · cases hok : denv.CreateThreadCRT with
    | false =>
      rw [startedThread_append d _ [DlgCall.HashPropRestart d.ctx.cHandledMsgs d.ctx.cSentMsgs,
        DlgCall.CreateThreadCRT false, DlgCall.WorkerThreadCleanup]]
      · simp
      · unfold HashPropRestart
        simp [hok]
    | true =>
      rw [startedThread_append d _ [DlgCall.HashPropRestart d.ctx.cHandledMsgs d.ctx.cSentMsgs,
        DlgCall.CreateThreadCRT true]]
      · simp
      · unfold HashPropRestart
        simp [hok]
  · intro ht hge
    unfold HashPropRestart
    simp only []
    split_ifs <;> simp [TraceOK_append, TraceOK_cons, TraceOK_nil, eventOK, ht, hge]

/-- What `HashPropUpdateResults` does to the data the invariant reads. -/
theorem HashPropUpdateResults_summary (denv : DlgEnv) (d : HASHPROPDLG) (pItem : Nat) :
    (HashPropUpdateResults denv d pItem).ctx.cSentMsgs = d.ctx.cSentMsgs
    ∧ (HashPropUpdateResults denv d pItem).ctx.cHandledMsgs = d.ctx.cHandledMsgs
    ∧ (HashPropUpdateResults denv d pItem).ctx.cSuccess ≤ d.ctx.cSuccess + 1
    ∧ (HashPropUpdateResults denv d pItem).ctx.dwFlags = d.ctx.dwFlags
    ∧ (HashPropUpdateResults denv d pItem).ui.enSave = d.ui.enSave
    ∧ startedThread d (HashPropUpdateResults denv d pItem) = false
    ∧ (TraceOK d.trace → TraceOK (HashPropUpdateResults denv d pItem).trace) := by
  have hc := HashPropUpdateResults_counters denv d pItem
  refine ⟨hc.1, hc.2, HashPropUpdateResults_cSuccess denv d pItem, ?_, ?_, ?_, ?_⟩
  · unfold HashPropUpdateResults
    cases d.ctx.hList.data.get? pItem with
    | none => rfl
    | some item0 => simp only []; split_ifs <;> rfl
  · unfold HashPropUpdateResults
    cases d.ctx.hList.data.get? pItem with
    | none => rfl
    | some item0 => simp only []; split_ifs <;> rfl
  · unfold HashPropUpdateResults startedThread
    cases d.ctx.hList.data.get? pItem with
    | none => simp
    | some item0 => simp only []; split_ifs <;> simp [List.count_append]
  · intro ht
    unfold HashPropUpdateResults
    cases d.ctx.hList.data.get? pItem with
    | none => exact ht
    | some item0 =>
      simp only []
      split_ifs <;> simp [TraceOK_append, TraceOK_cons, TraceOK_nil, eventOK, ht]

/-- What `HashPropDoSaveResults` does to the data the invariant reads. -/
theorem HashPropDoSaveResults_summary (d : HASHPROPDLG) :
    (HashPropDoSaveResults d).ctx.cSentMsgs = d.ctx.cSentMsgs
    ∧ (HashPropDoSaveResults d).ctx.cHandledMsgs = d.ctx.cHandledMsgs
    ∧ (HashPropDoSaveResults d).ctx.cSuccess = d.ctx.cSuccess
    ∧ (HashPropDoSaveResults d).ctx.dwFlags = d.ctx.dwFlags
    ∧ (HashPropDoSaveResults d).ui.enSave = d.ui.enSave
    ∧ startedThread d (HashPropDoSaveResults d) = false
    ∧ (TraceOK d.trace → TraceOK (HashPropDoSaveResults d).trace) := by
  refine ⟨rfl, rfl, rfl, rfl, rfl, ?_, ?_⟩
  · unfold HashPropDoSaveResults startedThread
    simp [List.count_append]
  · intro ht
    unfold HashPropDoSaveResults
    simp [TraceOK_append, TraceOK_cons, TraceOK_nil, eventOK, ht]

theorem HashPropFinalStatus_summary (d : HASHPROPDLG) :
    (HashPropFinalStatus d).ctx = d.ctx
    ∧ (HashPropFinalStatus d).trace = d.trace
    ∧ ((HashPropFinalStatus d).ui.enSave = true → d.ui.enSave = true ∨ d.ctx.cSuccess > 0) := by
  unfold HashPropFinalStatus
  simp only []
  split_ifs with h
  · exact ⟨rfl, rfl, fun _ => Or.inr h.2⟩
  · exact ⟨rfl, rfl, fun h => Or.inl h⟩

/-- What the `HM_WORKERTHREAD_DONE` handler does to the data the invariant reads. -/
theorem HashPropDlgProc_DONE_summary (d : HASHPROPDLG) :
    (HashPropDlgProc_DONE d).ctx.cSentMsgs = d.ctx.cSentMsgs
    ∧ (HashPropDlgProc_DONE d).ctx.cHandledMsgs = d.ctx.cHandledMsgs
    ∧ (HashPropDlgProc_DONE d).ctx.cSuccess = d.ctx.cSuccess
    ∧ (HashPropDlgProc_DONE d).ctx.dwFlags = d.ctx.dwFlags
    ∧ ((HashPropDlgProc_DONE d).ui.enSave = true → d.ui.enSave = true ∨ d.ctx.cSuccess > 0)
    ∧ startedThread d (HashPropDlgProc_DONE d) = false
    ∧ (TraceOK d.trace → TraceOK (HashPropDlgProc_DONE d).trace) := by
  unfold HashPropDlgProc_DONE
  simp only []
  split_ifs
  · obtain ⟨f1, f2, f3⟩ := HashPropFinalStatus_summary (HashPropDoSaveResults
      { d with ctx := WorkerThreadCleanup d.ctx, trace := d.trace ++ [DlgCall.WorkerThreadCleanup] })
    refine ⟨by rw [f1]; rfl, by rw [f1]; rfl, by rw [f1]; rfl, by rw [f1]; rfl, f3, ?_, ?_⟩
    · unfold startedThread
      rw [f2]
      unfold HashPropDoSaveResults
      simp [List.count_append]
    · intro ht
      rw [f2]
      unfold HashPropDoSaveResults
      simp [TraceOK_append, TraceOK_cons, TraceOK_nil, eventOK, ht]
  · obtain ⟨f1, f2, f3⟩ := HashPropFinalStatus_summary
      { d with ctx := WorkerThreadCleanup d.ctx, trace := d.trace ++ [DlgCall.WorkerThreadCleanup] }
    refine ⟨by rw [f1]; rfl, by rw [f1]; rfl, by rw [f1]; rfl, by rw [f1]; rfl, f3, ?_, ?_⟩
    · unfold startedThread
      rw [f2]
      simp [List.count_append]
    · intro ht
      rw [f2]
      simp [TraceOK_append, TraceOK_cons, TraceOK_nil, eventOK, ht]

/-- What the first part of `HashPropOptions` does to the data the invariant reads. -/
theorem HashPropOptions_stop_summary (denv : DlgEnv) (opt : HASHCHECKOPTIONS) (d : HASHPROPDLG) :
    (HashPropOptions_stop denv opt d).2.ctx.cSentMsgs = d.ctx.cSentMsgs
    ∧ (HashPropOptions_stop denv opt d).2.ctx.cHandledMsgs = d.ctx.cHandledMsgs
    ∧ (HashPropOptions_stop denv opt d).2.ctx.cSuccess = d.ctx.cSuccess
    ∧ ((HashPropOptions_stop denv opt d).1 = false →
        (HashPropOptions_stop denv opt d).2.ctx.dwFlags = d.ctx.dwFlags)
    ∧ (HashPropOptions_stop denv opt d).2.ui.enSave = d.ui.enSave
    ∧ startedThread d (HashPropOptions_stop denv opt d).2 = false
    ∧ (TraceOK d.trace → TraceOK (HashPropOptions_stop denv opt d).2.trace) := by
  unfold HashPropOptions_stop WorkerThreadStop startedThread
  simp only []
  refine ⟨?_, ?_, ?_, ?_, ?_, ?_, ?_⟩
  · split_ifs <;> rfl
  · split_ifs <;> rfl
  · split_ifs <;> rfl
  · split_ifs <;> simp
  · split_ifs <;> rfl
  · split_ifs <;> simp [List.count_append]
  · intro ht
    split_ifs <;> simp [TraceOK_append, TraceOK_cons, TraceOK_nil, eventOK, ht]

/-- The second part of `HashPropOptions`: the restart, entered with the updates
caught up, or only the cleanup. -/
theorem HashPropOptions_cleanup_summary (denv : DlgEnv) (d : HASHPROPDLG) :
    (d.ctx.cHandledMsgs ≥ d.ctx.cSentMsgs
      ∧ ∃ d1 : HASHPROPDLG, HashPropOptions_cleanup denv d = HashPropRestart denv d1
        ∧ d1.ctx.cSentMsgs = d.ctx.cSentMsgs ∧ d1.ctx.cHandledMsgs = d.ctx.cHandledMsgs
        ∧ startedThread d d1 = false ∧ d1.trace.count (DlgCall.CreateThreadCRT true)
            = d.trace.count (DlgCall.CreateThreadCRT true)
        ∧ (TraceOK d.trace → TraceOK d1.trace))
    ∨ (d.ctx.cHandledMsgs < d.ctx.cSentMsgs
      ∧ (HashPropOptions_cleanup denv d).ctx.cSentMsgs = d.ctx.cSentMsgs
      ∧ (HashPropOptions_cleanup denv d).ctx.cHandledMsgs = d.ctx.cHandledMsgs
      ∧ (HashPropOptions_cleanup denv d).ctx.cSuccess = d.ctx.cSuccess
      ∧ (HashPropOptions_cleanup denv d).ctx.dwFlags = d.ctx.dwFlags
      ∧ (HashPropOptions_cleanup denv d).ui.enSave = d.ui.enSave
      ∧ startedThread d (HashPropOptions_cleanup denv d) = false
      ∧ (TraceOK d.trace → TraceOK (HashPropOptions_cleanup denv d).trace)) := by
  unfold HashPropOptions_cleanup
  simp only []
  by_cases h : d.ctx.cSentMsgs ≤ d.ctx.cHandledMsgs
  · left
    refine ⟨h, { d with ctx := WorkerThreadCleanup d.ctx,
                        trace := d.trace ++ [DlgCall.WorkerThreadCleanup] }, ?_, rfl, rfl, ?_, ?_, ?_⟩
    · rw [if_pos]
      exact h
    · unfold startedThread; simp [List.count_append]
    · simp [List.count_append]
    · intro ht
      simp [TraceOK_append, TraceOK_cons, TraceOK_nil, eventOK, ht]
  · right
    have hn : ¬ (WorkerThreadCleanup d.ctx).cHandledMsgs ≥ (WorkerThreadCleanup d.ctx).cSentMsgs := h
    rw [if_neg hn]
    refine ⟨by omega, rfl, rfl, rfl, rfl, rfl, ?_, ?_⟩
    · unfold startedThread; simp [List.count_append]
    · intro ht
      simp [TraceOK_append, TraceOK_cons, TraceOK_nil, eventOK, ht]

theorem WorkerThreadStop_frame (ctx : HASHPROPCONTEXT) :
    (WorkerThreadStop ctx).cSentMsgs = ctx.cSentMsgs
    ∧ (WorkerThreadStop ctx).cHandledMsgs = ctx.cHandledMsgs
    ∧ (WorkerThreadStop ctx).cSuccess = ctx.cSuccess
    ∧ (WorkerThreadStop ctx).dwFlags = ctx.dwFlags := by
  unfold WorkerThreadStop
  split_ifs <;> exact ⟨rfl, rfl, rfl, rfl⟩

theorem WorkerThreadTogglePause_frame (ctx : HASHPROPCONTEXT) :
    (WorkerThreadTogglePause ctx).cSentMsgs = ctx.cSentMsgs
    ∧ (WorkerThreadTogglePause ctx).cHandledMsgs = ctx.cHandledMsgs
    ∧ (WorkerThreadTogglePause ctx).cSuccess = ctx.cSuccess
    ∧ (WorkerThreadTogglePause ctx).dwFlags = ctx.dwFlags := by
  unfold WorkerThreadTogglePause
  split <;> exact ⟨rfl, rfl, rfl, rfl⟩

/-- What the stop button does to the data the invariant reads. -/
theorem HashPropDlgProc_STOP_summary (d : HASHPROPDLG) :
    (HashPropDlgProc_STOP d).ctx.cSentMsgs = d.ctx.cSentMsgs
    ∧ (HashPropDlgProc_STOP d).ctx.cHandledMsgs = d.ctx.cHandledMsgs
    ∧ (HashPropDlgProc_STOP d).ctx.cSuccess = d.ctx.cSuccess
    ∧ (HashPropDlgProc_STOP d).ctx.dwFlags &&& HCF_RESTARTING = d.ctx.dwFlags &&& HCF_RESTARTING
    ∧ (HashPropDlgProc_STOP d).ui.enSave = d.ui.enSave
    ∧ (HashPropDlgProc_STOP d).trace = d.trace ++ [DlgCall.WorkerThreadStop] := by
  obtain ⟨f1, f2, f3, f4⟩ := WorkerThreadStop_frame
    { d.ctx with dwFlags := d.ctx.dwFlags ||| HPF_INTERRUPTED }
  refine ⟨f1, f2, f3, ?_, rfl, rfl⟩
  show (WorkerThreadStop { d.ctx with dwFlags := d.ctx.dwFlags ||| HPF_INTERRUPTED }).dwFlags
    &&& HCF_RESTARTING = _
  rw [f4]
  exact flag_or_INTERRUPTED _

/-- What the pause button does to the data the invariant reads. -/
theorem HashPropDlgProc_PAUSE_summary (d : HASHPROPDLG) :
    (HashPropDlgProc_PAUSE d).ctx.cSentMsgs = d.ctx.cSentMsgs
    ∧ (HashPropDlgProc_PAUSE d).ctx.cHandledMsgs = d.ctx.cHandledMsgs
    ∧ (HashPropDlgProc_PAUSE d).ctx.cSuccess = d.ctx.cSuccess
    ∧ (HashPropDlgProc_PAUSE d).ctx.dwFlags = d.ctx.dwFlags
    ∧ (HashPropDlgProc_PAUSE d).ui = d.ui
    ∧ (HashPropDlgProc_PAUSE d).trace = d.trace := by
  obtain ⟨f1, f2, f3, f4⟩ := WorkerThreadTogglePause_frame d.ctx
  exact ⟨f1, f2, f3, f4, rfl, rfl⟩

/-- `HashPropSaveResults`: either no restart (the counters, the success count, the
flags and the save button are as before), or a restart entered with the
counters as before and the `assert` of line 830 recorded just before it. -/
theorem HashPropSaveResults_summary (denv : DlgEnv) (hFileOut : Option Nat) (nFilterIndex : Nat)
    (d : HASHPROPDLG) :
    ((HashPropSaveResults denv hFileOut nFilterIndex d).ctx.cSentMsgs = d.ctx.cSentMsgs
      ∧ (HashPropSaveResults denv hFileOut nFilterIndex d).ctx.cHandledMsgs = d.ctx.cHandledMsgs
      ∧ (HashPropSaveResults denv hFileOut nFilterIndex d).ctx.cSuccess = d.ctx.cSuccess
      ∧ (HashPropSaveResults denv hFileOut nFilterIndex d).ctx.dwFlags = d.ctx.dwFlags
      ∧ (HashPropSaveResults denv hFileOut nFilterIndex d).ui.enSave = d.ui.enSave
      ∧ startedThread d (HashPropSaveResults denv hFileOut nFilterIndex d) = false
      ∧ (TraceOK d.trace → TraceOK (HashPropSaveResults denv hFileOut nFilterIndex d).trace))
    ∨ (∃ d1 : HASHPROPDLG,
        HashPropSaveResults denv hFileOut nFilterIndex d = HashPropRestart denv d1
        ∧ d1.ctx.cSentMsgs = d.ctx.cSentMsgs ∧ d1.ctx.cHandledMsgs = d.ctx.cHandledMsgs
        ∧ d1.trace.count (DlgCall.CreateThreadCRT true)
            = d.trace.count (DlgCall.CreateThreadCRT true)
        ∧ (TraceOK d.trace → d.ctx.cHandledMsgs ≥ d.ctx.cSentMsgs → TraceOK d1.trace)) := by
  unfold HashPropSaveResults
  simp only []
  split_ifs with hfile
  · cases hlast : SLGetDataLast d.ctx.hList with
    | none =>
      left
      simp only [hlast]
      refine ⟨?_, ?_, ?_, ?_, ?_, ?_, ?_⟩
      · trivial
      · trivial
      · trivial
      · trivial
      · trivial
      · unfold startedThread; simp [List.count_append]
      · intro ht
        simp [TraceOK_append, TraceOK_cons, TraceOK_nil, eventOK, ht]
    | some last =>
      simp only [hlast]
      split_ifs with hbit
      · left
        obtain ⟨f1, f2, f3, f4, f5, f6, f7⟩ := HashPropDoSaveResults_summary
          { d with
            ctx := { d.ctx with hFileOut := hFileOut, nFilterIndex := nFilterIndex }
            trace := d.trace ++
              [DlgCall.assertion 812 (decide (d.ctx.dwFlags &&& HPF_INTERRUPTED = 0)),
               DlgCall.assertion 813 (decide (d.ctx.cSuccess > 0))] }
        refine ⟨f1, f2, f3, f4, f5, ?_, ?_⟩
        · unfold startedThread HashPropDoSaveResults
          simp [List.count_append]
        · intro ht
          apply f7
          simp [TraceOK_append, TraceOK_cons, TraceOK_nil, eventOK, ht]
      · right
        refine ⟨_, rfl, rfl, rfl, ?_, ?_⟩
        · simp [List.count_append]
        · intro ht hge
          simp [TraceOK_append, TraceOK_cons, TraceOK_nil, eventOK, ht]
          exact hge
  · left
    refine ⟨rfl, rfl, rfl, rfl, rfl, ?_, ?_⟩
    · unfold startedThread; simp [List.count_append]
    · intro ht
      simp [TraceOK_append, TraceOK_cons, TraceOK_nil, eventOK, ht]

/-! ### The invariant of the dialog -/

theorem updatesIn_cons_update (p g : Nat) (q : List (Msg × Nat)) :
    updatesIn ((Msg.HM_WORKERTHREAD_UPDATE p, g) :: q) = updatesIn q + 1 := by
  simp [updatesIn, Msg.isUpdate]

theorem updatesIn_cons_done (g : Nat) (q : List (Msg × Nat)) :
    updatesIn ((Msg.HM_WORKERTHREAD_DONE, g) :: q) = updatesIn q := by
  simp [updatesIn, Msg.isUpdate]

theorem updatesIn_append_update (p g : Nat) (q : List (Msg × Nat)) :
    updatesIn (q ++ [(Msg.HM_WORKERTHREAD_UPDATE p, g)]) = updatesIn q + 1 := by
  simp [updatesIn, Msg.isUpdate, List.countP_append]

theorem updatesIn_append_done (g : Nat) (q : List (Msg × Nat)) :
    updatesIn (q ++ [(Msg.HM_WORKERTHREAD_DONE, g)]) = updatesIn q := by
  simp [updatesIn, Msg.isUpdate, List.countP_append]

theorem updatesIn_eq_zero (q : List (Msg × Nat)) (h : updatesIn q = 0) :
    ∀ x ∈ q, x.1.isUpdate = true → False := by
  intro x hx hu
  unfold updatesIn at h
  rw [List.countP_eq_zero] at h
  exact h x hx hu

theorem SysInv_init (s : SysState) (h : SysInit s) : SysInv s := by
  obtain ⟨h1, h2, h3, h4, h5, h6, h7, h8, h9⟩ := h
  refine ⟨by rw [h5, h4], by simp [h6, h1, h2, h4, updatesIn], by simp [h2],
    by simp [h1], by simp [h1], by simp [h1], by simp [h1], by simp [h1], by simp [h8],
    fun hf => absurd h7 hf, by rw [h9]; exact TraceOK_nil⟩

theorem SysInv_w_work (s : SysState) (hList : HSIMPLELIST) (cTotal cchPrefix : Nat)
    (prepped : Bool) (hi : SysInv s) :
    SysInv { s with d := { s.d with ctx := { s.d.ctx with
      hList := hList
      cTotal := cTotal
      cchPrefix := cchPrefix
      dwFlags := if prepped then s.d.ctx.dwFlags ||| HPF_HLIST_PREPPED
        else s.d.ctx.dwFlags } } } := by
  refine ⟨hi.sent, hi.handled, hi.posting, hi.tagLe, hi.doneOld, hi.updCur, hi.order,
    hi.stale, hi.save, ?_, hi.trace⟩
  intro hf hw
  have hf2 : s.d.ctx.dwFlags &&& HCF_RESTARTING ≠ 0 := by
    cases prepped
    · exact hf
    · simp only [if_true] at hf
      rw [flag_or_PREPPED] at hf
      exact hf
  exact hi.pending hf2 hw

theorem SysInv_w_inc (s : SysState) (p : Nat) (hi : SysInv s)
    (h1 : s.alive = true) (h2 : s.posting = none) (hn : s.nPosts + 1 < 2 ^ 32) :
    SysInv { s with
      d := { s.d with ctx := { s.d.ctx with cSentMsgs := UINT_INC s.d.ctx.cSentMsgs } }
      posting := some p
      nPosts := s.nPosts + 1 } := by
  have hsent := hi.sent
  have hh := hi.handled
  rw [h2] at hh
  simp only [Option.isSome_none] at hh
  refine ⟨?_, ?_, fun _ => h1, hi.tagLe, hi.doneOld, hi.updCur, hi.order,
    hi.stale, ?_, ?_, hi.trace⟩
  · simp only [UINT_INC, DWORD_BITS, hsent]
    exact Nat.mod_eq_of_lt hn
  · simp only [Option.isSome_some, if_true]
    simp at hh
    omega
  · intro he
    have := (hi.save he).1
    rw [h1] at this
    cases this
  · intro hf hw
    have := (hi.pending hf hw).1
    rw [h1] at this
    cases this

theorem SysInv_w_post (s : SysState) (p : Nat) (hi : SysInv s) (h1 : s.posting = some p) :
    SysInv { s with
      queue := s.queue ++ [(Msg.HM_WORKERTHREAD_UPDATE p, s.gen)], posting := none } := by
  have halive : s.alive = true := hi.posting (by rw [h1]; rfl)
  have hh := hi.handled
  rw [h1] at hh
  simp only [Option.isSome_some, if_true] at hh
  refine ⟨hi.sent, ?_, fun h => (by simp at h), ?_, ?_, ?_, ?_, ?_, ?_, ?_, hi.trace⟩
  · simp only [updatesIn_append_update, Option.isSome_none]
    simp
    omega
  · intro x hx
    rcases List.mem_append.mp hx with hx | hx
    · exact hi.tagLe x hx
    · simp only [List.mem_singleton] at hx
      subst hx
      exact le_refl _
  · intro _ x hx hd
    rcases List.mem_append.mp hx with hx | hx
    · exact hi.doneOld halive x hx hd
    · simp only [List.mem_singleton] at hx
      subst hx
      cases hd
  · intro x hx hu
    rcases List.mem_append.mp hx with hx | hx
    · exact hi.updCur x hx hu
    · simp only [List.mem_singleton] at hx
      subst hx
      rfl
  · rw [List.pairwise_append]
    refine ⟨hi.order, List.pairwise_singleton _ _, ?_⟩
    intro a ha b hb
    simp only [List.mem_singleton] at hb
    subst hb
    exact ⟨hi.tagLe a ha, fun hd => hi.doneOld halive a ha hd⟩
  · rintro ⟨x, hx, hd, hlt⟩
    rcases List.mem_append.mp hx with hx | hx
    · exact hi.stale ⟨x, hx, hd, hlt⟩
    · simp only [List.mem_singleton] at hx
      subst hx
      cases hd
  · intro he
    have := (hi.save he).1
    rw [halive] at this
    cases this
  · intro hf hw
    have := (hi.pending hf hw).1
    rw [halive] at this
    cases this

theorem SysInv_w_exit (s : SysState) (done : Bool) (hi : SysInv s)
    (h1 : s.alive = true) (h2 : s.posting = none) :
    SysInv { s with
      queue := s.queue ++ (if done then [(Msg.HM_WORKERTHREAD_DONE, s.gen)] else [])
      alive := false } := by
  have hmem : ∀ x, x ∈ s.queue ++ (if done then [(Msg.HM_WORKERTHREAD_DONE, s.gen)] else []) →
      x ∈ s.queue ∨ x = (Msg.HM_WORKERTHREAD_DONE, s.gen) := by
    intro x hx
    rcases List.mem_append.mp hx with hx | hx
    · exact Or.inl hx
    · cases done
      · simp at hx
      · simp only [if_true, List.mem_singleton] at hx
        exact Or.inr hx
  have hU : updatesIn (s.queue ++ (if done then [(Msg.HM_WORKERTHREAD_DONE, s.gen)] else []))
      = updatesIn s.queue := by
    cases done
    · simp
    · simp only [if_true]
      exact updatesIn_append_done _ _
  refine ⟨hi.sent, ?_, ?_, ?_, fun h => (by cases h), ?_, ?_, ?_, ?_, ?_, hi.trace⟩
  · simp only [hU]
    exact hi.handled
  · intro h
    rw [h2] at h
    simp at h
  · intro x hx
    rcases hmem x hx with hx | hx
    · exact hi.tagLe x hx
    · subst hx; exact le_refl _
  · intro x hx hu
    rcases hmem x hx with hx | hx
    · exact hi.updCur x hx hu
    · subst hx; cases hu
  · rw [List.pairwise_append]
    refine ⟨hi.order, ?_, ?_⟩
    · cases done
      · simp
      · simp
    · intro a ha b hb
      cases done
      · simp at hb
      · simp only [if_true, List.mem_singleton] at hb
        subst hb
        exact ⟨hi.tagLe a ha, fun hd => hi.doneOld h1 a ha hd⟩
  · rintro ⟨x, hx, hd, hlt⟩
    rcases hmem x hx with hx | hx
    · exact hi.stale ⟨x, hx, hd, hlt⟩
    · subst hx
      exact absurd hlt (lt_irrefl _)
  · intro he
    have := (hi.save he).1
    rw [h1] at this
    cases this
  · intro hf hw
    have := (hi.pending hf hw).1
    rw [h1] at this
    cases this

theorem startedThread_congr (d d1 x : HASHPROPDLG)
    (h : d1.trace.count (DlgCall.CreateThreadCRT true)
      = d.trace.count (DlgCall.CreateThreadCRT true)) :
    startedThread d x = startedThread d1 x := by
  unfold startedThread
  rw [h]

theorem startedThread_self (d x : HASHPROPDLG) (h : x.trace = d.trace) :
    startedThread d x = false := by
  unfold startedThread
  rw [h]
  simp

/-- The invariant after the dialog thread has run `HashPropRestart` with both
counters at the number of updates counted and no update left in the queue. -/
theorem SysInv_restart (denv : DlgEnv) (s t : SysState) (d1 : HASHPROPDLG) (hi : SysInv s)
    (hd : t.d = HashPropRestart denv d1)
    (hsent : d1.ctx.cSentMsgs = s.nPosts) (hhand : d1.ctx.cHandledMsgs = s.nPosts)
    (htr : TraceOK d1.trace)
    (hq : t.queue.Sublist s.queue) (hU : updatesIn t.queue = 0)
    (hpost : t.posting = none) (hnp : t.nPosts = s.nPosts)
    (halive : t.alive = denv.CreateThreadCRT)
    (hgen : t.gen = if denv.CreateThreadCRT then s.gen + 1 else s.gen) : SysInv t := by
  obtain ⟨r1, r2, r3, r4, r5, _, r7⟩ := HashPropRestart_summary denv d1
  have hle : s.gen ≤ t.gen := by
    rw [hgen]
    split_ifs <;> omega
  refine ⟨?_, ?_, ?_, ?_, ?_, ?_, hi.order.sublist hq, ?_, ?_, ?_, ?_⟩
  · rw [hd, r1, hsent, hnp]
  · rw [hd, r2, hhand, hU, hpost, hnp]
    simp
  · intro h
    rw [hpost] at h
    simp at h
  · intro x hx
    exact le_trans (hi.tagLe x (hq.subset hx)) hle
  · intro ha x hx _
    rw [halive] at ha
    rw [hgen, ha]
    simp only [if_true]
    exact Nat.lt_succ_of_le (hi.tagLe x (hq.subset hx))
  · intro x hx hu
    exact absurd hu (fun hu => updatesIn_eq_zero _ hU x hx hu)
  · intro _
    rw [hd]
    exact r3
  · intro he
    rw [hd, r5] at he
    cases he
  · intro hf
    rw [hd] at hf
    exact absurd r4 hf
  · rw [hd]
    exact r7 htr (by rw [hsent, hhand])

/-- The invariant after a step of the dialog thread that starts no worker thread
and takes messages only off the queue. -/
theorem SysInv_quiet (s t : SysState) (hi : SysInv s)
    (hq : t.queue.Sublist s.queue)
    (halive : t.alive = s.alive) (hpost : t.posting = s.posting)
    (hnp : t.nPosts = s.nPosts) (hgen : t.gen = s.gen)
    (hsent : t.d.ctx.cSentMsgs = s.d.ctx.cSentMsgs)
    (hhand : t.d.ctx.cHandledMsgs + updatesIn t.queue
      = s.d.ctx.cHandledMsgs + updatesIn s.queue)
    (hstale : (∃ x ∈ t.queue, x.1 = Msg.HM_WORKERTHREAD_DONE ∧ x.2 < t.gen) →
      t.d.ctx.cSuccess = 0)
    (hsave : t.d.ui.enSave = true → t.alive = false ∧ updatesIn t.queue = 0)
    (hpend : t.d.ctx.dwFlags &&& HCF_RESTARTING ≠ 0 → t.uiWait = false →
      t.alive = false ∧ t.d.ctx.cHandledMsgs < t.d.ctx.cSentMsgs)
    (htrace : TraceOK t.d.trace) : SysInv t := by
  refine ⟨?_, ?_, ?_, ?_, ?_, ?_, hi.order.sublist hq, hstale, hsave, hpend, htrace⟩
  · rw [hsent, hnp]
    exact hi.sent
  · rw [hhand, hpost, hnp]
    exact hi.handled
  · rw [hpost, halive]
    exact hi.posting
  · intro x hx
    rw [hgen]
    exact hi.tagLe x (hq.subset hx)
  · intro ha x hx hdone
    rw [halive] at ha
    rw [hgen]
    exact hi.doneOld ha x (hq.subset hx) hdone
  · intro x hx hu
    rw [hgen]
    exact hi.updCur x (hq.subset hx) hu

theorem posting_none_of_dead (s : SysState) (hi : SysInv s) (h : s.alive = false) :
    s.posting = none := by
  cases hp : s.posting with
  | none => rfl
  | some p =>
    have := hi.posting (by rw [hp]; rfl)
    rw [h] at this
    cases this

theorem SysInv_ui_update (denv : DlgEnv) (s : SysState) (p g : Nat) (q : List (Msg × Nat))
    (ok : Bool) (hi : SysInv s) (hn : s.nPosts < 2 ^ 32)
    (h1 : s.uiWait = false) (h2 : s.queue = (Msg.HM_WORKERTHREAD_UPDATE p, g) :: q) :
    SysInv (SysState.afterDialog { s with queue := q }
      (HashPropDlgProc_UPDATE (withThread denv ok) s.d p)) := by
  have hUq : updatesIn s.queue = updatesIn q + 1 := by
    rw [h2]; exact updatesIn_cons_update p g q
  have hh := hi.handled
  have hs := hi.sent
  rw [hUq] at hh
  have hinc : UINT_INC s.d.ctx.cHandledMsgs = s.d.ctx.cHandledMsgs + 1 := by
    simp only [UINT_INC, DWORD_BITS]
    apply Nat.mod_eq_of_lt
    omega
  have hsub : q.Sublist s.queue := by
    rw [h2]; exact List.sublist_cons_self _ _
  by_cases hflag : s.d.ctx.dwFlags &&& HCF_RESTARTING ≠ 0
  · obtain ⟨hdead, hlt⟩ := hi.pending hflag h1
    have hpn := posting_none_of_dead s hi hdead
    rw [hpn] at hh
    simp only [Option.isSome_none] at hh
    by_cases hge : UINT_INC s.d.ctx.cHandledMsgs ≥ s.d.ctx.cSentMsgs
    · have hX : HashPropDlgProc_UPDATE (withThread denv ok) s.d p
          = HashPropRestart (withThread denv ok)
              { s.d with ctx := { s.d.ctx with cHandledMsgs := UINT_INC s.d.ctx.cHandledMsgs } } := by
        unfold HashPropDlgProc_UPDATE
        simp only []
        rw [if_pos hflag, if_pos hge]
      rw [hX]
      have hst := (HashPropRestart_summary (withThread denv ok)
        { s.d with ctx := { s.d.ctx with cHandledMsgs := UINT_INC s.d.ctx.cHandledMsgs } }).2.2.2.2.2.1
      have hst2 : startedThread s.d (HashPropRestart (withThread denv ok)
          { s.d with ctx := { s.d.ctx with cHandledMsgs := UINT_INC s.d.ctx.cHandledMsgs } })
          = ok := hst
      rw [hinc] at hge
      simp at hh
      apply SysInv_restart (withThread denv ok) s _ _ hi rfl
      · exact hs
      · show UINT_INC s.d.ctx.cHandledMsgs = s.nPosts
        rw [hinc]; omega
      · exact hi.trace
      · exact hsub
      · show updatesIn q = 0
        omega
      · exact hpn
      · rfl
      · show (s.alive || startedThread s.d _) = ok
        rw [hst2, hdead]
        simp
      · show (if startedThread s.d _ then s.gen + 1 else s.gen) = _
        rw [hst2]
        rfl
    · have hX : HashPropDlgProc_UPDATE (withThread denv ok) s.d p
          = { s.d with ctx := { s.d.ctx with cHandledMsgs := UINT_INC s.d.ctx.cHandledMsgs } } := by
        unfold HashPropDlgProc_UPDATE
        simp only []
        rw [if_pos hflag, if_neg hge]
      rw [hX]
      have hst : startedThread s.d
          { s.d with ctx := { s.d.ctx with cHandledMsgs := UINT_INC s.d.ctx.cHandledMsgs } }
          = false := startedThread_self _ _ rfl
      apply SysInv_quiet s _ hi hsub
      · show (s.alive || startedThread s.d _) = s.alive
        rw [hst]; simp
      · rfl
      · rfl
      · show (if startedThread s.d _ then s.gen + 1 else s.gen) = _
        rw [hst]; rfl
      · rfl
      · show UINT_INC s.d.ctx.cHandledMsgs + updatesIn q = _
        rw [hinc, hUq]; omega
      · intro hex
        obtain ⟨x, hx, hd, hlt2⟩ := hex
        have hx2 : x ∈ q := hx
        have hlt3 : x.2 < s.gen := by
          have : (if startedThread s.d
            { s.d with ctx := { s.d.ctx with cHandledMsgs := UINT_INC s.d.ctx.cHandledMsgs } }
            then s.gen + 1 else s.gen) = s.gen := by rw [hst]; rfl
          rw [← this]
          exact hlt2
        exact hi.stale ⟨x, hsub.subset hx2, hd, hlt3⟩
      · intro he
        have := (hi.save he).2
        omega
      · intro _ _
        refine ⟨?_, ?_⟩
        · show (s.alive || startedThread s.d _) = false
          rw [hst, hdead]; rfl
        · show UINT_INC s.d.ctx.cHandledMsgs < s.d.ctx.cSentMsgs
          omega
      · exact hi.trace
  · have hX : HashPropDlgProc_UPDATE (withThread denv ok) s.d p
        = HashPropUpdateResults (withThread denv ok)
            { s.d with ctx := { s.d.ctx with cHandledMsgs := UINT_INC s.d.ctx.cHandledMsgs } } p := by
      unfold HashPropDlgProc_UPDATE
      simp only []
      rw [if_neg hflag]
    rw [hX]
    obtain ⟨u1, u2, u3, u4, u5, u6, u7⟩ := HashPropUpdateResults_summary (withThread denv ok)
      { s.d with ctx := { s.d.ctx with cHandledMsgs := UINT_INC s.d.ctx.cHandledMsgs } } p
    have hst : startedThread s.d (HashPropUpdateResults (withThread denv ok)
        { s.d with ctx := { s.d.ctx with cHandledMsgs := UINT_INC s.d.ctx.cHandledMsgs } } p)
        = false := u6
    have hgen : (if startedThread s.d (HashPropUpdateResults (withThread denv ok)
        { s.d with ctx := { s.d.ctx with cHandledMsgs := UINT_INC s.d.ctx.cHandledMsgs } } p)
        then s.gen + 1 else s.gen) = s.gen := by rw [hst]; rfl
    have hord := hi.order
    rw [h2, List.pairwise_cons] at hord
    have hg : g = s.gen := hi.updCur (Msg.HM_WORKERTHREAD_UPDATE p, g) (by rw [h2]; simp) rfl
    apply SysInv_quiet s _ hi hsub
    · show (s.alive || startedThread s.d _) = s.alive
      rw [hst]; simp
    · rfl
    · rfl
    · exact hgen
    · exact u1
    · show (HashPropUpdateResults _ _ p).ctx.cHandledMsgs + updatesIn q = _
      rw [u2]
      show UINT_INC s.d.ctx.cHandledMsgs + updatesIn q = _
      rw [hinc, hUq]; omega
    · intro hex
      obtain ⟨x, hx, hd, hlt2⟩ := hex
      have hx2 : x ∈ q := hx
      have hlt3 : x.2 < s.gen := by
        rw [← hgen]
        exact hlt2
      have := (hord.1 x hx2).1
      simp only at this
      omega
    · intro he
      have he2 : s.d.ui.enSave = true := u5.symm.trans he
      have := (hi.save he2).2
      omega
    · intro hf
      have hf2 : (HashPropUpdateResults (withThread denv ok)
        { s.d with ctx := { s.d.ctx with cHandledMsgs := UINT_INC s.d.ctx.cHandledMsgs } } p).ctx.dwFlags
          &&& HCF_RESTARTING ≠ 0 := hf
      rw [u4] at hf2
      exact absurd hf2 hflag
    · exact u7 hi.trace

theorem SysInv_ui_done (s : SysState) (g : Nat) (q : List (Msg × Nat)) (hi : SysInv s)
    (h2 : s.alive = false) (h3 : s.queue = (Msg.HM_WORKERTHREAD_DONE, g) :: q) :
    SysInv { s with queue := q, d := HashPropDlgProc_DONE s.d } := by
  obtain ⟨f1, f2, f3, f4, f5, _, f7⟩ := HashPropDlgProc_DONE_summary s.d
  have hUq : updatesIn s.queue = updatesIn q := by
    rw [h3]; exact updatesIn_cons_done g q
  have hsub : q.Sublist s.queue := by
    rw [h3]; exact List.sublist_cons_self _ _
  have hord := hi.order
  rw [h3, List.pairwise_cons] at hord
  have hgle : g ≤ s.gen := hi.tagLe (Msg.HM_WORKERTHREAD_DONE, g) (by rw [h3]; simp)
  apply SysInv_quiet s _ hi
  · exact hsub
  · rfl
  · rfl
  · rfl
  · rfl
  · exact f1
  · show (HashPropDlgProc_DONE s.d).ctx.cHandledMsgs + updatesIn q = _
    rw [f2, hUq]
  · rintro ⟨x, hx, hd, hlt⟩
    show (HashPropDlgProc_DONE s.d).ctx.cSuccess = 0
    rw [f3]
    exact hi.stale ⟨x, hsub.subset hx, hd, hlt⟩
  · intro he
    refine ⟨h2, ?_⟩
    show updatesIn q = 0
    rcases f5 he with he2 | hpos
    · rw [← hUq]
      exact (hi.save he2).2
    · have hgen : g = s.gen := by
        by_contra hne
        have hlt : g < s.gen := lt_of_le_of_ne hgle hne
        have := hi.stale ⟨(Msg.HM_WORKERTHREAD_DONE, g), by rw [h3]; simp, rfl, hlt⟩
        omega
      unfold updatesIn
      rw [List.countP_eq_zero]
      intro x hx _
      have h1 := (hord.1 x hx).2 rfl
      have h2 := hi.tagLe x (hsub.subset hx)
      simp only at h1
      omega
  · intro hf hw
    have hf2 : (HashPropDlgProc_DONE s.d).ctx.dwFlags &&& HCF_RESTARTING ≠ 0 := hf
    rw [f4] at hf2
    obtain ⟨p1, p2⟩ := hi.pending hf2 hw
    refine ⟨p1, ?_⟩
    show (HashPropDlgProc_DONE s.d).ctx.cHandledMsgs < (HashPropDlgProc_DONE s.d).ctx.cSentMsgs
    rw [f1, f2]
    exact p2
  · exact f7 hi.trace

theorem SysInv_ui_options_stop (denv : DlgEnv) (s : SysState) (opt : HASHCHECKOPTIONS)
    (hi : SysInv s) (h1 : s.uiWait = false) :
    SysInv { s with
      d := (HashPropOptions_stop denv opt s.d).2
      uiWait := (HashPropOptions_stop denv opt s.d).1 } := by
  obtain ⟨f1, f2, f3, f4, f5, _, f7⟩ := HashPropOptions_stop_summary denv opt s.d
  apply SysInv_quiet s _ hi
  · exact List.Sublist.refl _
  · rfl
  · rfl
  · rfl
  · rfl
  · exact f1
  · show (HashPropOptions_stop denv opt s.d).2.ctx.cHandledMsgs + updatesIn s.queue = _
    rw [f2]
  · intro hex
    show (HashPropOptions_stop denv opt s.d).2.ctx.cSuccess = 0
    rw [f3]
    exact hi.stale hex
  · intro he
    have he2 : (HashPropOptions_stop denv opt s.d).2.ui.enSave = true := he
    rw [f5] at he2
    exact hi.save he2
  · intro hf hw
    have hw2 : (HashPropOptions_stop denv opt s.d).1 = false := hw
    have hf2 : (HashPropOptions_stop denv opt s.d).2.ctx.dwFlags &&& HCF_RESTARTING ≠ 0 := hf
    rw [f4 hw2] at hf2
    obtain ⟨p1, p2⟩ := hi.pending hf2 h1
    refine ⟨p1, ?_⟩
    show (HashPropOptions_stop denv opt s.d).2.ctx.cHandledMsgs
      < (HashPropOptions_stop denv opt s.d).2.ctx.cSentMsgs
    rw [f1, f2]
    exact p2
  · exact f7 hi.trace

theorem SysInv_ui_options_cleanup (denv : DlgEnv) (s : SysState) (ok : Bool) (hi : SysInv s)
    (h2 : s.alive = false) :
    SysInv (SysState.afterDialog { s with uiWait := false }
      (HashPropOptions_cleanup (withThread denv ok) s.d)) := by
  have hpn := posting_none_of_dead s hi h2
  have hh := hi.handled
  have hs := hi.sent
  rw [hpn] at hh
  simp at hh
  rcases HashPropOptions_cleanup_summary (withThread denv ok) s.d with
    ⟨hge, d1, hX, c1, c2, _, c4, c5⟩ | ⟨hlt, f1, f2, f3, f4, f5, f6, f7⟩
  · rw [hX]
    have hst : startedThread s.d (HashPropRestart (withThread denv ok) d1) = ok := by
      rw [startedThread_congr s.d d1 _ c4]
      exact (HashPropRestart_summary (withThread denv ok) d1).2.2.2.2.2.1
    apply SysInv_restart (withThread denv ok) s _ d1 hi rfl
    · rw [c1]; exact hs
    · rw [c2]; omega
    · exact c5 hi.trace
    · exact List.Sublist.refl _
    · show updatesIn s.queue = 0
      omega
    · exact hpn
    · rfl
    · show (s.alive || startedThread s.d _) = ok
      rw [hst, h2]; simp
    · show (if startedThread s.d _ then s.gen + 1 else s.gen) = _
      rw [hst]; rfl
  · have hgen : (if startedThread s.d (HashPropOptions_cleanup (withThread denv ok) s.d)
        then s.gen + 1 else s.gen) = s.gen := by rw [f6]; rfl
    apply SysInv_quiet s _ hi
    · exact List.Sublist.refl _
    · show (s.alive || startedThread s.d _) = s.alive
      rw [f6]; simp
    · rfl
    · rfl
    · exact hgen
    · exact f1
    · show (HashPropOptions_cleanup (withThread denv ok) s.d).ctx.cHandledMsgs
        + updatesIn s.queue = _
      rw [f2]
    · rintro ⟨x, hx, hd, hlt2⟩
      have hlt3 : x.2 < s.gen := by
        rw [← hgen]; exact hlt2
      show (HashPropOptions_cleanup (withThread denv ok) s.d).ctx.cSuccess = 0
      rw [f3]
      exact hi.stale ⟨x, hx, hd, hlt3⟩
    · intro he
      have he2 : s.d.ui.enSave = true := f5.symm.trans he
      refine ⟨?_, (hi.save he2).2⟩
      show (s.alive || startedThread s.d _) = false
      rw [f6, h2]; rfl
    · intro _ _
      refine ⟨?_, ?_⟩
      · show (s.alive || startedThread s.d _) = false
        rw [f6, h2]; rfl
      · show (HashPropOptions_cleanup (withThread denv ok) s.d).ctx.cHandledMsgs
          < (HashPropOptions_cleanup (withThread denv ok) s.d).ctx.cSentMsgs
        rw [f1, f2]
        exact hlt
    · exact f7 hi.trace

theorem SysInv_ui_save (denv : DlgEnv) (s : SysState) (hFileOut : Option Nat)
    (nFilterIndex : Nat) (ok : Bool) (hi : SysInv s) (h2 : s.d.ui.enSave = true) :
    SysInv (SysState.afterDialog s
      (HashPropSaveResults (withThread denv ok) hFileOut nFilterIndex s.d)) := by
  obtain ⟨hdead, hU⟩ := hi.save h2
  have hpn := posting_none_of_dead s hi hdead
  have hh := hi.handled
  have hs := hi.sent
  rw [hpn] at hh
  simp at hh
  rcases HashPropSaveResults_summary (withThread denv ok) hFileOut nFilterIndex s.d with
    ⟨f1, f2, f3, f4, f5, f6, f7⟩ | ⟨d1, hX, c1, c2, c4, c5⟩
  · have hgen : (if startedThread s.d
        (HashPropSaveResults (withThread denv ok) hFileOut nFilterIndex s.d)
        then s.gen + 1 else s.gen) = s.gen := by rw [f6]; rfl
    apply SysInv_quiet s _ hi
    · exact List.Sublist.refl _
    · show (s.alive || startedThread s.d _) = s.alive
      rw [f6]; simp
    · rfl
    · rfl
    · exact hgen
    · exact f1
    · show (HashPropSaveResults (withThread denv ok) hFileOut nFilterIndex s.d).ctx.cHandledMsgs
        + updatesIn s.queue = _
      rw [f2]
    · rintro ⟨x, hx, hd, hlt2⟩
      have hlt3 : x.2 < s.gen := by
        rw [← hgen]; exact hlt2
      show (HashPropSaveResults (withThread denv ok) hFileOut nFilterIndex s.d).ctx.cSuccess = 0
      rw [f3]
      exact hi.stale ⟨x, hx, hd, hlt3⟩
    · intro _
      refine ⟨?_, hU⟩
      show (s.alive || startedThread s.d _) = false
      rw [f6, hdead]; rfl
    · intro hf hw
      have hf2 : (HashPropSaveResults (withThread denv ok) hFileOut nFilterIndex s.d).ctx.dwFlags
          &&& HCF_RESTARTING ≠ 0 := hf
      rw [f4] at hf2
      have := (hi.pending hf2 hw).2
      omega
    · exact f7 hi.trace
  · rw [hX]
    have hst : startedThread s.d (HashPropRestart (withThread denv ok) d1) = ok := by
      rw [startedThread_congr s.d d1 _ c4]
      exact (HashPropRestart_summary (withThread denv ok) d1).2.2.2.2.2.1
    apply SysInv_restart (withThread denv ok) s _ d1 hi rfl
    · rw [c1]; exact hs
    · rw [c2]; omega
    · exact c5 hi.trace (by omega)
    · exact List.Sublist.refl _
    · exact hU
    · exact hpn
    · rfl
    · show (s.alive || startedThread s.d _) = ok
      rw [hst, hdead]; simp
    · show (if startedThread s.d _ then s.gen + 1 else s.gen) = _
      rw [hst]; rfl

theorem SysInv_ui_stop (s : SysState) (hi : SysInv s) :
    SysInv { s with d := HashPropDlgProc_STOP s.d } := by
  obtain ⟨f1, f2, f3, f4, f5, f6⟩ := HashPropDlgProc_STOP_summary s.d
  apply SysInv_quiet s _ hi
  · exact List.Sublist.refl _
  · rfl
  · rfl
  · rfl
  · rfl
  · exact f1
  · show (HashPropDlgProc_STOP s.d).ctx.cHandledMsgs + updatesIn s.queue = _
    rw [f2]
  · intro hex
    show (HashPropDlgProc_STOP s.d).ctx.cSuccess = 0
    rw [f3]
    exact hi.stale hex
  · intro he
    exact hi.save (f5.symm.trans he)
  · intro hf hw
    have hf2 : (HashPropDlgProc_STOP s.d).ctx.dwFlags &&& HCF_RESTARTING ≠ 0 := hf
    rw [f4] at hf2
    obtain ⟨p1, p2⟩ := hi.pending hf2 hw
    refine ⟨p1, ?_⟩
    show (HashPropDlgProc_STOP s.d).ctx.cHandledMsgs < (HashPropDlgProc_STOP s.d).ctx.cSentMsgs
    rw [f1, f2]
    exact p2
  · show TraceOK (HashPropDlgProc_STOP s.d).trace
    rw [f6, TraceOK_append]
    exact ⟨hi.trace, by simp [TraceOK_cons, TraceOK_nil, eventOK]⟩

theorem SysInv_ui_pause (s : SysState) (hi : SysInv s) :
    SysInv { s with d := HashPropDlgProc_PAUSE s.d } := by
  obtain ⟨f1, f2, f3, f4, f5, f6⟩ := HashPropDlgProc_PAUSE_summary s.d
  apply SysInv_quiet s _ hi
  · exact List.Sublist.refl _
  · rfl
  · rfl
  · rfl
  · rfl
  · exact f1
  · show (HashPropDlgProc_PAUSE s.d).ctx.cHandledMsgs + updatesIn s.queue = _
    rw [f2]
  · intro hex
    show (HashPropDlgProc_PAUSE s.d).ctx.cSuccess = 0
    rw [f3]
    exact hi.stale hex
  · intro he
    have he2 : (HashPropDlgProc_PAUSE s.d).ui.enSave = true := he
    rw [f5] at he2
    exact hi.save he2
  · intro hf hw
    have hf2 : (HashPropDlgProc_PAUSE s.d).ctx.dwFlags &&& HCF_RESTARTING ≠ 0 := hf
    rw [f4] at hf2
    obtain ⟨p1, p2⟩ := hi.pending hf2 hw
    refine ⟨p1, ?_⟩
    show (HashPropDlgProc_PAUSE s.d).ctx.cHandledMsgs < (HashPropDlgProc_PAUSE s.d).ctx.cSentMsgs
    rw [f1, f2]
    exact p2
  · show TraceOK (HashPropDlgProc_PAUSE s.d).trace
    rw [f6]
    exact hi.trace

theorem SysStep_nPosts (denv : DlgEnv) (s t : SysState) (h : SysStep denv s t) :
    s.nPosts ≤ t.nPosts := by
  cases h <;> simp [SysState.afterDialog]

/-- Every step of the dialog keeps the invariant, as long as the counters have not
wrapped. -/
theorem SysInv_step (denv : DlgEnv) (s t : SysState) (hi : SysInv s) (h : SysStep denv s t)
    (hn : t.nPosts < 2 ^ 32) : SysInv t := by
  cases h with
  | w_work hList cTotal cchPrefix prepped h1 => exact SysInv_w_work s hList cTotal cchPrefix prepped hi
  | w_inc p h1 h2 => exact SysInv_w_inc s p hi h1 h2 hn
  | w_post p h1 => exact SysInv_w_post s p hi h1
  | w_exit done h1 h2 => exact SysInv_w_exit s done hi h1 h2
  | ui_update p g q ok h1 h2 => exact SysInv_ui_update denv s p g q ok hi hn h1 h2
  | ui_done g q h1 h2 h3 => exact SysInv_ui_done s g q hi h2 h3
  | ui_options_stop opt h1 => exact SysInv_ui_options_stop denv s opt hi h1
  | ui_options_cleanup ok h1 h2 => exact SysInv_ui_options_cleanup denv s ok hi h2
  | ui_save hFileOut nFilterIndex ok h1 h2 => exact SysInv_ui_save denv s hFileOut nFilterIndex ok hi h2
  | ui_stop h1 => exact SysInv_ui_stop s hi
  | ui_pause h1 => exact SysInv_ui_pause s hi

/-- The invariant holds in every reachable state whose counters have not wrapped. -/
theorem SysInv_reach (denv : DlgEnv) (s : SysState) (hr : SysReach denv s)
    (hn : s.nPosts < 2 ^ 32) : SysInv s := by
  induction hr with
  | init s h => exact SysInv_init s h
  | step s t hs ht ih =>
    have := SysStep_nPosts denv s t ht
    exact SysInv_step denv s t (ih (by omega)) ht hn

theorem HashPropOptions_stop_flag (denv : DlgEnv) (opt : HASHCHECKOPTIONS) (d : HASHPROPDLG) :
    (HashPropOptions_stop denv opt d).1 = true →
      (HashPropOptions_stop denv opt d).2.ctx.dwFlags &&& HCF_RESTARTING ≠ 0 := by
  unfold HashPropOptions_stop
  simp only []
  split_ifs
  · intro _
    show (WorkerThreadStop _).dwFlags &&& HCF_RESTARTING ≠ 0
    rw [(WorkerThreadStop_frame _).2.2.2]
    exact flag_or_RESTARTING _
  · intro h
    cases h

/-- While the dialog thread waits in the `WorkerThreadCleanup` of `HashPropOptions`,
`HCF_RESTARTING` is set. -/
theorem SysReach_uiWait (denv : DlgEnv) (s : SysState) (hr : SysReach denv s) :
    s.uiWait = true → s.d.ctx.dwFlags &&& HCF_RESTARTING ≠ 0 := by
  induction hr with
  | init s h =>
    intro hw
    rw [h.2.2.1] at hw
    cases hw
  | step s t hs ht ih =>
    cases ht with
    | w_work hList cTotal cchPrefix prepped h1 =>
      intro hw
      have := ih hw
      cases prepped
      · exact this
      · show (s.d.ctx.dwFlags ||| HPF_HLIST_PREPPED) &&& HCF_RESTARTING ≠ 0
        rw [flag_or_PREPPED]
        exact this
    | w_inc p h1 h2 => exact ih
    | w_post p h1 => exact ih
    | w_exit done h1 h2 => exact ih
    | ui_update p g q ok h1 h2 =>
      intro hw
      have hw2 : s.uiWait = true := hw
      rw [h1] at hw2
      cases hw2
    | ui_done g q h1 h2 h3 =>
      intro hw
      have hw2 : s.uiWait = true := hw
      rw [h1] at hw2
      cases hw2
    | ui_options_stop opt h1 => exact HashPropOptions_stop_flag denv opt s.d
    | ui_options_cleanup ok h1 h2 =>
      intro hw
      have hw2 : false = true := hw
      cases hw2
    | ui_save hFileOut nFilterIndex ok h1 h2 =>
      intro hw
      have hw2 : s.uiWait = true := hw
      rw [h1] at hw2
      cases hw2
    | ui_stop h1 =>
      intro hw
      have hw2 : s.uiWait = true := hw
      rw [h1] at hw2
      cases hw2
    | ui_pause h1 =>
      intro hw
      have hw2 : s.uiWait = true := hw
      rw [h1] at hw2
      cases hw2

/-- The deferral in `HashPropOptions`: with `cHandledMsgs < cSentMsgs` only the
`WorkerThreadCleanup` happens. -/
theorem HashPropOptions_cleanup_deferred (denv : DlgEnv) (d : HASHPROPDLG)
    (h : d.ctx.cHandledMsgs < d.ctx.cSentMsgs) :
    HashPropOptions_cleanup denv d
      = { d with ctx := WorkerThreadCleanup d.ctx, trace := d.trace ++ [DlgCall.WorkerThreadCleanup] } := by
  unfold HashPropOptions_cleanup
  simp only []
  have hn : ¬ (WorkerThreadCleanup d.ctx).cHandledMsgs ≥ (WorkerThreadCleanup d.ctx).cSentMsgs := by
    show ¬ d.ctx.cHandledMsgs ≥ d.ctx.cSentMsgs
    omega
  rw [if_neg hn]

/-- The `HM_WORKERTHREAD_UPDATE` handler while `HCF_RESTARTING` is set. -/
theorem HashPropDlgProc_UPDATE_restarting (denv : DlgEnv) (d : HASHPROPDLG) (pItem : Nat)
    (hflag : d.ctx.dwFlags &&& HCF_RESTARTING ≠ 0) (hlt : d.ctx.cHandledMsgs < d.ctx.cSentMsgs)
    (hs : d.ctx.cSentMsgs < 2 ^ 32) :
    HashPropDlgProc_UPDATE denv d pItem
      = if d.ctx.cHandledMsgs + 1 = d.ctx.cSentMsgs then
          HashPropRestart denv { d with ctx := { d.ctx with cHandledMsgs := d.ctx.cHandledMsgs + 1 } }
        else { d with ctx := { d.ctx with cHandledMsgs := d.ctx.cHandledMsgs + 1 } } := by
  have hinc : UINT_INC d.ctx.cHandledMsgs = d.ctx.cHandledMsgs + 1 := by
    simp only [UINT_INC, DWORD_BITS]
    apply Nat.mod_eq_of_lt
    omega
  unfold HashPropDlgProc_UPDATE
  simp only []
  rw [if_pos hflag, hinc]
  by_cases he : d.ctx.cHandledMsgs + 1 = d.ctx.cSentMsgs
  · rw [if_pos he, if_pos (by omega)]
  · rw [if_neg he, if_neg (by omega)]

/-- A step of the dialog thread that creates a worker thread leaves no update
queued, none counted and not posted, and the two counters equal. -/
theorem SysInv_started (s t : SysState) (hi : SysInv s) (hit : SysInv t)
    (hq : t.queue.Sublist s.queue) (hgen : t.gen = s.gen + 1) (hpost : t.posting = none) :
    updatesIn t.queue = 0 ∧ t.d.ctx.cHandledMsgs = t.d.ctx.cSentMsgs := by
  have hU : updatesIn t.queue = 0 := by
    unfold updatesIn
    rw [List.countP_eq_zero]
    intro x hx hu
    have h1 := hit.updCur x hx (by simpa using hu)
    have h2 := hi.tagLe x (hq.subset hx)
    omega
  refine ⟨hU, ?_⟩
  have h1 := hit.handled
  have h2 := hit.sent
  rw [hU, hpost] at h1
  simp at h1
  omega

theorem SysStep_started (denv : DlgEnv) (s t : SysState) (hi : SysInv s)
    (hn : s.nPosts < 2 ^ 32) (ht : SysStep denv s t) (hst : startedThread s.d t.d = true) :
    s.alive = false ∧ t.posting = none ∧ updatesIn t.queue = 0
      ∧ t.d.ctx.cHandledMsgs = t.d.ctx.cSentMsgs := by
  cases ht with
  | w_work hList cTotal cchPrefix prepped h1 =>
    simp [startedThread] at hst
  | w_inc p h1 h2 =>
    simp [startedThread] at hst
  | w_post p h1 =>
    simp [startedThread] at hst
  | w_exit done h1 h2 =>
    simp [startedThread] at hst
  | ui_update p g q ok h1 h2 =>
    have hit := SysInv_ui_update denv s p g q ok hi hn h1 h2
    have hst2 : startedThread s.d (HashPropDlgProc_UPDATE (withThread denv ok) s.d p) = true := hst
    have hdead : s.alive = false := by
      by_cases hflag : s.d.ctx.dwFlags &&& HCF_RESTARTING ≠ 0
      · exact (hi.pending hflag h1).1
      · have hX : HashPropDlgProc_UPDATE (withThread denv ok) s.d p
            = HashPropUpdateResults (withThread denv ok)
                { s.d with ctx := { s.d.ctx with cHandledMsgs := UINT_INC s.d.ctx.cHandledMsgs } } p := by
          unfold HashPropDlgProc_UPDATE
          simp only []
          rw [if_neg hflag]
        have u6 : startedThread s.d (HashPropUpdateResults (withThread denv ok)
            { s.d with ctx := { s.d.ctx with cHandledMsgs := UINT_INC s.d.ctx.cHandledMsgs } } p)
            = false :=
          (HashPropUpdateResults_summary (withThread denv ok)
            { s.d with ctx := { s.d.ctx with cHandledMsgs := UINT_INC s.d.ctx.cHandledMsgs } }
            p).2.2.2.2.2.1
        rw [hX, u6] at hst2
        cases hst2
    have hpn := posting_none_of_dead s hi hdead
    have hsub : q.Sublist s.queue := by
      rw [h2]; exact List.sublist_cons_self _ _
    have hgen : (if startedThread s.d (HashPropDlgProc_UPDATE (withThread denv ok) s.d p)
        then s.gen + 1 else s.gen) = s.gen + 1 := by rw [hst2]; rfl
    exact ⟨hdead, hpn, SysInv_started s _ hi hit hsub hgen hpn⟩
  | ui_done g q h1 h2 h3 =>
    rw [(HashPropDlgProc_DONE_summary s.d).2.2.2.2.2.1] at hst
    cases hst
  | ui_options_stop opt h1 =>
    rw [(HashPropOptions_stop_summary denv opt s.d).2.2.2.2.2.1] at hst
    cases hst
  | ui_options_cleanup ok h1 h2 =>
    have hit := SysInv_ui_options_cleanup denv s ok hi h2
    have hst2 : startedThread s.d (HashPropOptions_cleanup (withThread denv ok) s.d) = true := hst
    have hpn := posting_none_of_dead s hi h2
    have hgen : (if startedThread s.d (HashPropOptions_cleanup (withThread denv ok) s.d)
        then s.gen + 1 else s.gen) = s.gen + 1 := by rw [hst2]; rfl
    exact ⟨h2, hpn, SysInv_started s _ hi hit (List.Sublist.refl _) hgen hpn⟩
  | ui_save hFileOut nFilterIndex ok h1 h2 =>
    have hit := SysInv_ui_save denv s hFileOut nFilterIndex ok hi h2
    have hst2 : startedThread s.d
      (HashPropSaveResults (withThread denv ok) hFileOut nFilterIndex s.d) = true := hst
    have hdead := (hi.save h2).1
    have hpn := posting_none_of_dead s hi hdead
    have hgen : (if startedThread s.d
        (HashPropSaveResults (withThread denv ok) hFileOut nFilterIndex s.d)
        then s.gen + 1 else s.gen) = s.gen + 1 := by rw [hst2]; rfl
    exact ⟨hdead, hpn, SysInv_started s _ hi hit (List.Sublist.refl _) hgen hpn⟩
  | ui_stop h1 =>
    rw [startedThread_append s.d _ [DlgCall.WorkerThreadStop]
      (HashPropDlgProc_STOP_summary s.d).2.2.2.2.2] at hst
    simp at hst
  | ui_pause h1 =>
    rw [startedThread_self _ _ (HashPropDlgProc_PAUSE_summary s.d).2.2.2.2.2] at hst
    cases hst

/-! ### C7 -/

theorem sampleSysDeferred_reach : SysReach sampleDlgEnv sampleSysDeferred :=
  SysReach.step sampleSysStopped _
    (SysReach.step
      { d := (HashPropOptions_stop sampleDlgEnv sampleOpt sampleSysPosted.d).2
        queue := [(Msg.HM_WORKERTHREAD_UPDATE 0, 0)]
        alive := true, posting := none, uiWait := true, nPosts := 1, gen := 0 } _
      (SysReach.step sampleSysPosted _
        (SysReach.step
          { d := { sampleDlg0 with ctx := { sampleCtx with cSentMsgs := 1 } }
            queue := [], alive := true, posting := some 0, uiWait := false, nPosts := 1, gen := 0 } _
          (SysReach.step sampleSys0 _
            (SysReach.init sampleSys0 ⟨rfl, rfl, rfl, rfl, rfl, rfl, by decide, rfl, rfl⟩)
            (SysStep.w_inc sampleSys0 0 rfl rfl))
          (SysStep.w_post _ 0 rfl))
        (SysStep.ui_options_stop sampleSysPosted sampleOpt rfl))
      (SysStep.w_exit _ true rfl rfl))
    (SysStep.ui_options_cleanup sampleSysStopped true rfl rfl)

/-- C7: a restart never relaunches the worker while previously sent notifications
are unhandled. In every reachable state of the dialog with its worker thread
(the counters are `UINT`s, so: as long as fewer than `2 ^ 32` increments of
`cSentMsgs` have been executed):
(1) every `HashPropRestart` recorded so far, whichever path called it, was
entered with `cHandledMsgs >= cSentMsgs`;
(2) every `assert(cHandledMsgs >= cSentMsgs)` of `HashPropSaveResults` reached
so far held;
(3) when the options path, after the worker has exited, finds
`cHandledMsgs < cSentMsgs`, it does the `WorkerThreadCleanup` only: no
restart, and `HCF_RESTARTING` stays set;
(4) while `HCF_RESTARTING` is set and the dialog thread is idle, no worker
lives, no update is counted and not posted, and the queued updates are
exactly the `cSentMsgs - cHandledMsgs > 0` unhandled ones;
(5) in such a state the handler of the oldest queued update makes
`cHandledMsgs` reach `cSentMsgs` exactly if no other update is queued, and
it is then that it calls `HashPropRestart`; otherwise it only counts;
(6) every step that creates a worker thread is taken with no worker alive, and
leaves no update queued, none counted and not posted, and
`cHandledMsgs = cSentMsgs`. -/
theorem C7_restart_waits_for_handled (denv : DlgEnv) (s : SysState)
    (hr : SysReach denv s) (hn : s.nPosts < 2 ^ 32) :
    (∀ cHandledMsgs cSentMsgs,
        DlgCall.HashPropRestart cHandledMsgs cSentMsgs ∈ s.d.trace → cHandledMsgs ≥ cSentMsgs)
    ∧ (∀ ok, DlgCall.assertion 830 ok ∈ s.d.trace → ok = true)
    ∧ (∀ ok, s.uiWait = true → s.alive = false → s.d.ctx.cHandledMsgs < s.d.ctx.cSentMsgs →
        HashPropOptions_cleanup (withThread denv ok) s.d
            = { s.d with
                ctx := WorkerThreadCleanup s.d.ctx
                trace := s.d.trace ++ [DlgCall.WorkerThreadCleanup] }
          ∧ (WorkerThreadCleanup s.d.ctx).dwFlags &&& HCF_RESTARTING ≠ 0)
    ∧ (s.d.ctx.dwFlags &&& HCF_RESTARTING ≠ 0 → s.uiWait = false →
        s.alive = false ∧ s.posting = none
          ∧ s.d.ctx.cHandledMsgs + updatesIn s.queue = s.d.ctx.cSentMsgs
          ∧ 0 < updatesIn s.queue)
    ∧ (∀ p g q ok, s.d.ctx.dwFlags &&& HCF_RESTARTING ≠ 0 → s.uiWait = false →
        s.queue = (Msg.HM_WORKERTHREAD_UPDATE p, g) :: q →
        (s.d.ctx.cHandledMsgs + 1 = s.d.ctx.cSentMsgs ↔ updatesIn q = 0)
          ∧ HashPropDlgProc_UPDATE (withThread denv ok) s.d p
            = if updatesIn q = 0 then
                HashPropRestart (withThread denv ok)
                  { s.d with ctx := { s.d.ctx with cHandledMsgs := s.d.ctx.cHandledMsgs + 1 } }
              else { s.d with ctx := { s.d.ctx with cHandledMsgs := s.d.ctx.cHandledMsgs + 1 } })
    ∧ (∀ t, SysStep denv s t → startedThread s.d t.d = true →
        s.alive = false ∧ t.posting = none ∧ updatesIn t.queue = 0
          ∧ t.d.ctx.cHandledMsgs = t.d.ctx.cSentMsgs) := by
  have hi := SysInv_reach denv s hr hn
  have hpend : s.d.ctx.dwFlags &&& HCF_RESTARTING ≠ 0 → s.uiWait = false →
      s.alive = false ∧ s.posting = none
        ∧ s.d.ctx.cHandledMsgs + updatesIn s.queue = s.d.ctx.cSentMsgs
        ∧ 0 < updatesIn s.queue := by
    intro hf hw
    obtain ⟨p1, p2⟩ := hi.pending hf hw
    have hpn := posting_none_of_dead s hi p1
    have hh := hi.handled
    have hs := hi.sent
    rw [hpn] at hh
    simp at hh
    exact ⟨p1, hpn, by omega, by omega⟩
  refine ⟨?_, ?_, ?_, hpend, ?_, ?_⟩
  · intro h n hmem
    exact hi.trace _ hmem
  · intro ok hmem
    exact hi.trace _ hmem rfl
  · intro ok hw _ hlt
    refine ⟨HashPropOptions_cleanup_deferred _ _ hlt, ?_⟩
    exact SysReach_uiWait denv s hr hw
  · intro p g q ok hf hw hq
    obtain ⟨p1, p2, p3, p4⟩ := hpend hf hw
    have hlt : s.d.ctx.cHandledMsgs < s.d.ctx.cSentMsgs := by omega
    have hUq : updatesIn s.queue = updatesIn q + 1 := by
      rw [hq]; exact updatesIn_cons_update p g q
    have hiff : s.d.ctx.cHandledMsgs + 1 = s.d.ctx.cSentMsgs ↔ updatesIn q = 0 := by
      constructor <;> intro h <;> omega
    refine ⟨hiff, ?_⟩
    rw [HashPropDlgProc_UPDATE_restarting _ _ _ hf hlt (by rw [hi.sent]; exact hn)]
    by_cases h0 : updatesIn q = 0
    · rw [if_pos h0, if_pos (hiff.mpr h0)]
    · rw [if_neg h0, if_neg (fun h => h0 (hiff.mp h))]
  · intro t ht hst
    exact SysStep_started denv s t hi hn ht hst

/-- Witness for C7: after an options change made while one update was unhandled,
the restart is pending: no worker lives and exactly that update is queued. -/
theorem C7_restart_waits_witness :
    SysReach sampleDlgEnv sampleSysDeferred ∧ sampleSysDeferred.nPosts < 2 ^ 32
    ∧ sampleSysDeferred.d.ctx.dwFlags &&& HCF_RESTARTING ≠ 0
    ∧ sampleSysDeferred.uiWait = false
    ∧ (sampleSysDeferred.alive = false ∧ sampleSysDeferred.posting = none
        ∧ sampleSysDeferred.d.ctx.cHandledMsgs + updatesIn sampleSysDeferred.queue
            = sampleSysDeferred.d.ctx.cSentMsgs
        ∧ 0 < updatesIn sampleSysDeferred.queue) :=
  ⟨sampleSysDeferred_reach, by decide, by decide, rfl,
    (C7_restart_waits_for_handled sampleDlgEnv sampleSysDeferred sampleSysDeferred_reach
      (by decide)).2.2.2.1 (by decide) rfl⟩

/-! ### The success count, exactly -/

theorem hashesMissing_iff (ctx : HASHPROPCONTEXT) (item : HASHPROPITEM) :
    hashesMissing ctx item ↔
      ∃ b, b < 32 ∧ ctx.opt.dwChecksums.testBit b = true
        ∧ item.results.dwFlags.testBit b = false := by
  unfold hashesMissing
  constructor
  · intro h
    obtain ⟨b, hb⟩ := Nat.ne_zero_implies_bit_true h
    rw [Nat.testBit_and, testBit_DWORD_NOT] at hb
    simp at hb
    exact ⟨b, hb.2.1, hb.1, hb.2.2⟩
  · rintro ⟨b, h1, h2, h3⟩ h0
    have hb := congrArg (fun x => Nat.testBit x b) h0
    simp only [Nat.testBit_and, testBit_DWORD_NOT, Nat.zero_testBit] at hb
    simp [h1, h2, h3] at hb

theorem HashCalcClearInvalid_dwFlags (r : WHRESULTEX) (c : Char) :
    (HashCalcClearInvalid r c).dwFlags = r.dwFlags := by
  unfold HashCalcClearInvalid
  exact foldl_setHex_dwFlags FOR_EACH_HASH (fun a => r.dwFlags &&& WHEX_CHECK a = 0)
    (fun a => List.replicate (DIGEST_LENGTH a * 2) c ++ [NUL]) r

theorem HashCalcClearInvalid_invalid (r : WHRESULTEX) (c : Char) (alg : hash_algorithm)
    (h : r.dwFlags &&& WHEX_CHECK alg = 0) :
    (HashCalcClearInvalid r c).szHex alg = List.replicate (DIGEST_LENGTH alg * 2) c ++ [NUL] := by
  unfold HashCalcClearInvalid
  exact foldl_setHex_hit FOR_EACH_HASH (fun a => r.dwFlags &&& WHEX_CHECK a = 0)
    (fun a => List.replicate (DIGEST_LENGTH a * 2) c ++ [NUL]) r alg h
    (Or.inr (mem_FOR_EACH_HASH alg))

theorem HashCalcClearInvalid_valid (r : WHRESULTEX) (c : Char) (alg : hash_algorithm)
    (h : r.dwFlags &&& WHEX_CHECK alg ≠ 0) :
    (HashCalcClearInvalid r c).szHex alg = r.szHex alg := by
  unfold HashCalcClearInvalid
  exact foldl_setHex_frame FOR_EACH_HASH (fun a => r.dwFlags &&& WHEX_CHECK a = 0)
    (fun a => List.replicate (DIGEST_LENGTH a * 2) c ++ [NUL]) r alg h

theorem HashPropUpdateResults_item (denv : DlgEnv) (d : HASHPROPDLG) (pItem : Nat)
    (item : HASHPROPITEM) (hget : d.ctx.hList.data.get? pItem = some item) :
    (HashPropUpdateResults denv d pItem).ctx.hList.data.get? pItem
        = some (itemShown d.ctx item)
    ∧ (HashPropUpdateResults denv d pItem).ctx.cSuccess
        = if hashesMissing d.ctx item then d.ctx.cSuccess else UINT_INC d.ctx.cSuccess := by
  have hlen : pItem < d.ctx.hList.data.length := by
    rw [List.get?_eq_getElem?] at hget
    exact (List.getElem?_eq_some_iff.mp hget).1
  have hset : (storeItem d.ctx.hList pItem (itemShown d.ctx item)).data.get? pItem
      = some (itemShown d.ctx item) := by
    simp only [storeItem, List.get?_eq_getElem?]
    rw [List.getElem?_set_self hlen]
  by_cases hf : mustFlush denv d item
  · rw [HashPropUpdateResults_flush denv d pItem item hget hf]
    exact ⟨hset, rfl⟩
  · rw [HashPropUpdateResults_keep denv d pItem item hget hf]
    exact ⟨hset, rfl⟩

theorem readChars_prefix (a b : List Char) : readChars (a ++ b) 0 a.length = a := by
  unfold readChars
  apply List.ext_getElem
  · simp
  · intro i h1 h2
    simp only [List.length_map, List.length_range] at h1
    simp [List.getD_eq_getElem?_getD, List.getElem?_append_left h1, List.getElem?_eq_getElem h1]

theorem stepSucceeds_congr (ctx1 ctx2 : HASHPROPCONTEXT) (h : ctx1.opt = ctx2.opt) :
    stepSucceeds ctx1 = stepSucceeds ctx2 := by
  funext u
  unfold stepSucceeds
  cases u.hList.data.get? u.pItem with
  | none => rfl
  | some item => simp only [hashesMissing, h]

theorem UINT_INC_of_lt (c : Nat) (h : c + 1 < 2 ^ 32) : UINT_INC c = c + 1 := by
  unfold UINT_INC DWORD_BITS
  exact Nat.mod_eq_of_lt h

theorem handleUpdate_cSuccess (denv : DlgEnv) (d : HASHPROPDLG) (u : UpdateStep)
    (hflag : d.ctx.dwFlags &&& HCF_RESTARTING = 0) (hn : d.ctx.cSuccess + 1 < 2 ^ 32) :
    (handleUpdate denv d u).ctx.cSuccess
        = d.ctx.cSuccess + (if stepSucceeds d.ctx u then 1 else 0)
    ∧ (handleUpdate denv d u).ctx.dwFlags = d.ctx.dwFlags
    ∧ (handleUpdate denv d u).ctx.opt = d.ctx.opt := by
  have hX : handleUpdate denv d u
      = HashPropUpdateResults denv
          { d with ctx := { d.ctx with
              hList := u.hList, cSentMsgs := u.cSentMsgs
              cHandledMsgs := UINT_INC d.ctx.cHandledMsgs } } u.pItem := by
    unfold handleUpdate HashPropDlgProc_UPDATE
    simp only []
    rw [if_neg (by simpa using hflag)]
  rw [hX]
  refine ⟨?_, (HashPropUpdateResults_summary denv _ u.pItem).2.2.2.1,
    (HashPropUpdateResults_frame denv _ u.pItem).1⟩
  cases hget : u.hList.data.get? u.pItem with
  | none =>
    have : HashPropUpdateResults denv
        { d with ctx := { d.ctx with
            hList := u.hList, cSentMsgs := u.cSentMsgs
            cHandledMsgs := UINT_INC d.ctx.cHandledMsgs } } u.pItem
        = { d with ctx := { d.ctx with
            hList := u.hList, cSentMsgs := u.cSentMsgs
            cHandledMsgs := UINT_INC d.ctx.cHandledMsgs } } := by
      unfold HashPropUpdateResults
      simp only [hget]
    rw [this]
    unfold stepSucceeds
    rw [hget]
    simp
  | some item =>
    rw [(HashPropUpdateResults_item denv _ u.pItem item hget).2]
    unfold stepSucceeds
    rw [hget]
    simp only []
    by_cases hm : hashesMissing d.ctx item
    · have hm2 : hashesMissing
          { d.ctx with
            hList := u.hList, cSentMsgs := u.cSentMsgs
            cHandledMsgs := UINT_INC d.ctx.cHandledMsgs } item := hm
      rw [if_pos hm2]
      simp [hm]
    · have hm2 : ¬ hashesMissing
          { d.ctx with
            hList := u.hList, cSentMsgs := u.cSentMsgs
            cHandledMsgs := UINT_INC d.ctx.cHandledMsgs } item := hm
      rw [if_neg hm2]
      simp only [hm, not_false_eq_true, decide_True, if_true]
      exact UINT_INC_of_lt _ hn

theorem handleUpdates_cSuccess (denv : DlgEnv) (us : List UpdateStep) (d : HASHPROPDLG)
    (hflag : d.ctx.dwFlags &&& HCF_RESTARTING = 0) (hn : d.ctx.cSuccess + us.length < 2 ^ 32) :
    (handleUpdates denv d us).ctx.cSuccess = d.ctx.cSuccess + us.countP (stepSucceeds d.ctx) := by
  induction us generalizing d with
  | nil => simp [handleUpdates]
  | cons u us ih =>
    simp only [List.length_cons] at hn
    obtain ⟨h1, h2, h3⟩ := handleUpdate_cSuccess denv d u hflag (by omega)
    have hle : (handleUpdate denv d u).ctx.cSuccess ≤ d.ctx.cSuccess + 1 := by
      rw [h1]; split_ifs <;> omega
    have := ih (handleUpdate denv d u) (by rw [h2]; exact hflag) (by omega)
    unfold handleUpdates at this ⊢
    rw [List.foldl_cons, this, h1, stepSucceeds_congr _ _ h3, List.countP_cons]
    omega

/-! ### C11 -/

/-- C11: invalid per-item results are never presented as successes. For every
update handled while `HCF_RESTARTING` is clear (for an item of the list, the
`UINT` success count not wrapping): some requested algorithm's validity bit
is unset for the item exactly when `opt.dwChecksums & ~results.dwFlags` is
non-zero; in that case the item is left with every hex string whose validity
bit is unset overwritten with `X`s (`2 * digest length` of them and a NUL),
the valid hex strings and the validity bits as they were, `cSuccess`
unchanged, and the text of a requested algorithm that is not valid shows the
`X`s; otherwise the item is unchanged and `cSuccess` increases by exactly
one. Hence, starting from `cSuccess = 0`, after any sequence of updates
handled (whatever the worker writes in between) `cSuccess` is the number of
handled items whose validity set contained the whole requested set. -/
theorem C11_invalid_results_not_counted (denv : DlgEnv) (d : HASHPROPDLG)
    (us : List UpdateStep)
    (hflag : d.ctx.dwFlags &&& HCF_RESTARTING = 0) (h0 : d.ctx.cSuccess = 0)
    (hn : us.length < 2 ^ 32) :
    (∀ (d1 : HASHPROPDLG) (pItem : Nat) (item : HASHPROPITEM),
        d1.ctx.dwFlags &&& HCF_RESTARTING = 0 → d1.ctx.hList.data.get? pItem = some item →
        d1.ctx.cSuccess + 1 < 2 ^ 32 →
        (hashesMissing d1.ctx item ↔
          ∃ b, b < 32 ∧ d1.ctx.opt.dwChecksums.testBit b = true
            ∧ item.results.dwFlags.testBit b = false)
        ∧ (hashesMissing d1.ctx item →
            ∃ shown, (HashPropDlgProc_UPDATE denv d1 pItem).ctx.hList.data.get? pItem = some shown
              ∧ shown.results = HashCalcClearInvalid item.results 'X'
              ∧ (∀ alg, item.results.dwFlags &&& WHEX_CHECK alg = 0 →
                  shown.results.szHex alg = List.replicate (DIGEST_LENGTH alg * 2) 'X' ++ [NUL]
                  ∧ readChars (shown.results.szHex alg) 0 (DIGEST_LENGTH alg * 2)
                      = List.replicate (DIGEST_LENGTH alg * 2) 'X')
              ∧ (∀ alg, item.results.dwFlags &&& WHEX_CHECK alg ≠ 0 →
                  shown.results.szHex alg = item.results.szHex alg)
              ∧ shown.results.dwFlags = item.results.dwFlags
              ∧ (HashPropDlgProc_UPDATE denv d1 pItem).ctx.cSuccess = d1.ctx.cSuccess)
        ∧ (¬ hashesMissing d1.ctx item →
            (HashPropDlgProc_UPDATE denv d1 pItem).ctx.hList.data.get? pItem = some item
            ∧ (HashPropDlgProc_UPDATE denv d1 pItem).ctx.cSuccess = d1.ctx.cSuccess + 1))
    ∧ (handleUpdates denv d us).ctx.cSuccess = us.countP (stepSucceeds d.ctx) := by
  constructor
  · intro d1 pItem item hf hget hlt
    have hX : HashPropDlgProc_UPDATE denv d1 pItem
        = HashPropUpdateResults denv
            { d1 with ctx := { d1.ctx with cHandledMsgs := UINT_INC d1.ctx.cHandledMsgs } }
            pItem := by
      unfold HashPropDlgProc_UPDATE
      simp only []
      rw [if_neg (by simpa using hf)]
    obtain ⟨i1, i2⟩ := HashPropUpdateResults_item denv
      { d1 with ctx := { d1.ctx with cHandledMsgs := UINT_INC d1.ctx.cHandledMsgs } }
      pItem item hget
    rw [hX]
    refine ⟨hashesMissing_iff d1.ctx item, ?_, ?_⟩
    · intro hm
      have hm2 : hashesMissing
          { d1.ctx with cHandledMsgs := UINT_INC d1.ctx.cHandledMsgs } item := hm
      have hshown : itemShown { d1.ctx with cHandledMsgs := UINT_INC d1.ctx.cHandledMsgs } item
          = { item with results := HashCalcClearInvalid item.results 'X' } := by
        unfold itemShown
        rw [if_pos hm2]
      refine ⟨_, i1, ?_, ?_, ?_, ?_, ?_⟩
      · rw [hshown]
      · intro alg ha
        rw [hshown]
        simp only []
        rw [HashCalcClearInvalid_invalid _ _ _ ha]
        refine ⟨rfl, ?_⟩
        have := readChars_prefix (List.replicate (DIGEST_LENGTH alg * 2) 'X') [NUL]
        rw [List.length_replicate] at this
        exact this
      · intro alg ha
        rw [hshown]
        exact HashCalcClearInvalid_valid _ _ _ ha
      · rw [hshown]
        exact HashCalcClearInvalid_dwFlags _ _
      · rw [i2, if_pos hm2]
    · intro hm
      have hm2 : ¬ hashesMissing
          { d1.ctx with cHandledMsgs := UINT_INC d1.ctx.cHandledMsgs } item := hm
      have hshown : itemShown { d1.ctx with cHandledMsgs := UINT_INC d1.ctx.cHandledMsgs } item
          = item := by
        unfold itemShown
        rw [if_neg hm2]
      refine ⟨by rw [i1, hshown], ?_⟩
      rw [i2, if_neg hm2]
      exact UINT_INC_of_lt _ hlt
  · have := handleUpdates_cSuccess denv us d hflag (by omega)
    rw [this, h0, Nat.zero_add]

/-- C11 at a concrete run: of two updates handled, one is for an item with every
requested algorithm valid, and the success count ends at 1. -/
theorem C11_invalid_results_witness :
    sampleDlg0.ctx.dwFlags &&& HCF_RESTARTING = 0 ∧ sampleDlg0.ctx.cSuccess = 0
    ∧ sampleUpdates.length < 2 ^ 32
    ∧ (handleUpdates sampleDlgEnv sampleDlg0 sampleUpdates).ctx.cSuccess
        = sampleUpdates.countP (stepSucceeds sampleDlg0.ctx)
    ∧ sampleUpdates.countP (stepSucceeds sampleDlg0.ctx) = 1 :=
  ⟨by decide, rfl, by decide,
    (C11_invalid_results_not_counted sampleDlgEnv sampleDlg0 sampleUpdates
      (by decide) rfl (by decide)).2,
    by decide⟩

/-! ### The validity bits after an item has been hashed -/

theorem or_computeSet (d v : Nat) :
    v ||| ((d % 2 ^ 8) &&& DWORD_NOT v) = v ||| (d % 2 ^ 8) := by
  apply Nat.eq_of_testBit_eq
  intro b
  rw [Nat.testBit_or, testBit_computeSet, Nat.testBit_or, Nat.testBit_mod_two_pow]
  cases decide (b < 8) <;> cases d.testBit b <;> cases v.testBit b <;> rfl

theorem WorkerThreadHashFile_dwFlags (digest : hash_algorithm → List Char)
    (whctxFlags : Nat) (pwhres : WHRESULTEX) :
    (WorkerThreadHashFile (some digest) whctxFlags pwhres).dwFlags
      = pwhres.dwFlags ||| whctxFlags := by
  unfold WorkerThreadHashFile
  simp only []
  exact foldl_setHex_dwFlags FOR_EACH_HASH (fun a => whctxFlags &&& WHEX_CHECK a ≠ 0)
    (fun a => digest a ++ [NUL]) _

theorem workerLoop_calls_at (env : WorkerEnv) (cf : Nat) (fuel n : Nat) (r : WorkerRun)
    (hlen : r.calls.length = n) (k : Nat) (c : HashCall)
    (hc : (workerLoop env cf fuel n r).calls.get? k = some c) :
    r.calls.get? k = some c
    ∨ (n ≤ k ∧ (workerLoop env cf fuel n r).ctx.hList.data.get? c.pItem
        = some { c.item with
            results := env.WorkerThreadHashFile k c.item.szPath c.whctxFlags c.item.results }) := by
  induction fuel generalizing n r with
  | zero => exact Or.inl hc
  | succ fuel ih =>
    unfold workerLoop at hc ⊢
    cases hstep : SLGetDataAndStep r.ctx.hList with
    | none => rw [hstep] at hc; exact Or.inl hc
    | some x =>
      obtain ⟨⟨p, pItem⟩, hList⟩ := x
      rw [hstep] at hc
      obtain ⟨hp, hget, hl⟩ := SLGetDataAndStep_some _ _ _ _ hstep
      have hlt : r.ctx.hList.pos < r.ctx.hList.data.length := by
        rw [List.get?_eq_getElem?] at hget
        exact (List.getElem?_eq_some_iff.mp hget).1
      have hset : (storeItem hList p { pItem with
          results := env.WorkerThreadHashFile n pItem.szPath
            (cf &&& DWORD_NOT pItem.results.dwFlags) pItem.results }).data.get? p
            = some { pItem with
                results := env.WorkerThreadHashFile n pItem.szPath
                  (cf &&& DWORD_NOT pItem.results.dwFlags) pItem.results } := by
        simp only [storeItem, hl, hp, List.get?_eq_getElem?]
        rw [List.getElem?_set_self hlt]
      -- the call appended by this iteration is the one with index `n`
      have hnew : ∀ c1 : HashCall,
          (r.calls ++ [HashCall.mk p pItem (cf &&& DWORD_NOT pItem.results.dwFlags)]).get? k
            = some c1 →
          r.calls.get? k = some c1
          ∨ (k = n ∧ c1 = HashCall.mk p pItem (cf &&& DWORD_NOT pItem.results.dwFlags)) := by
        intro c1 h
        rw [List.get?_eq_getElem?] at h
        by_cases hk : k < r.calls.length
        · rw [List.getElem?_append_left hk] at h
          left; rw [List.get?_eq_getElem?]; exact h
        · rw [List.getElem?_append_right (by omega)] at h
          right
          have hk0 : k - r.calls.length = 0 := by
            by_contra hne
            rw [List.getElem?_eq_none (by simp; omega)] at h
            cases h
          rw [hk0] at h
          simp only [List.getElem?_cons_zero, Option.some.injEq] at h
          exact ⟨by omega, h.symm⟩
      simp only [] at hc ⊢
      split_ifs at hc ⊢
      · rcases hnew c hc with h | ⟨hk, h⟩
        · exact Or.inl h
        · right; subst h; subst hk; exact ⟨le_refl _, hset⟩
      · rcases hnew c hc with h | ⟨hk, h⟩
        · exact Or.inl h
        · right; subst h; subst hk; exact ⟨le_refl _, hset⟩
      · rcases ih (n + 1) _ (by simp [hlen]) hc with h | h
        · rcases hnew c h with h2 | ⟨hk, h2⟩
          · exact Or.inl h2
          · right
            subst h2; subst hk
            refine ⟨le_refl _, ?_⟩
            rw [workerLoop_data_lt]
            · exact hset
            · simp only [storeItem, hl, hp]; omega
        · exact Or.inr ⟨by omega, h.2⟩

theorem HashPropWorkerMain_calls_at (env : WorkerEnv) (phpctx : HASHPROPCONTEXT)
    (k : Nat) (c : HashCall) (hc : (HashPropWorkerMain env phpctx).calls.get? k = some c) :
    (HashPropWorkerMain env phpctx).ctx.hList.data.get? c.pItem
      = some { c.item with
          results := env.WorkerThreadHashFile k c.item.szPath c.whctxFlags c.item.results } := by
  unfold HashPropWorkerMain at hc ⊢
  have hp := workerProlog_calls env phpctx
  rcases h : workerProlog env phpctx with ⟨b, r⟩
  rw [h] at hc hp
  cases b
  · simp only [] at hc hp
    rw [hp] at hc
    cases hc
  · simp only [] at hc hp ⊢
    rcases workerLoop_calls_at _ _ _ _ _ (by rw [hp]; rfl) _ _ hc with h1 | h1
    · rw [hp] at h1; cases h1
    · exact h1.2

/-! ### C12 -/

/-- C12 as stated fails: with CRC-32 requested (`S = {CRC32}`) and an item that has
CRC-32 and SHA-1 valid from an earlier run, the worker processes the item with
no I/O failure and its validity bits are still `{CRC32, SHA1}`, not `S`. -/
theorem C12_validity_counterexample :
    ({ pItem := 0, item := sampleItemA 5, whctxFlags := 0 } : HashCall)
        ∈ (HashPropWorkerMain sampleSpecEnv sampleCtxShrunk).calls
    ∧ (sampleWorld 0 (sampleItemA 5).szPath).isSome = true
    ∧ sampleCtxShrunk.opt.dwChecksums = WHEX_CHECK .CRC32
    ∧ ((HashPropWorkerMain sampleSpecEnv sampleCtxShrunk).ctx.hList.data.get? 0).map
          (fun it => it.results.dwFlags)
        = some (WHEX_CHECK .CRC32 ||| WHEX_CHECK .SHA1)
    ∧ WHEX_CHECK .CRC32 ||| WHEX_CHECK .SHA1 ≠ sampleCtxShrunk.opt.dwChecksums := by
  decide

/-- C12, amended: with the hashing routine of the spec, after the worker has
processed an item with no I/O failure the item's validity bits are the union
of the bits valid before and the requested set `S` (the low 8 bits of
`opt.dwChecksums`, one per algorithm). Here `c` is the `k`-th call of the
hashing routine in the run (counting from 0), made for the list item
`c.pItem` fetched as `c.item`, and the file read by that very call is
readable (`world k` gives its digests). Then the item stored in the list
after the run has the path of `c.item`, its results are those of that call,
and bit `b` of its validity bits is set exactly when it was valid before or
`b < 8` and it is requested. So no requested bit is missing, and the validity
bits equal exactly `S` whenever the bits valid before lie within `S`, in
particular for an item that had nothing valid. -/
theorem C12_validity_is_previous_or_requested (env : WorkerEnv)
    (world : Nat → List Char → Option (hash_algorithm → List Char))
    (phpctx : HASHPROPCONTEXT) (k : Nat) (c : HashCall) (digest : hash_algorithm → List Char)
    (hspec : ∀ n path flags res,
      env.WorkerThreadHashFile n path flags res = WorkerThreadHashFile (world n path) flags res)
    (hc : (HashPropWorkerMain env phpctx).calls.get? k = some c)
    (hio : world k c.item.szPath = some digest) :
    (workerProlog env phpctx).2.ctx.hList.data.get? c.pItem = some c.item
    ∧ ∃ it, (HashPropWorkerMain env phpctx).ctx.hList.data.get? c.pItem = some it
      ∧ it.szPath = c.item.szPath
      ∧ it.results = WorkerThreadHashFile (some digest) c.whctxFlags c.item.results
      ∧ it.results.dwFlags
          = c.item.results.dwFlags ||| ((workerProlog env phpctx).2.ctx.opt.dwChecksums % 256)
      ∧ (∀ b, it.results.dwFlags.testBit b
          = (c.item.results.dwFlags.testBit b
              || (decide (b < 8) && (workerProlog env phpctx).2.ctx.opt.dwChecksums.testBit b)))
      ∧ (c.item.results.dwFlags ||| ((workerProlog env phpctx).2.ctx.opt.dwChecksums % 256)
            = (workerProlog env phpctx).2.ctx.opt.dwChecksums % 256 →
          it.results.dwFlags = (workerProlog env phpctx).2.ctx.opt.dwChecksums % 256)
      ∧ (c.item.results.dwFlags = 0 →
          (workerProlog env phpctx).2.ctx.opt.dwChecksums < 256 →
          it.results.dwFlags = (workerProlog env phpctx).2.ctx.opt.dwChecksums) := by
  have hmem : c ∈ (HashPropWorkerMain env phpctx).calls := List.get?_mem hc
  have hm := HashPropWorkerMain_calls_at env phpctx k c hc
  have hflags := HashPropWorkerMain_calls env phpctx c hmem
  rw [HashPropWorkerMain_opt] at hflags
  have hcall : env.WorkerThreadHashFile k c.item.szPath c.whctxFlags c.item.results
      = WorkerThreadHashFile (some digest) c.whctxFlags c.item.results := by
    rw [hspec, hio]
  have hres : (env.WorkerThreadHashFile k c.item.szPath c.whctxFlags c.item.results).dwFlags
      = c.item.results.dwFlags ||| ((workerProlog env phpctx).2.ctx.opt.dwChecksums % 256) := by
    rw [hcall, WorkerThreadHashFile_dwFlags, hflags]
    exact or_computeSet _ _
  refine ⟨HashPropWorkerMain_calls_item env phpctx c hmem, _, hm, rfl, hcall, hres, ?_, ?_, ?_⟩
  · intro b
    simp only []
    rw [hres, Nat.testBit_or]
    have : (256 : Nat) = 2 ^ 8 := by norm_num
    rw [this, Nat.testBit_mod_two_pow]
  · intro h
    simp only []
    rw [hres, h]
  · intro h0 hlt
    simp only []
    rw [hres, h0, Nat.zero_or, Nat.mod_eq_of_lt hlt]

/-- C12 (amended) at a concrete run: the first call is made for item 0, which has
CRC-32 valid, with CRC-32, SHA-1 and SHA-256 requested and the file readable;
after the run the item's validity bits are exactly the three. -/
theorem C12_validity_witness :
    (HashPropWorkerMain sampleSpecEnv sampleCtx).calls.get? 0
        = some { pItem := 0, item := sampleItemA 1, whctxFlags := 0x0C }
    ∧ sampleWorld 0 (sampleItemA 1).szPath
        = some (fun alg => List.replicate (DIGEST_LENGTH alg * 2) 'a')
    ∧ ∃ it, (HashPropWorkerMain sampleSpecEnv sampleCtx).ctx.hList.data.get? 0 = some it
      ∧ it.results.dwFlags = 1 ||| (0x0D % 256) :=
  ⟨by decide, rfl,
    (C12_validity_is_previous_or_requested sampleSpecEnv sampleWorld sampleCtx 0
      { pItem := 0, item := sampleItemA 1, whctxFlags := 0x0C }
      (fun alg => List.replicate (DIGEST_LENGTH alg * 2) 'a') (fun _ _ _ _ => rfl)
      (by decide) rfl).2.imp (fun _ h => ⟨h.1, h.2.2.2.1⟩)⟩

/-! ### C13 -/

/-- C13: if the `VirtualAlloc` of the read buffer fails, `HashPropWorkerMain` returns
from the statements that precede the loop: it makes no call of the hashing
routine (no item is fetched, no item's results are written), posts no
`HM_WORKERTHREAD_UPDATE`, and leaves the list with its cursor and `cSentMsgs`
as they were after the list preparation; when the list was already prepared
the whole context is unchanged. -/
theorem C13_alloc_failure_processes_nothing (env : WorkerEnv) (phpctx : HASHPROPCONTEXT)
    (halloc : env.VirtualAllocOk = false) :
    (HashPropWorkerMain env phpctx).returned = true
    ∧ (HashPropWorkerMain env phpctx).calls = []
    ∧ (∀ p, Msg.HM_WORKERTHREAD_UPDATE p ∉ (HashPropWorkerMain env phpctx).posted)
    ∧ (phpctx.dwFlags &&& HPF_HLIST_PREPPED ≠ 0 → (HashPropWorkerMain env phpctx).ctx = phpctx)
    ∧ (phpctx.dwFlags &&& HPF_HLIST_PREPPED = 0 →
        (HashPropWorkerMain env phpctx).ctx.hList = (env.HashCalcPrepare phpctx).2.hList
        ∧ (HashPropWorkerMain env phpctx).ctx.cSentMsgs
            = (env.HashCalcPrepare phpctx).2.cSentMsgs) := by
  have hrun : HashPropWorkerMain env phpctx = (workerProlog env phpctx).2 := by
    unfold HashPropWorkerMain
    have hb : (workerProlog env phpctx).1 = false := by
      unfold workerProlog
      split_ifs
      · rcases env.HashCalcPrepare phpctx with ⟨b, ctx⟩
        cases b
        · rfl
        · exact halloc
      · exact halloc
    rcases h : workerProlog env phpctx with ⟨b, r⟩
    rw [h] at hb
    simp only [] at hb
    subst hb
    rfl
  rw [hrun]
  unfold workerProlog
  by_cases hp : phpctx.dwFlags &&& HPF_HLIST_PREPPED = 0
  · rw [if_pos hp]
    rcases env.HashCalcPrepare phpctx with ⟨b, ctx⟩
    cases b
    · refine ⟨rfl, rfl, ?_, fun h => absurd hp h, fun _ => ⟨rfl, rfl⟩⟩
      intro p hmem
      simp at hmem
    · refine ⟨rfl, rfl, ?_, fun h => absurd hp h, fun _ => ⟨rfl, rfl⟩⟩
      intro p hmem
      simp at hmem
  · rw [if_neg hp]
    refine ⟨rfl, rfl, ?_, fun _ => rfl, fun h => absurd h hp⟩
    intro p hmem
    simp at hmem

/-- C13 at a concrete run: with the allocation failing, the sample context (two
items, the list prepared) is returned unchanged and nothing is posted for an
item. -/
theorem C13_alloc_failure_witness :
    sampleNoMemEnv.VirtualAllocOk = false
    ∧ (HashPropWorkerMain sampleNoMemEnv sampleCtx).ctx = sampleCtx
    ∧ (HashPropWorkerMain sampleNoMemEnv sampleCtx).calls = [] :=
  ⟨rfl,
    (C13_alloc_failure_processes_nothing sampleNoMemEnv sampleCtx rfl).2.2.2.1 (by decide),
    (C13_alloc_failure_processes_nothing sampleNoMemEnv sampleCtx rfl).2.1⟩

/-! ### C14 -/

/-- C14: in both places that launch the worker, `WorkerThreadCleanup` is called on the
context, after `CreateThreadCRT` and before the function returns, exactly when
`CreateThreadCRT` returned a null handle. For the `WM_INITDIALOG` handler and
for `HashPropRestart`: the calls recorded are those made up to and including
`CreateThreadCRT`, followed by one `WorkerThreadCleanup` if the handle is null
and by nothing if it is not; and the context left by a failed creation is the
context a successful creation leaves, with the null handle, passed through
`WorkerThreadCleanup`. -/
theorem C14_thread_creation_failure_cleans_up (denv : DlgEnv) (opt : HASHCHECKOPTIONS)
    (d : HASHPROPDLG) :
    (HashPropDlgProc_INITDIALOG denv opt d).trace
        = d.trace ++ [DlgCall.CreateThreadCRT denv.CreateThreadCRT]
          ++ (if denv.CreateThreadCRT = false then [DlgCall.WorkerThreadCleanup] else [])
    ∧ (HashPropDlgProc_INITDIALOG (withThread denv true) opt d).ctx
        = { (HashPropDlgInit opt d).ctx with hThread := true }
    ∧ (HashPropDlgProc_INITDIALOG (withThread denv false) opt d).ctx
        = WorkerThreadCleanup { (HashPropDlgInit opt d).ctx with hThread := false }
    ∧ (HashPropRestart denv d).trace
        = d.trace ++ [DlgCall.HashPropRestart d.ctx.cHandledMsgs d.ctx.cSentMsgs,
            DlgCall.CreateThreadCRT denv.CreateThreadCRT]
          ++ (if denv.CreateThreadCRT = false then [DlgCall.WorkerThreadCleanup] else [])
    ∧ (HashPropRestart (withThread denv true) d).ctx.hThread = true
    ∧ (HashPropRestart (withThread denv false) d).ctx
        = WorkerThreadCleanup
            { (HashPropRestart (withThread denv true) d).ctx with hThread := false } := by
  refine ⟨?_, rfl, rfl, ?_, ?_, ?_⟩
  · unfold HashPropDlgProc_INITDIALOG
    cases h : denv.CreateThreadCRT <;> simp [HashPropDlgInit]
  · unfold HashPropRestart
    cases h : denv.CreateThreadCRT <;> simp
  · simp only [HashPropRestart, withThread, Bool.true_eq_false, if_false]
  · simp only [HashPropRestart, withThread, WorkerThreadCleanup, Bool.true_eq_false, if_false,
      if_true]

/-! ### The lines of the results text -/

theorem foldl_append_if {α : Type} (l : List α) (c : α → Prop) [DecidablePred c]
    (f : α → List Char) (acc : List Char) :
    l.foldl (fun text a => if c a then text ++ f a else text) acc
      = acc ++ (l.filter (fun a => decide (c a))).flatMap f := by
  induction l generalizing acc with
  | nil => simp
  | cons a l ih =>
    rw [List.foldl_cons, ih]
    by_cases h : c a
    · simp [h, List.filter_cons]
    · simp [h, List.filter_cons]

theorem resultsText_eq_flatMap (dw : Nat) (results : WHRESULTEX) :
    resultsText dw results
      = (FOR_EACH_HASH.filter (fun a => decide (dw &&& WHEX_CHECK a ≠ 0))).flatMap
          (fun alg => HASH_RESULT_APPEND_op alg results) := by
  unfold resultsText
  have := foldl_append_if FOR_EACH_HASH (fun a => dw &&& WHEX_CHECK a ≠ 0)
    (fun alg => HASH_RESULT_APPEND_op alg results) []
  rw [List.nil_append] at this
  exact this

theorem readChars_eq_take (src : List Char) (n : Nat) (h : n ≤ src.length) :
    readChars src 0 n = src.take n := by
  have h1 : src = src.take n ++ src.drop n := (List.take_append_drop n src).symm
  have h2 : (src.take n).length = n := by
    rw [List.length_take]; omega
  have := readChars_prefix (src.take n) (src.drop n)
  rw [← h1, h2] at this
  exact this

theorem HashPropUpdateResults_scratch (denv : DlgEnv) (d : HASHPROPDLG) (pItem : Nat)
    (item : HASHPROPITEM) (hget : d.ctx.hList.data.get? pItem = some item) :
    (HashPropUpdateResults denv d pItem).ctx.scratch
      = memWrite d.ctx.scratch (d.ctx.obScratch / denv.sizeofTCHAR)
          (itemText denv d.ctx (itemShown d.ctx item) ++ [NUL]) := by
  by_cases hf : mustFlush denv d item
  · rw [HashPropUpdateResults_flush denv d pItem item hget hf]
  · rw [HashPropUpdateResults_keep denv d pItem item hget hf]

theorem itemText_eq (denv : DlgEnv) (ctx : HASHPROPCONTEXT) (item : HASHPROPITEM) :
    itemText denv ctx (itemShown ctx item)
      = LoadString denv.IDS_HP_FILELABEL denv.MAX_STRINGRES
          ++ readChars item.szPath ctx.cchPrefix (UINT_SUB item.cchPath ctx.cchPrefix)
          ++ CRLF
          ++ (FOR_EACH_HASH.filter
                (fun a => decide (ctx.opt.dwChecksums &&& WHEX_CHECK a ≠ 0))).flatMap
              (fun alg => HASH_RESULT_APPEND_op alg (itemShown ctx item).results)
          ++ CRLF := by
  unfold itemText
  rw [(itemShown_path ctx item).1, (itemShown_path ctx item).2, resultsText_eq_flatMap]

/-! ### C15 -/

/-- C15: the digest lengths of CRC32, MD5, SHA1, SHA256, SHA512, SHA3-256, SHA3-512
and BLAKE3 are 4, 16, 20, 32, 64, 32, 64 and 32 bytes; each result field is
declared with `2 * len + 1` characters; `MAX_DIGEST_LENGTH` is 64, the
greatest of the eight lengths; the results block that `HashPropUpdateResults`
writes is, for each requested algorithm in macro order, the label, exactly
`2 * len` characters read from the field, and `CRLF`; and for a field that
holds `2 * len` hex digits and the terminating NUL those characters are the
hex digits. -/
theorem C15_hex_digest_lengths :
    FOR_EACH_HASH.map DIGEST_LENGTH = [4, 16, 20, 32, 64, 32, 64, 32]
    ∧ (∀ alg, DIGEST_STRING_LENGTH alg = 2 * DIGEST_LENGTH alg + 1)
    ∧ MAX_DIGEST_LENGTH = 64
    ∧ (∀ alg, DIGEST_LENGTH alg ≤ MAX_DIGEST_LENGTH)
    ∧ (∃ alg, DIGEST_LENGTH alg = MAX_DIGEST_LENGTH)
    ∧ (∀ (denv : DlgEnv) (d : HASHPROPDLG) (pItem : Nat) (item : HASHPROPITEM),
        d.ctx.hList.data.get? pItem = some item →
        (HashPropUpdateResults denv d pItem).ctx.scratch
          = memWrite d.ctx.scratch (d.ctx.obScratch / denv.sizeofTCHAR)
              (LoadString denv.IDS_HP_FILELABEL denv.MAX_STRINGRES
                ++ readChars item.szPath d.ctx.cchPrefix (UINT_SUB item.cchPath d.ctx.cchPrefix)
                ++ CRLF
                ++ (FOR_EACH_HASH.filter
                      (fun a => decide (d.ctx.opt.dwChecksums &&& WHEX_CHECK a ≠ 0))).flatMap
                    (fun alg => HASH_RESULT_APPEND_op alg (itemShown d.ctx item).results)
                ++ CRLF ++ [NUL]))
    ∧ (∀ (alg : hash_algorithm) (results : WHRESULTEX),
        HASH_RESULT_APPEND_op alg results
            = HASH_RESULT_op alg ++ readChars (results.szHex alg) 0 (DIGEST_LENGTH alg * 2) ++ CRLF
        ∧ (readChars (results.szHex alg) 0 (DIGEST_LENGTH alg * 2)).length
            = 2 * DIGEST_LENGTH alg)
    ∧ (∀ (alg : hash_algorithm) (results : WHRESULTEX) (hex : List Char), hex.length = 2 * DIGEST_LENGTH alg →
        results.szHex alg = hex ++ [NUL] →
        (results.szHex alg).length = DIGEST_STRING_LENGTH alg
        ∧ readChars (results.szHex alg) 0 (DIGEST_LENGTH alg * 2) = hex) := by
  refine ⟨by decide, fun alg => by unfold DIGEST_STRING_LENGTH; omega, by decide,
    fun alg => by cases alg <;> decide, ⟨.SHA512, rfl⟩, ?_, ?_, ?_⟩
  · intro denv d pItem item hget
    rw [HashPropUpdateResults_scratch denv d pItem item hget, itemText_eq]
  · intro alg results
    refine ⟨rfl, ?_⟩
    rw [readChars_length]
    omega
  · intro alg results hex hlen hfield
    constructor
    · rw [hfield, List.length_append, hlen]
      unfold DIGEST_STRING_LENGTH
      simp only [List.length_singleton]
      omega
    · rw [hfield]
      have := readChars_prefix hex [NUL]
      rw [hlen, Nat.mul_comm] at this
      exact this

/-! ### Bytes of a 32-bit value -/

theorem SwapV32_bytes (b0 b1 b2 b3 : Nat) (h0 : b0 < 256) (h1 : b1 < 256) (h2 : b2 < 256)
    (h3 : b3 < 256) :
    SwapV32 (b3 * 16777216 + b2 * 65536 + b1 * 256 + b0)
      = b0 * 16777216 + b1 * 65536 + b2 * 256 + b3 := by
  have e0 : (b3 * 16777216 + b2 * 65536 + b1 * 256 + b0) % 256 = b0 := by omega
  have e1 : (b3 * 16777216 + b2 * 65536 + b1 * 256 + b0) / 256 % 256 = b1 := by omega
  have e2 : (b3 * 16777216 + b2 * 65536 + b1 * 256 + b0) / 65536 % 256 = b2 := by omega
  have e3 : (b3 * 16777216 + b2 * 65536 + b1 * 256 + b0) / 16777216 % 256 = b3 := by omega
  unfold SwapV32
  norm_num
  rw [e0, e1, e2, e3]

theorem result_bytes (b0 b1 b2 b3 : Nat) (h0 : b0 < 256) (h1 : b1 < 256) (h2 : b2 < 256)
    (h3 : b3 < 256) :
    (b3 * 16777216 + b2 * 65536 + b1 * 256 + b0) / 256 ^ 0 % 256 = b0
    ∧ (b3 * 16777216 + b2 * 65536 + b1 * 256 + b0) / 256 ^ 1 % 256 = b1
    ∧ (b3 * 16777216 + b2 * 65536 + b1 * 256 + b0) / 256 ^ 2 % 256 = b2
    ∧ (b3 * 16777216 + b2 * 65536 + b1 * 256 + b0) / 256 ^ 3 % 256 = b3 := by
  norm_num
  refine ⟨by omega, by omega, by omega, by omega⟩

theorem bytes_of_UINT32 (x : Nat) (h : x < 2 ^ 32) :
    x = x / 16777216 * 16777216 + x / 65536 % 256 * 65536 + x / 256 % 256 * 256 + x % 256
    ∧ x / 16777216 < 256 := by
  norm_num at h
  omega

/-! ### C16 -/

/-- C16: for every 32-bit value of `state`, after `WHFinishCRC32` the bytes
`result[0]`, `result[1]`, `result[2]`, `result[3]` (read through the union on
a little-endian machine) are the bytes of that value from the most
significant to the least significant; read in that order as a big-endian
number they give the value back. -/
theorem C16_crc32_finish_big_endian (pContext : WHCTXCRC32) (h : pContext.state < 2 ^ 32) :
    (WHFinishCRC32 pContext).result 0 = pContext.state / 2 ^ 24
    ∧ (WHFinishCRC32 pContext).result 1 = pContext.state / 2 ^ 16 % 256
    ∧ (WHFinishCRC32 pContext).result 2 = pContext.state / 2 ^ 8 % 256
    ∧ (WHFinishCRC32 pContext).result 3 = pContext.state % 256
    ∧ (WHFinishCRC32 pContext).result 0 * 2 ^ 24 + (WHFinishCRC32 pContext).result 1 * 2 ^ 16
        + (WHFinishCRC32 pContext).result 2 * 2 ^ 8 + (WHFinishCRC32 pContext).result 3
        = pContext.state := by
  obtain ⟨hx, h3⟩ := bytes_of_UINT32 pContext.state h
  have h0 : pContext.state % 256 < 256 := Nat.mod_lt _ (by norm_num)
  have h1 : pContext.state / 256 % 256 < 256 := Nat.mod_lt _ (by norm_num)
  have h2 : pContext.state / 65536 % 256 < 256 := Nat.mod_lt _ (by norm_num)
  have hs : SwapV32 pContext.state
      = pContext.state % 256 * 16777216 + pContext.state / 256 % 256 * 65536
        + pContext.state / 65536 % 256 * 256 + pContext.state / 16777216 := by
    conv_lhs => rw [hx]
    exact SwapV32_bytes _ _ _ _ h0 h1 h2 h3
  obtain ⟨r0, r1, r2, r3⟩ := result_bytes _ _ _ _ h3 h2 h1 h0
  simp only [WHFinishCRC32, WHCTXCRC32.result]
  rw [hs, r0, r1, r2, r3]
  norm_num
  omega

/-- C16 at a concrete state: the CRC value `0x1C291CA3` is laid out as the bytes
`1C 29 1C A3`. -/
theorem C16_crc32_finish_witness :
    ({ state := 0x1C291CA3 } : WHCTXCRC32).state < 2 ^ 32
    ∧ (WHFinishCRC32 { state := 0x1C291CA3 }).result 0 = 0x1C
    ∧ (WHFinishCRC32 { state := 0x1C291CA3 }).result 1 = 0x29
    ∧ (WHFinishCRC32 { state := 0x1C291CA3 }).result 2 = 0x1C
    ∧ (WHFinishCRC32 { state := 0x1C291CA3 }).result 3 = 0xA3 :=
  ⟨by decide,
    (C16_crc32_finish_big_endian { state := 0x1C291CA3 } (by decide)).1.trans (by decide),
    (C16_crc32_finish_big_endian { state := 0x1C291CA3 } (by decide)).2.1.trans (by decide),
    (C16_crc32_finish_big_endian { state := 0x1C291CA3 } (by decide)).2.2.1.trans (by decide),
    (C16_crc32_finish_big_endian { state := 0x1C291CA3 } (by decide)).2.2.2.1.trans (by decide)⟩

/-! ### C17 -/

/-- C17: `WHInitCRC32` immediately followed by `WHFinishCRC32`, with no
`WHUpdateCRC32` in between, leaves the four result bytes all zero, whatever
the context held before: the CRC-32 digest of the empty input is `00000000`. -/
theorem C17_crc32_empty_input (pContext : WHCTXCRC32) :
    (WHInitCRC32 pContext).state = 0
    ∧ (WHFinishCRC32 (WHInitCRC32 pContext)).state = 0
    ∧ (List.range 4).map (WHFinishCRC32 (WHInitCRC32 pContext)).result = [0, 0, 0, 0] := by
  refine ⟨rfl, ?_, ?_⟩
  · show SwapV32 0 = 0
    decide
  · show (List.range 4).map (fun i => SwapV32 0 / 256 ^ i % 256) = [0, 0, 0, 0]
    decide

/-! ### Finish and the context -/

theorem OPENSSL_HASH_FINISH_invalidates (EVP_DigestFinal : EVP_MD_CTX → List Nat)
    (pContext : WHCTXOPENSSL) (e : EVP_MD_CTX) (h : pContext.ctx = some e) :
    ∃ c, OPENSSL_HASH_FINISH EVP_DigestFinal pContext = some c
      ∧ c.ctx = none
      ∧ c.result.take (EVP_DigestFinal e).length = EVP_DigestFinal e
      ∧ (∀ pbIn, OPENSSL_HASH_UPDATE c pbIn = none)
      ∧ OPENSSL_HASH_FINISH EVP_DigestFinal c = none := by
  refine ⟨{ ctx := none, result := EVP_DigestFinal e
      ++ pContext.result.drop (EVP_DigestFinal e).length }, ?_, rfl, ?_, fun _ => rfl, rfl⟩
  · unfold OPENSSL_HASH_FINISH
    rw [h]
  · simp

theorem WHFinishBLAKE3_bytes (blake3_hasher_finalize : List Nat → Nat → List Nat)
    (pContext : WHCTXBLAKE3) :
    (WHFinishBLAKE3 blake3_hasher_finalize pContext).bytes
      = blake3_hasher_finalize pContext.bytes (DIGEST_LENGTH .BLAKE3)
        ++ pContext.bytes.drop
            (blake3_hasher_finalize pContext.bytes (DIGEST_LENGTH .BLAKE3)).length := by
  simp [WHFinishBLAKE3, memset, FINDOFFSET_WHCTXBLAKE3_result]

theorem WHFinishBLAKE3_split (blake3_hasher_finalize : List Nat → Nat → List Nat)
    (pContext : WHCTXBLAKE3) (h : (blake3_hasher_finalize pContext.bytes 32).length = 32) :
    (WHFinishBLAKE3 blake3_hasher_finalize pContext).bytes.take 32
        = blake3_hasher_finalize pContext.bytes 32
    ∧ (WHFinishBLAKE3 blake3_hasher_finalize pContext).bytes.drop 32
        = pContext.bytes.drop 32 := by
  have hb := WHFinishBLAKE3_bytes blake3_hasher_finalize pContext
  have h32 : DIGEST_LENGTH .BLAKE3 = 32 := rfl
  rw [h32, h] at hb
  rw [hb]
  generalize blake3_hasher_finalize pContext.bytes 32 = out at h
  constructor
  · rw [List.take_append_of_le_length (by omega)]
    exact List.take_of_length_le (by omega)
  · rw [List.drop_append_of_le_length (by omega), List.drop_of_length_le (by omega),
      List.nil_append]

/-! ### C18 -/

/-- C18. For the OpenSSL-backed algorithms the claim holds: `OPENSSL_HASH_FINISH` on a
live context writes the digest to the start of `result` and leaves the handle
null, so that a later update or finish has no context to work on. For BLAKE3
the code does not do what the claim says: the length of the `memset` in
`WHFinishBLAKE3` is the offset of `result` in a union, which is 0, so nothing
is cleared; at the sample context (48 non-zero bytes) the finish overwrites
the first 32 bytes with the digest and leaves the remaining 16 bytes of the
hasher state exactly as they were, and so for every context: the bytes of the
hasher that follow the first 32 are never changed. -/
theorem C18_finish_and_context :
    (∀ (EVP_DigestFinal : EVP_MD_CTX → List Nat) (pContext : WHCTXOPENSSL) (e : EVP_MD_CTX),
        pContext.ctx = some e →
        ∃ c, OPENSSL_HASH_FINISH EVP_DigestFinal pContext = some c
          ∧ c.ctx = none
          ∧ c.result.take (EVP_DigestFinal e).length = EVP_DigestFinal e
          ∧ (∀ pbIn, OPENSSL_HASH_UPDATE c pbIn = none)
          ∧ OPENSSL_HASH_FINISH EVP_DigestFinal c = none)
    ∧ FINDOFFSET_WHCTXBLAKE3_result = 0
    ∧ (∀ (blake3_hasher_finalize : List Nat → Nat → List Nat) (pContext : WHCTXBLAKE3),
        (blake3_hasher_finalize pContext.bytes 32).length = 32 →
        (WHFinishBLAKE3 blake3_hasher_finalize pContext).bytes.take 32
            = blake3_hasher_finalize pContext.bytes 32
        ∧ (WHFinishBLAKE3 blake3_hasher_finalize pContext).bytes.drop 32
            = pContext.bytes.drop 32)
    ∧ (WHFinishBLAKE3 sampleFinalize sampleBlake3).bytes.take 32 = List.replicate 32 0xAA
    ∧ (WHFinishBLAKE3 sampleFinalize sampleBlake3).bytes.drop 32 = sampleBlake3.bytes.drop 32
    ∧ (WHFinishBLAKE3 sampleFinalize sampleBlake3).bytes.drop 32
        = [33, 34, 35, 36, 37, 38, 39, 40, 41, 42, 43, 44, 45, 46, 47, 48] :=
  ⟨OPENSSL_HASH_FINISH_invalidates, rfl, WHFinishBLAKE3_split, by decide, by decide, by decide⟩

/-! ### C20 -/

/-- C20: the `HM_WORKERTHREAD_UPDATE` handler, for a `UINT` `cHandledMsgs` that does
not wrap. While `HCF_RESTARTING` is set: if `cHandledMsgs + 1` is still below
`cSentMsgs`, the handler leaves the dialog as it was except that
`cHandledMsgs` is one greater (`cSuccess`, `obScratch`, the scratch text, the
list with the item's results, the controls and the record of calls are
untouched); if `cHandledMsgs + 1` has reached `cSentMsgs`, the result is that
of `HashPropRestart` run after the increment. While the flag is clear the
result is that of `HashPropUpdateResults` for the item, run after the
increment. -/
theorem C20_stale_updates_discarded (denv : DlgEnv) (d : HASHPROPDLG) (pItem : Nat)
    (hh : d.ctx.cHandledMsgs + 1 < 2 ^ 32) :
    (d.ctx.dwFlags &&& HCF_RESTARTING ≠ 0 → d.ctx.cHandledMsgs + 1 < d.ctx.cSentMsgs →
        HashPropDlgProc_UPDATE denv d pItem
            = { d with ctx := { d.ctx with cHandledMsgs := d.ctx.cHandledMsgs + 1 } }
        ∧ (HashPropDlgProc_UPDATE denv d pItem).ctx.cHandledMsgs = d.ctx.cHandledMsgs + 1
        ∧ (HashPropDlgProc_UPDATE denv d pItem).ctx.cSuccess = d.ctx.cSuccess
        ∧ (HashPropDlgProc_UPDATE denv d pItem).ctx.obScratch = d.ctx.obScratch
        ∧ (HashPropDlgProc_UPDATE denv d pItem).ctx.scratch = d.ctx.scratch
        ∧ (HashPropDlgProc_UPDATE denv d pItem).ctx.hList = d.ctx.hList
        ∧ (HashPropDlgProc_UPDATE denv d pItem).ui = d.ui
        ∧ (HashPropDlgProc_UPDATE denv d pItem).trace = d.trace)
    ∧ (d.ctx.dwFlags &&& HCF_RESTARTING ≠ 0 → d.ctx.cSentMsgs ≤ d.ctx.cHandledMsgs + 1 →
        HashPropDlgProc_UPDATE denv d pItem
          = HashPropRestart denv
              { d with ctx := { d.ctx with cHandledMsgs := d.ctx.cHandledMsgs + 1 } })
    ∧ (d.ctx.dwFlags &&& HCF_RESTARTING = 0 →
        HashPropDlgProc_UPDATE denv d pItem
          = HashPropUpdateResults denv
              { d with ctx := { d.ctx with cHandledMsgs := d.ctx.cHandledMsgs + 1 } } pItem) := by
  have hinc := UINT_INC_of_lt _ hh
  refine ⟨?_, ?_, ?_⟩
  · intro hf hlt
    have hX : HashPropDlgProc_UPDATE denv d pItem
        = { d with ctx := { d.ctx with cHandledMsgs := d.ctx.cHandledMsgs + 1 } } := by
      unfold HashPropDlgProc_UPDATE
      simp only []
      rw [if_pos hf, hinc, if_neg (by omega)]
    rw [hX]
    exact ⟨rfl, rfl, rfl, rfl, rfl, rfl, rfl, rfl⟩
  · intro hf hge
    unfold HashPropDlgProc_UPDATE
    simp only []
    rw [if_pos hf, hinc, if_pos (by omega)]
  · intro hf
    unfold HashPropDlgProc_UPDATE
    simp only []
    rw [if_neg (by simpa using hf), hinc]

/-- C20 at a concrete dialog: a restart is pending, one of three updates has been
handled; handling the next one only moves `cHandledMsgs` from 1 to 2. -/
theorem C20_stale_updates_witness :
    sampleDlgStale.ctx.cHandledMsgs + 1 < 2 ^ 32
    ∧ sampleDlgStale.ctx.dwFlags &&& HCF_RESTARTING ≠ 0
    ∧ sampleDlgStale.ctx.cHandledMsgs + 1 < sampleDlgStale.ctx.cSentMsgs
    ∧ HashPropDlgProc_UPDATE sampleDlgEnv sampleDlgStale 0
        = { sampleDlgStale with ctx := { sampleDlgStale.ctx with cHandledMsgs := 2 } } :=
  ⟨by decide, by decide, by decide,
    ((C20_stale_updates_discarded sampleDlgEnv sampleDlgStale 0 (by decide)).1
      (by decide) (by decide)).1⟩

/-! ### Appending to the scratch buffer -/

theorem memWrite_of_le (buf : List Char) (off : Nat) (src : List Char)
    (h : off ≤ buf.length) :
    memWrite buf off src = buf.take off ++ src ++ buf.drop (off + src.length) := by
  unfold memWrite
  rw [Nat.sub_eq_zero_of_le h]
  simp

theorem cstr_append_NUL (a b : List Char) (h : NUL ∉ a) : cstr (a ++ NUL :: b) = a := by
  unfold cstr
  induction a with
  | nil => simp
  | cons x a ih =>
    have hx : x ≠ NUL := fun hx => h (by rw [hx]; exact List.mem_cons_self _ _)
    have ha : NUL ∉ a := fun ha => h (List.mem_cons_of_mem _ ha)
    simp only [List.cons_append, List.takeWhile_cons]
    rw [if_pos (by simpa using hx), ih ha]

theorem itemText_congr (denv : DlgEnv) (ctx1 ctx2 : HASHPROPCONTEXT) (item : HASHPROPITEM)
    (hp : ctx1.cchPrefix = ctx2.cchPrefix) (ho : ctx1.opt = ctx2.opt) :
    itemText denv ctx1 (itemShown ctx1 item) = itemText denv ctx2 (itemShown ctx2 item) := by
  have hs : itemShown ctx1 item = itemShown ctx2 item := by
    unfold itemShown hashesMissing
    simp only [ho]
  unfold itemText
  rw [hs, hp, ho]

theorem stepText_congr (denv : DlgEnv) (ctx1 ctx2 : HASHPROPCONTEXT)
    (hp : ctx1.cchPrefix = ctx2.cchPrefix) (ho : ctx1.opt = ctx2.opt) :
    stepText denv ctx1 = stepText denv ctx2 := by
  funext u
  unfold stepText
  cases u.hList.data.get? u.pItem with
  | none => rfl
  | some item => exact itemText_congr denv ctx1 ctx2 item hp ho

/-- One call of `HashPropUpdateResults` on a scratch buffer that holds the text `pre`
of earlier items: the buffer then holds `pre`, the text of the item and a NUL,
and the new offset is the byte offset of that NUL. -/
theorem HashPropUpdateResults_append (denv : DlgEnv) (c : HASHPROPDLG) (pItem : Nat)
    (item : HASHPROPITEM) (pre : List Char)
    (hsz : 0 < denv.sizeofTCHAR) (hsize : denv.sizeofHASHPROPSCRATCH < 2 ^ 32)
    (hget : c.ctx.hList.data.get? pItem = some item)
    (h1 : c.ctx.cchPrefix ≤ item.cchPath) (h2 : item.cchPath ≤ MAX_PATH_BUFFER)
    (hob : c.ctx.obScratch = pre.length * denv.sizeofTCHAR)
    (htext : c.ctx.scratch.take pre.length = pre)
    (hroom : c.ctx.obScratch
        + cchMaxBufferRequired denv c.ctx (itemShown c.ctx item) * denv.sizeofTCHAR
      ≤ denv.sizeofHASHPROPSCRATCH) :
    (HashPropUpdateResults denv c pItem).ctx.scratch
        = pre ++ itemText denv c.ctx (itemShown c.ctx item) ++ NUL
            :: c.ctx.scratch.drop
                (pre.length + ((itemText denv c.ctx (itemShown c.ctx item)).length + 1))
    ∧ obScratchAfter denv c.ctx item
        = (pre ++ itemText denv c.ctx (itemShown c.ctx item)).length * denv.sizeofTCHAR := by
  have hle : pre.length ≤ c.ctx.scratch.length := by
    have := congrArg List.length htext
    rw [List.length_take] at this
    omega
  have hdiv : c.ctx.obScratch / denv.sizeofTCHAR = pre.length := by
    rw [hob]
    exact Nat.mul_div_cancel _ hsz
  have hlen := itemText_length_le denv c.ctx (itemShown c.ctx item)
    (by rw [(itemShown_path c.ctx item).2]; exact h1)
    (by rw [(itemShown_path c.ctx item).2]; exact h2)
  constructor
  · rw [HashPropUpdateResults_scratch denv c pItem item hget, hdiv,
      memWrite_of_le _ _ _ hle, htext]
    simp [List.append_assoc]
  · unfold obScratchAfter DWORD_BITS
    rw [hob, List.length_append, Nat.add_mul]
    apply Nat.mod_eq_of_lt
    have hmul : (itemText denv c.ctx (itemShown c.ctx item)).length * denv.sizeofTCHAR
        ≤ cchMaxBufferRequired denv c.ctx (itemShown c.ctx item) * denv.sizeofTCHAR :=
      Nat.mul_le_mul_right _ (by omega)
    rw [hob] at hroom
    omega

theorem handleUpdate_eq (denv : DlgEnv) (d : HASHPROPDLG) (u : UpdateStep)
    (hflag : d.ctx.dwFlags &&& HCF_RESTARTING = 0) :
    handleUpdate denv d u = HashPropUpdateResults denv (updateCallState d u) u.pItem := by
  unfold handleUpdate HashPropDlgProc_UPDATE updateCallState
  simp only []
  rw [if_neg (by simpa using hflag)]

theorem handleUpdates_append (denv : DlgEnv) (d : HASHPROPDLG) (us : List UpdateStep)
    (u : UpdateStep) :
    handleUpdates denv d (us ++ [u]) = handleUpdate denv (handleUpdates denv d us) u := by
  unfold handleUpdates
  rw [List.foldl_append]
  rfl

/-- A run of calls that all return without flushing: the scratch buffer holds the
texts of the items in handling order, and nothing reaches the controls. -/
theorem keepsAll_run (denv : DlgEnv) (d0 : HASHPROPDLG)
    (hsz : 0 < denv.sizeofTCHAR) (hsize : denv.sizeofHASHPROPSCRATCH < 2 ^ 32)
    (us : List UpdateStep) (d : HASHPROPDLG) (pre : List Char)
    (hflag : d.ctx.dwFlags &&& HCF_RESTARTING = 0)
    (hopt : d.ctx.opt = d0.ctx.opt) (hpre : d.ctx.cchPrefix = d0.ctx.cchPrefix)
    (hwf : ∀ v ∈ us, ∀ it, v.hList.data.get? v.pItem = some it →
      d0.ctx.cchPrefix ≤ it.cchPath ∧ it.cchPath ≤ MAX_PATH_BUFFER)
    (hob : d.ctx.obScratch = pre.length * denv.sizeofTCHAR)
    (htext : d.ctx.scratch.take pre.length = pre)
    (hroom : ∀ next, d.ctx.obScratch + cchMaxBufferRequired denv d0.ctx next * denv.sizeofTCHAR
      ≤ denv.sizeofHASHPROPSCRATCH)
    (hkeep : keepsAll denv d us = true) :
    (handleUpdates denv d us).ctx.dwFlags &&& HCF_RESTARTING = 0
    ∧ (handleUpdates denv d us).ctx.opt = d0.ctx.opt
    ∧ (handleUpdates denv d us).ctx.cchPrefix = d0.ctx.cchPrefix
    ∧ (handleUpdates denv d us).ctx.obScratch
        = (pre ++ us.flatMap (stepText denv d0.ctx)).length * denv.sizeofTCHAR
    ∧ (handleUpdates denv d us).ctx.scratch.take
          (pre ++ us.flatMap (stepText denv d0.ctx)).length
        = pre ++ us.flatMap (stepText denv d0.ctx)
    ∧ (∀ next, (handleUpdates denv d us).ctx.obScratch
        + cchMaxBufferRequired denv d0.ctx next * denv.sizeofTCHAR ≤ denv.sizeofHASHPROPSCRATCH)
    ∧ (handleUpdates denv d us).ui = d.ui := by
  induction us generalizing d pre with
  | nil =>
    simp only [handleUpdates, List.foldl_nil, List.flatMap_nil, List.append_nil]
    exact ⟨hflag, hopt, hpre, hob, htext, hroom, trivial⟩
  | cons u us ih =>
    unfold keepsAll at hkeep
    rw [Bool.and_eq_true] at hkeep
    obtain ⟨hk1, hk2⟩ := hkeep
    cases hget : u.hList.data.get? u.pItem with
    | none =>
      rw [hget] at hk1
      cases hk1
    | some item =>
      rw [hget] at hk1
      simp only [Bool.not_eq_true', decide_eq_false_iff_not] at hk1
      have hX := handleUpdate_eq denv d u hflag
      have hgetc : (updateCallState d u).ctx.hList.data.get? u.pItem = some item := hget
      obtain ⟨hw1, hw2⟩ := hwf u (List.mem_cons_self _ _) item hget
      have hT : itemText denv (updateCallState d u).ctx (itemShown (updateCallState d u).ctx item)
          = stepText denv d0.ctx u := by
        unfold stepText
        rw [hget]
        exact itemText_congr denv _ _ item hpre hopt
      have hcc : ∀ next, cchMaxBufferRequired denv (updateCallState d u).ctx
          (itemShown (updateCallState d u).ctx item) = cchMaxBufferRequired denv d0.ctx next :=
        fun next => cchMaxBufferRequired_congr denv _ _ _ _ hpre hopt
      obtain ⟨a1, a2⟩ := HashPropUpdateResults_append denv (updateCallState d u) u.pItem item pre
        hsz hsize hgetc (by rw [← hpre] at hw1; exact hw1) hw2 hob htext
        (by rw [hcc item]; exact hroom item)
      rw [hT] at a1 a2
      have hkeepEq := HashPropUpdateResults_keep denv (updateCallState d u) u.pItem item hgetc hk1
      have hsum := HashPropUpdateResults_summary denv (updateCallState d u) u.pItem
      have hfr := HashPropUpdateResults_frame denv (updateCallState d u) u.pItem
      have hob2 : (handleUpdate denv d u).ctx.obScratch
          = (pre ++ stepText denv d0.ctx u).length * denv.sizeofTCHAR := by
        rw [hX, hkeepEq]
        exact a2
      have hroom2 : ∀ next, (handleUpdate denv d u).ctx.obScratch
          + cchMaxBufferRequired denv d0.ctx next * denv.sizeofTCHAR
            ≤ denv.sizeofHASHPROPSCRATCH := by
        intro next
        unfold mustFlush at hk1
        push_neg at hk1
        rw [hX, hkeepEq, ← hcc next]
        exact hk1.2
      have htext2 : (handleUpdate denv d u).ctx.scratch.take
          (pre ++ stepText denv d0.ctx u).length = pre ++ stepText denv d0.ctx u := by
        rw [hX, a1]
        exact List.take_left' rfl
      have hui : (handleUpdate denv d u).ui = d.ui := by
        rw [hX, hkeepEq]
        rfl
      have := ih (handleUpdate denv d u) (pre ++ stepText denv d0.ctx u)
        (by rw [hX, hsum.2.2.2.1]; exact hflag)
        (by rw [hX, hfr.1]; exact hopt)
        (by rw [hX, hfr.2]; exact hpre)
        (fun v hv => hwf v (List.mem_cons_of_mem _ hv))
        hob2 htext2 hroom2 hk2
      have hfold : handleUpdates denv d (u :: us)
          = handleUpdates denv (handleUpdate denv d u) us := rfl
      rw [hfold, List.flatMap_cons, ← List.append_assoc]
      obtain ⟨t1, t2, t3, t4, t5, t6, t7⟩ := this
      exact ⟨t1, t2, t3, t4, t5, t6, t7.trans hui⟩

/-! ### C19 -/

/-- C19: coalescing preserves content and order. Let the scratch buffer be empty
(`obScratch = 0`), let the calls of `HashPropUpdateResults` for the updates
`us` (`k` of them) all return without flushing, and let the call for the next
update `u` flush. Then the last call recorded is one `EM_REPLACESEL` whose
NUL-terminated string is exactly the concatenation, in handling order, of the
texts of the `k + 1` items; the results box has received exactly that string,
and nothing before the flush; and the text of each item is the file label,
the path without the common prefix, `CRLF`, one line (name, hex digits,
`CRLF`) for each requested algorithm in the order of `FOR_EACH_HASH`, and
`CRLF`. This is for a scratch struct smaller than `2 ^ 32` bytes that can
hold the maximum text of one item, paths that have the prefix and fit
`MAX_PATH_BUFFER`, and item texts without a NUL character. -/
theorem C19_coalescing_preserves_content_and_order (denv : DlgEnv) (d : HASHPROPDLG)
    (us : List UpdateStep) (u : UpdateStep) (item : HASHPROPITEM)
    (hsz : 0 < denv.sizeofTCHAR) (hsize : denv.sizeofHASHPROPSCRATCH < 2 ^ 32)
    (hcap : ∀ next : HASHPROPITEM,
      cchMaxBufferRequired denv d.ctx next * denv.sizeofTCHAR ≤ denv.sizeofHASHPROPSCRATCH)
    (hflag : d.ctx.dwFlags &&& HCF_RESTARTING = 0)
    (h0 : d.ctx.obScratch = 0)
    (hwf : ∀ v ∈ us ++ [u], ∀ it, v.hList.data.get? v.pItem = some it →
      d.ctx.cchPrefix ≤ it.cchPath ∧ it.cchPath ≤ MAX_PATH_BUFFER)
    (hnul : ∀ v ∈ us ++ [u], NUL ∉ stepText denv d.ctx v)
    (hkeep : keepsAll denv d us = true)
    (hget : u.hList.data.get? u.pItem = some item)
    (hflush : mustFlush denv (updateCallState (handleUpdates denv d us) u) item) :
    (handleUpdates denv d (us ++ [u])).trace.getLast?
        = some (DlgCall.EM_REPLACESEL ((us ++ [u]).flatMap (stepText denv d.ctx)))
    ∧ (handleUpdates denv d (us ++ [u])).ui.results
        = d.ui.results ++ (us ++ [u]).flatMap (stepText denv d.ctx)
    ∧ (handleUpdates denv d us).ui.results = d.ui.results
    ∧ (handleUpdates denv d (us ++ [u])).ctx.obScratch = 0
    ∧ NUL ∉ (us ++ [u]).flatMap (stepText denv d.ctx)
    ∧ (∀ v ∈ us ++ [u], ∀ it, v.hList.data.get? v.pItem = some it →
        stepText denv d.ctx v
          = LoadString denv.IDS_HP_FILELABEL denv.MAX_STRINGRES
              ++ readChars it.szPath d.ctx.cchPrefix (UINT_SUB it.cchPath d.ctx.cchPrefix)
              ++ CRLF
              ++ (FOR_EACH_HASH.filter
                    (fun a => decide (d.ctx.opt.dwChecksums &&& WHEX_CHECK a ≠ 0))).flatMap
                  (fun alg => HASH_RESULT_APPEND_op alg (itemShown d.ctx it).results)
              ++ CRLF) := by
  obtain ⟨r1, r2, r3, r4, r5, r6, r7⟩ := keepsAll_run denv d hsz hsize us d [] hflag rfl rfl
    (fun v hv => hwf v (List.mem_append_left _ hv))
    (by rw [h0]; simp) (by simp)
    (fun next => by rw [h0, Nat.zero_add]; exact hcap next) hkeep
  simp only [List.nil_append] at r4 r5
  have hnulAll : NUL ∉ (us ++ [u]).flatMap (stepText denv d.ctx) := by
    intro hmem
    obtain ⟨v, hv, hin⟩ := List.mem_flatMap.mp hmem
    exact hnul v hv hin
  have hX := handleUpdate_eq denv (handleUpdates denv d us) u r1
  have hgetc : (updateCallState (handleUpdates denv d us) u).ctx.hList.data.get? u.pItem
      = some item := hget
  obtain ⟨hw1, hw2⟩ := hwf u (List.mem_append_right _ (List.mem_singleton_self _)) item hget
  have hT : itemText denv (updateCallState (handleUpdates denv d us) u).ctx
      (itemShown (updateCallState (handleUpdates denv d us) u).ctx item)
      = stepText denv d.ctx u := by
    unfold stepText
    rw [hget]
    exact itemText_congr denv _ _ item r3 r2
  have hcc : cchMaxBufferRequired denv (updateCallState (handleUpdates denv d us) u).ctx
      (itemShown (updateCallState (handleUpdates denv d us) u).ctx item)
      = cchMaxBufferRequired denv d.ctx item :=
    cchMaxBufferRequired_congr denv _ _ _ _ r3 r2
  obtain ⟨a1, _⟩ := HashPropUpdateResults_append denv
    (updateCallState (handleUpdates denv d us) u) u.pItem item
    (us.flatMap (stepText denv d.ctx)) hsz hsize hgetc
    (by rw [← r3] at hw1; exact hw1) hw2 r4 r5 (by rw [hcc]; exact r6 item)
  rw [hT] at a1
  have hm := (HashPropUpdateResults_scratch denv
    (updateCallState (handleUpdates denv d us) u) u.pItem item hgetc).symm.trans a1
  rw [hT] at hm
  have hall : (us ++ [u]).flatMap (stepText denv d.ctx)
      = us.flatMap (stepText denv d.ctx) ++ stepText denv d.ctx u := by
    simp [List.flatMap_append]
  have hcstr : cstr (memWrite (updateCallState (handleUpdates denv d us) u).ctx.scratch
      ((updateCallState (handleUpdates denv d us) u).ctx.obScratch / denv.sizeofTCHAR)
      (stepText denv d.ctx u ++ [NUL])) = (us ++ [u]).flatMap (stepText denv d.ctx) := by
    rw [hm, hall]
    exact cstr_append_NUL _ _ (by rw [← hall]; exact hnulAll)
  have hfl := HashPropUpdateResults_flush denv
    (updateCallState (handleUpdates denv d us) u) u.pItem item hgetc hflush
  rw [hT, hcstr] at hfl
  rw [handleUpdates_append, hX, hfl]
  refine ⟨by simp, ?_, by rw [r7], rfl, hnulAll, ?_⟩
  · show (handleUpdates denv d us).ui.results ++ _ = _
    rw [r7]
  · intro v _ it hg
    unfold stepText
    rw [hg]
    exact itemText_eq denv d.ctx it

/-- C19 at a concrete run: the first update is handled while a second is already
counted, so its text is kept; the second update drains the backlog, and the
results box receives the two texts, first item first, in one string. -/
theorem C19_coalescing_witness :
    keepsAll sampleDlgEnv sampleDlg0 sampleKept = true
    ∧ mustFlush sampleDlgEnv
        (updateCallState (handleUpdates sampleDlgEnv sampleDlg0 sampleKept) sampleFlushed)
        (sampleItemB 0)
    ∧ (handleUpdates sampleDlgEnv sampleDlg0 (sampleKept ++ [sampleFlushed])).ui.results
        = sampleDlg0.ui.results
          ++ (sampleKept ++ [sampleFlushed]).flatMap (stepText sampleDlgEnv sampleDlg0.ctx) :=
  ⟨by decide, by decide,
    (C19_coalescing_preserves_content_and_order sampleDlgEnv sampleDlg0 sampleKept sampleFlushed
      (sampleItemB 0) (by decide) (by decide)
      (fun next => by
        rw [cchMaxBufferRequired_congr sampleDlgEnv sampleDlg0.ctx sampleDlg0.ctx next
          (sampleItemA 1) rfl rfl]
        decide)
      (by decide) rfl
      (fun v hv it hg => by
        simp only [sampleKept, List.cons_append, List.nil_append, List.mem_cons,
          List.mem_singleton, List.not_mem_nil, or_false] at hv
        rcases hv with rfl | rfl
        · obtain rfl : sampleItemA 0x0D = it := Option.some.inj hg
          decide
        · obtain rfl : sampleItemB 0 = it := Option.some.inj hg
          decide)
      (by decide) (by decide) rfl (by decide)).2.1⟩

/-! ### The save filters and the desired hash -/

theorem filter_index_alg (i : Nat) (h1 : 1 ≤ i) (h8 : i ≤ 8) :
    ∃ alg, FOR_EACH_HASH.get? (i - 1) = some alg
      ∧ HASH_FILE_FILTERS.get? (i - 1) = some (HASH_FILTER_op alg)
      ∧ alg.val = i
      ∧ (1 <<< UINT_SUB i 1) % 2 ^ DWORD_BITS = WHEX_CHECK alg := by
  interval_cases i
  · exact ⟨.CRC32, rfl, rfl, rfl, by decide⟩
  · exact ⟨.MD5, rfl, rfl, rfl, by decide⟩
  · exact ⟨.SHA1, rfl, rfl, rfl, by decide⟩
  · exact ⟨.SHA256, rfl, rfl, rfl, by decide⟩
  · exact ⟨.SHA512, rfl, rfl, rfl, by decide⟩
  · exact ⟨.SHA3_256, rfl, rfl, rfl, by decide⟩
  · exact ⟨.SHA3_512, rfl, rfl, rfl, by decide⟩
  · exact ⟨.BLAKE3, rfl, rfl, rfl, by decide⟩

theorem HASH_FILTER_op_injective (a b : hash_algorithm) (h : HASH_FILTER_op a = HASH_FILTER_op b) :
    a = b := by
  cases a <;> cases b <;> first | rfl | exact absurd h (by decide)

theorem testBit_or_left (x y b : Nat) (h : x.testBit b = true) : (x ||| y).testBit b = true := by
  rw [Nat.testBit_or, h, Bool.true_or]

theorem HashPropRestart_trace (denv : DlgEnv) (d : HASHPROPDLG) :
    (HashPropRestart denv d).trace
      = d.trace ++ [DlgCall.HashPropRestart d.ctx.cHandledMsgs d.ctx.cSentMsgs,
          DlgCall.CreateThreadCRT denv.CreateThreadCRT]
        ++ (if denv.CreateThreadCRT = false then [DlgCall.WorkerThreadCleanup] else []) := by
  unfold HashPropRestart
  cases h : denv.CreateThreadCRT <;> simp

theorem HashPropSaveResults_opt_grows (denv : DlgEnv) (hFileOut : Option Nat)
    (nFilterIndex : Nat) (d : HASHPROPDLG) (b : Nat)
    (h : d.ctx.opt.dwChecksums.testBit b = true) :
    (HashPropSaveResults denv hFileOut nFilterIndex d).ctx.opt.dwChecksums.testBit b = true := by
  unfold HashPropSaveResults
  simp only []
  split_ifs with hfile
  · cases hlast : SLGetDataLast d.ctx.hList with
    | none => simp only [hlast]; exact h
    | some last =>
      simp only [hlast]
      split_ifs with hbit
      · exact h
      · rw [(HashPropRestart_frame denv _).1]
        exact testBit_or_left _ _ _ h
  · exact h

/-! ### C21 -/

/-- C21: for every filter index `i` in `1..8`, the algorithm at place `i` of
`FOR_EACH_HASH` is the algorithm of the `i`-th filter of `HASH_FILE_FILTERS`,
its enum value is `i`, and the desired-hash bit `1 << (i - 1)` that
`HashPropSaveResults` computes is its `WHEX_CHECK` bit. With an output file
chosen and a last item in the list: if the last item's validity bits lack
that bit, `opt.dwChecksums` becomes the old set OR that bit and
`HashPropRestart` runs (the calls recorded end with `HashPropRestart`,
`CreateThreadCRT` and, if no thread was created, `WorkerThreadCleanup`);
otherwise `HashPropDoSaveResults` runs at once and the requested set is
unchanged. Whatever the outcome of the file dialog, every bit of the old
requested set is in the new one. -/
theorem C21_save_targets_filter_algorithm (denv : DlgEnv) (d : HASHPROPDLG)
    (hFile i : Nat) (last : HASHPROPITEM)
    (h1 : 1 ≤ i) (h8 : i ≤ 8) (hlast : SLGetDataLast d.ctx.hList = some last) :
    ∃ alg, FOR_EACH_HASH.get? (i - 1) = some alg
      ∧ HASH_FILE_FILTERS.get? (i - 1) = some (HASH_FILTER_op alg)
      ∧ alg.val = i
      ∧ (1 <<< UINT_SUB i 1) % 2 ^ DWORD_BITS = WHEX_CHECK alg
      ∧ (last.results.dwFlags &&& WHEX_CHECK alg = 0 →
          (HashPropSaveResults denv (some hFile) i d).ctx.opt.dwChecksums
              = d.ctx.opt.dwChecksums ||| WHEX_CHECK alg
          ∧ (HashPropSaveResults denv (some hFile) i d).trace
              = d.trace
                ++ [DlgCall.assertion 812 (decide (d.ctx.dwFlags &&& HPF_INTERRUPTED = 0)),
                    DlgCall.assertion 813 (decide (d.ctx.cSuccess > 0)),
                    DlgCall.assertion 829 (decide (d.ctx.status = .CLEANUP_COMPLETED)),
                    DlgCall.assertion 830 (decide (d.ctx.cHandledMsgs ≥ d.ctx.cSentMsgs)),
                    DlgCall.HashPropRestart d.ctx.cHandledMsgs d.ctx.cSentMsgs,
                    DlgCall.CreateThreadCRT denv.CreateThreadCRT]
                ++ (if denv.CreateThreadCRT = false then [DlgCall.WorkerThreadCleanup] else []))
      ∧ (last.results.dwFlags &&& WHEX_CHECK alg ≠ 0 →
          (HashPropSaveResults denv (some hFile) i d).ctx.opt = d.ctx.opt
          ∧ (HashPropSaveResults denv (some hFile) i d).trace
              = d.trace
                ++ [DlgCall.assertion 812 (decide (d.ctx.dwFlags &&& HPF_INTERRUPTED = 0)),
                    DlgCall.assertion 813 (decide (d.ctx.cSuccess > 0)),
                    DlgCall.HashPropDoSaveResults, DlgCall.assertion 840 true])
      ∧ (∀ (hFileOut : Option Nat) (b : Nat), d.ctx.opt.dwChecksums.testBit b = true →
          (HashPropSaveResults denv hFileOut i d).ctx.opt.dwChecksums.testBit b = true) := by
  obtain ⟨alg, a1, a2, a3, a4⟩ := filter_index_alg i h1 h8
  refine ⟨alg, a1, a2, a3, a4, ?_, ?_,
    fun hFileOut b hb => HashPropSaveResults_opt_grows denv hFileOut i d b hb⟩
  · intro hbit
    have hX : HashPropSaveResults denv (some hFile) i d
        = HashPropRestart denv
            { d with
              ctx := { d.ctx with
                hFileOut := some hFile, nFilterIndex := i
                opt := { d.ctx.opt with
                  dwChecksums := d.ctx.opt.dwChecksums ||| WHEX_CHECK alg } }
              trace := d.trace
                ++ [DlgCall.assertion 812 (decide (d.ctx.dwFlags &&& HPF_INTERRUPTED = 0)),
                    DlgCall.assertion 813 (decide (d.ctx.cSuccess > 0))]
                ++ [DlgCall.assertion 829 (decide (d.ctx.status = .CLEANUP_COMPLETED)),
                    DlgCall.assertion 830 (decide (d.ctx.cHandledMsgs ≥ d.ctx.cSentMsgs))] } := by
      unfold HashPropSaveResults
      simp only [hlast, a4, hbit, ne_eq, not_true_eq_false, not_false_eq_true, if_true, if_false,
        reduceCtorEq]
    rw [hX]
    refine ⟨?_, ?_⟩
    · rw [(HashPropRestart_frame denv _).1]
    · rw [HashPropRestart_trace]
      simp
  · intro hbit
    have hX : HashPropSaveResults denv (some hFile) i d
        = HashPropDoSaveResults
            { d with
              ctx := { d.ctx with hFileOut := some hFile, nFilterIndex := i }
              trace := d.trace
                ++ [DlgCall.assertion 812 (decide (d.ctx.dwFlags &&& HPF_INTERRUPTED = 0)),
                    DlgCall.assertion 813 (decide (d.ctx.cSuccess > 0))] } := by
      unfold HashPropSaveResults
      simp only [hlast, a4, hbit, ne_eq, not_false_eq_true, if_true, reduceCtorEq]
    rw [hX]
    refine ⟨rfl, ?_⟩
    unfold HashPropDoSaveResults
    simp

/-- C21 at a concrete save: after a first run that computed CRC-32 only, with CRC-32
and SHA-1 requested, the SHA-256 filter (index 4) is chosen; the last item
lacks SHA-256, so the requested set becomes CRC-32, SHA-1 and SHA-256. -/
theorem C21_save_witness :
    1 ≤ 4 ∧ 4 ≤ 8
    ∧ SLGetDataLast sampleDlgAfterFirstRun.ctx.hList = some (sampleItemB 1)
    ∧ sampleDlgAfterFirstRun.ctx.opt.dwChecksums = 5
    ∧ (HashPropSaveResults sampleDlgEnv (some 7) 4 sampleDlgAfterFirstRun).ctx.opt.dwChecksums
        = 13 :=
  ⟨by decide, by decide, rfl, rfl, by
    obtain ⟨alg, ha, _, _, _, hr, _, _⟩ := C21_save_targets_filter_algorithm sampleDlgEnv
      sampleDlgAfterFirstRun 7 4 (sampleItemB 1) (by decide) (by decide) rfl
    obtain rfl : hash_algorithm.SHA256 = alg := Option.some.inj ha
    exact (hr (by decide)).1.trans (by decide)⟩

/-! ### What `HashPropRestart` resets -/

theorem sinceRestart_append (t delta : List DlgCall) :
    sinceRestart (t ++ delta) = delta.foldl sinceRestartStep (sinceRestart t) := by
  unfold sinceRestart
  rw [List.foldl_append]

theorem testBit_restart_mask (b : Nat) :
    (HCF_RESTARTING ||| HPF_INTERRUPTED).testBit b = (decide (b = 2) || decide (b = 5)) := by
  have h1 : HCF_RESTARTING = 2 ^ 2 := by decide
  have h2 : HPF_INTERRUPTED = 2 ^ 5 := by decide
  rw [h1, h2, Nat.testBit_or, Nat.testBit_two_pow, Nat.testBit_two_pow]
  by_cases h : b = 2
  · subst h; rfl
  · by_cases h5 : b = 5
    · subst h5; rfl
    · have e1 : ¬ 2 = b := fun e => h e.symm
      have e2 : ¬ 5 = b := fun e => h5 e.symm
      simp [h, h5, e1, e2]

theorem HashPropRestart_dwFlags (denv : DlgEnv) (d : HASHPROPDLG) :
    (HashPropRestart denv d).ctx.dwFlags
      = d.ctx.dwFlags &&& DWORD_NOT (HCF_RESTARTING ||| HPF_INTERRUPTED) := by
  unfold HashPropRestart WorkerThreadCleanup
  simp only []
  split_ifs <;> rfl

theorem HashPropRestart_list (denv : DlgEnv) (d : HASHPROPDLG) :
    (d.ctx.dwFlags &&& HPF_HLIST_PREPPED ≠ 0 →
      (HashPropRestart denv d).ctx.hList = SLReset d.ctx.hList
      ∧ (HashPropRestart denv d).ctx.cTotal = d.ctx.cTotal)
    ∧ (d.ctx.dwFlags &&& HPF_HLIST_PREPPED = 0 →
      (HashPropRestart denv d).ctx.hList = SLCreateEx
      ∧ (HashPropRestart denv d).ctx.cTotal = 0) := by
  have hbit : (d.ctx.dwFlags &&& DWORD_NOT (HCF_RESTARTING ||| HPF_INTERRUPTED))
      &&& HPF_HLIST_PREPPED = d.ctx.dwFlags &&& HPF_HLIST_PREPPED := by
    apply Nat.eq_of_testBit_eq
    intro b
    have h4 : HPF_HLIST_PREPPED = 2 ^ 4 := by decide
    rw [h4]
    simp only [Nat.testBit_and, testBit_DWORD_NOT, testBit_restart_mask, Nat.testBit_two_pow]
    by_cases hb : 4 = b
    · subst hb; simp
    · simp [hb]
  constructor
  · intro hp
    unfold HashPropRestart WorkerThreadCleanup
    simp only [hbit, hp, ne_eq, not_false_eq_true, if_true]
    split_ifs <;> exact ⟨rfl, rfl⟩
  · intro hp
    unfold HashPropRestart WorkerThreadCleanup
    simp only [hbit, hp, ne_eq, not_true_eq_false, if_false]
    split_ifs <;> exact ⟨rfl, rfl⟩

theorem HashPropRestart_others (denv : DlgEnv) (d : HASHPROPDLG) :
    (HashPropRestart denv d).ctx.cSentMsgs = d.ctx.cSentMsgs
    ∧ (HashPropRestart denv d).ctx.cHandledMsgs = d.ctx.cHandledMsgs
    ∧ (HashPropRestart denv d).ctx.cchPrefix = d.ctx.cchPrefix
    ∧ (HashPropRestart denv d).ctx.hFileOut = d.ctx.hFileOut
    ∧ (HashPropRestart denv d).ctx.nFilterIndex = d.ctx.nFilterIndex
    ∧ (HashPropRestart denv d).ctx.scratch = d.ctx.scratch := by
  unfold HashPropRestart WorkerThreadCleanup
  simp only []
  split_ifs <;> exact ⟨rfl, rfl, rfl, rfl, rfl, rfl⟩

/-! ### The success count and the updates handled since the last restart -/

theorem sinceRestart_HashPropRestart (denv : DlgEnv) (d : HASHPROPDLG) :
    (HashPropRestart denv d).ctx.cSuccess = 0
    ∧ sinceRestart (HashPropRestart denv d).trace = 0 := by
  refine ⟨(HashPropRestart_frame denv d).2.2.2, ?_⟩
  rw [HashPropRestart_trace, sinceRestart_append, sinceRestart_append]
  cases denv.CreateThreadCRT <;> simp [sinceRestartStep]

theorem sinceRestart_HashPropUpdateResults (denv : DlgEnv) (d : HASHPROPDLG) (pItem : Nat)
    (h : d.ctx.cSuccess ≤ sinceRestart d.trace) :
    (HashPropUpdateResults denv d pItem).ctx.cSuccess
      ≤ sinceRestart (HashPropUpdateResults denv d pItem).trace := by
  cases hget : d.ctx.hList.data.get? pItem with
  | none =>
    have : HashPropUpdateResults denv d pItem = d := by
      unfold HashPropUpdateResults
      simp only [hget]
    rw [this]
    exact h
  | some item =>
    have hc := HashPropUpdateResults_cSuccess denv d pItem
    have ht : sinceRestart (HashPropUpdateResults denv d pItem).trace
        = sinceRestart d.trace + 1 := by
      by_cases hf : mustFlush denv d item
      · rw [HashPropUpdateResults_flush denv d pItem item hget hf]
        unfold updateTrace
        split_ifs <;> simp [sinceRestart_append, sinceRestartStep]
      · rw [HashPropUpdateResults_keep denv d pItem item hget hf]
        unfold updateTrace
        split_ifs <;> simp [sinceRestart_append, sinceRestartStep]
    omega

theorem sinceRestart_UPDATE (denv : DlgEnv) (d : HASHPROPDLG) (pItem : Nat)
    (h : d.ctx.cSuccess ≤ sinceRestart d.trace) :
    (HashPropDlgProc_UPDATE denv d pItem).ctx.cSuccess
      ≤ sinceRestart (HashPropDlgProc_UPDATE denv d pItem).trace := by
  unfold HashPropDlgProc_UPDATE
  simp only []
  split_ifs
  · rw [(sinceRestart_HashPropRestart denv _).1]
    exact Nat.zero_le _
  · exact h
  · exact sinceRestart_HashPropUpdateResults denv _ pItem h

theorem sinceRestart_DONE (d : HASHPROPDLG) (h : d.ctx.cSuccess ≤ sinceRestart d.trace) :
    (HashPropDlgProc_DONE d).ctx.cSuccess ≤ sinceRestart (HashPropDlgProc_DONE d).trace := by
  rw [(HashPropDlgProc_DONE_summary d).2.2.1]
  have ht : sinceRestart (HashPropDlgProc_DONE d).trace = sinceRestart d.trace := by
    unfold HashPropDlgProc_DONE
    simp only []
    rw [(HashPropFinalStatus_summary _).2.1]
    split_ifs
    · unfold HashPropDoSaveResults
      simp [sinceRestart_append, sinceRestartStep]
    · simp [sinceRestart_append, sinceRestartStep]
  rw [ht]
  exact h

theorem sinceRestart_options_stop (denv : DlgEnv) (opt : HASHCHECKOPTIONS) (d : HASHPROPDLG)
    (h : d.ctx.cSuccess ≤ sinceRestart d.trace) :
    (HashPropOptions_stop denv opt d).2.ctx.cSuccess
      ≤ sinceRestart (HashPropOptions_stop denv opt d).2.trace := by
  rw [(HashPropOptions_stop_summary denv opt d).2.2.1]
  have ht : sinceRestart (HashPropOptions_stop denv opt d).2.trace = sinceRestart d.trace := by
    unfold HashPropOptions_stop
    simp only []
    split_ifs <;> simp [sinceRestart_append, sinceRestartStep]
  rw [ht]
  exact h

theorem sinceRestart_options_cleanup (denv : DlgEnv) (d : HASHPROPDLG)
    (h : d.ctx.cSuccess ≤ sinceRestart d.trace) :
    (HashPropOptions_cleanup denv d).ctx.cSuccess
      ≤ sinceRestart (HashPropOptions_cleanup denv d).trace := by
  unfold HashPropOptions_cleanup
  simp only []
  split_ifs
  · rw [(sinceRestart_HashPropRestart denv _).1]
    exact Nat.zero_le _
  · show d.ctx.cSuccess ≤ sinceRestart (d.trace ++ [DlgCall.WorkerThreadCleanup])
    simp [sinceRestart_append, sinceRestartStep]
    exact h

theorem sinceRestart_save (denv : DlgEnv) (hFileOut : Option Nat) (nFilterIndex : Nat)
    (d : HASHPROPDLG) (h : d.ctx.cSuccess ≤ sinceRestart d.trace) :
    (HashPropSaveResults denv hFileOut nFilterIndex d).ctx.cSuccess
      ≤ sinceRestart (HashPropSaveResults denv hFileOut nFilterIndex d).trace := by
  unfold HashPropSaveResults
  simp only []
  split_ifs with hfile
  · cases hlast : SLGetDataLast d.ctx.hList with
    | none =>
      simp only [hlast]
      simp [sinceRestart_append, sinceRestartStep]
      exact h
    | some last =>
      simp only [hlast]
      split_ifs
      · unfold HashPropDoSaveResults
        simp [sinceRestart_append, sinceRestartStep]
        exact h
      · rw [(sinceRestart_HashPropRestart denv _).1]
        exact Nat.zero_le _
  · simp [sinceRestart_append, sinceRestartStep]
    exact h

theorem sinceRestart_STOP (d : HASHPROPDLG) (h : d.ctx.cSuccess ≤ sinceRestart d.trace) :
    (HashPropDlgProc_STOP d).ctx.cSuccess ≤ sinceRestart (HashPropDlgProc_STOP d).trace := by
  obtain ⟨_, _, f3, _, _, f6⟩ := HashPropDlgProc_STOP_summary d
  rw [f3, f6]
  simp [sinceRestart_append, sinceRestartStep]
  exact h

theorem sinceRestart_PAUSE (d : HASHPROPDLG) (h : d.ctx.cSuccess ≤ sinceRestart d.trace) :
    (HashPropDlgProc_PAUSE d).ctx.cSuccess ≤ sinceRestart (HashPropDlgProc_PAUSE d).trace := by
  obtain ⟨_, _, f3, _, _, f6⟩ := HashPropDlgProc_PAUSE_summary d
  rw [f3, f6]
  exact h

/-- Every step of the dialog with its worker keeps the success count within the
number of updates handled since the last restart. -/
theorem sinceRestart_step (denv : DlgEnv) (s t : SysState) (ht : SysStep denv s t)
    (h : s.d.ctx.cSuccess ≤ sinceRestart s.d.trace) :
    t.d.ctx.cSuccess ≤ sinceRestart t.d.trace := by
  cases ht with
  | w_work hList cTotal cchPrefix prepped h1 => exact h
  | w_inc p h1 h2 => exact h
  | w_post p h1 => exact h
  | w_exit done h1 h2 => exact h
  | ui_update p g q ok h1 h2 => exact sinceRestart_UPDATE _ s.d p h
  | ui_done g q h1 h2 h3 => exact sinceRestart_DONE s.d h
  | ui_options_stop opt h1 => exact sinceRestart_options_stop denv opt s.d h
  | ui_options_cleanup ok h1 h2 => exact sinceRestart_options_cleanup _ s.d h
  | ui_save hFileOut nFilterIndex ok h1 h2 => exact sinceRestart_save _ hFileOut nFilterIndex s.d h
  | ui_stop h1 => exact sinceRestart_STOP s.d h
  | ui_pause h1 => exact sinceRestart_PAUSE s.d h

theorem sinceRestart_run (denv : DlgEnv) (s t : SysState)
    (hr : Relation.ReflTransGen (SysStep denv) s t)
    (h : s.d.ctx.cSuccess ≤ sinceRestart s.d.trace) :
    t.d.ctx.cSuccess ≤ sinceRestart t.d.trace := by
  induction hr with
  | refl => exact h
  | tail _ hstep ih => exact sinceRestart_step denv _ _ hstep ih

/-! ### C22 -/

/-- C22: after `HashPropRestart` returns, `cSuccess = 0` and `obScratch = 0`; the flags
`HCF_RESTARTING` and `HPF_INTERRUPTED` are clear and every other bit of the
`DWORD` `dwFlags` is as before (bit `b` is set exactly when it was set,
`b < 32`, and `b` is neither of the two), in particular `HPF_HLIST_PREPPED`
and `HPF_HAS_RESIZED`; the options, with the requested checksum set, are
unchanged; if `HPF_HLIST_PREPPED` was set the existing list is rewound and
`cTotal` kept, else the list is a fresh one and `cTotal` is 0; the message
counters, the prefix length, the output file, the filter index and the
scratch text are unchanged. The count of updates handled since the last
restart is 0 after it, and in every run of the dialog with its worker
`cSuccess` never exceeds that count, if it did not at the start of the run. -/
theorem C22_restart_resets_per_run_state (denv : DlgEnv) (d : HASHPROPDLG) (s t : SysState)
    (hr : Relation.ReflTransGen (SysStep denv) s t)
    (h0 : s.d.ctx.cSuccess ≤ sinceRestart s.d.trace) :
    (HashPropRestart denv d).ctx.cSuccess = 0
    ∧ (HashPropRestart denv d).ctx.obScratch = 0
    ∧ (HashPropRestart denv d).ctx.dwFlags &&& HCF_RESTARTING = 0
    ∧ (HashPropRestart denv d).ctx.dwFlags &&& HPF_INTERRUPTED = 0
    ∧ (∀ b, (HashPropRestart denv d).ctx.dwFlags.testBit b
        = (d.ctx.dwFlags.testBit b && decide (b < 32) && !decide (b = 2) && !decide (b = 5)))
    ∧ (HashPropRestart denv d).ctx.dwFlags &&& HPF_HLIST_PREPPED
        = d.ctx.dwFlags &&& HPF_HLIST_PREPPED
    ∧ (HashPropRestart denv d).ctx.dwFlags &&& HPF_HAS_RESIZED
        = d.ctx.dwFlags &&& HPF_HAS_RESIZED
    ∧ (HashPropRestart denv d).ctx.opt = d.ctx.opt
    ∧ (d.ctx.dwFlags &&& HPF_HLIST_PREPPED ≠ 0 →
        (HashPropRestart denv d).ctx.hList = SLReset d.ctx.hList
        ∧ (HashPropRestart denv d).ctx.cTotal = d.ctx.cTotal)
    ∧ (d.ctx.dwFlags &&& HPF_HLIST_PREPPED = 0 →
        (HashPropRestart denv d).ctx.hList = SLCreateEx
        ∧ (HashPropRestart denv d).ctx.cTotal = 0)
    ∧ ((HashPropRestart denv d).ctx.cSentMsgs = d.ctx.cSentMsgs
        ∧ (HashPropRestart denv d).ctx.cHandledMsgs = d.ctx.cHandledMsgs
        ∧ (HashPropRestart denv d).ctx.cchPrefix = d.ctx.cchPrefix
        ∧ (HashPropRestart denv d).ctx.hFileOut = d.ctx.hFileOut
        ∧ (HashPropRestart denv d).ctx.nFilterIndex = d.ctx.nFilterIndex
        ∧ (HashPropRestart denv d).ctx.scratch = d.ctx.scratch)
    ∧ sinceRestart (HashPropRestart denv d).trace = 0
    ∧ t.d.ctx.cSuccess ≤ sinceRestart t.d.trace := by
  have hbits : ∀ b, (HashPropRestart denv d).ctx.dwFlags.testBit b
      = (d.ctx.dwFlags.testBit b && decide (b < 32) && !decide (b = 2) && !decide (b = 5)) := by
    intro b
    rw [HashPropRestart_dwFlags, Nat.testBit_and, testBit_DWORD_NOT, testBit_restart_mask]
    cases d.ctx.dwFlags.testBit b <;> cases decide (b < 32) <;> cases decide (b = 2)
      <;> cases decide (b = 5) <;> rfl
  have hsame : ∀ k, k < 32 → k ≠ 2 → k ≠ 5 →
      (HashPropRestart denv d).ctx.dwFlags &&& 2 ^ k = d.ctx.dwFlags &&& 2 ^ k := by
    intro k hk h2 h5
    apply Nat.eq_of_testBit_eq
    intro b
    rw [Nat.testBit_and, Nat.testBit_and, hbits, Nat.testBit_two_pow]
    by_cases hb : k = b
    · subst hb
      simp [hk, h2, h5]
    · simp [hb]
  have hclear : ∀ k, (k = 2 ∨ k = 5) → (HashPropRestart denv d).ctx.dwFlags &&& 2 ^ k = 0 := by
    intro k hk
    rw [and_two_pow_eq_zero_iff, hbits]
    rcases hk with rfl | rfl <;> simp
  obtain ⟨l1, l2⟩ := HashPropRestart_list denv d
  obtain ⟨f1, _, f3, f4⟩ := HashPropRestart_frame denv d
  exact ⟨f4, f3, hclear 2 (Or.inl rfl), hclear 5 (Or.inr rfl), hbits,
    hsame 4 (by decide) (by decide) (by decide), hsame 3 (by decide) (by decide) (by decide),
    f1, l1, l2, HashPropRestart_others denv d, (sinceRestart_HashPropRestart denv d).2,
    sinceRestart_run denv s t hr h0⟩

/-- C22 at a concrete run: from the dialog with a restart pending, the handler of
the last unhandled update restarts; afterwards `cSuccess` and the count of
updates handled since the restart are both 0. -/
theorem C22_restart_witness :
    Relation.ReflTransGen (SysStep sampleDlgEnv) sampleSysDeferred sampleSysRestarted
    ∧ sampleSysDeferred.d.ctx.cSuccess ≤ sinceRestart sampleSysDeferred.d.trace
    ∧ sampleSysRestarted.d.ctx.cSuccess ≤ sinceRestart sampleSysRestarted.d.trace
    ∧ sinceRestart sampleSysRestarted.d.trace = 0 :=
  ⟨Relation.ReflTransGen.single
      (SysStep.ui_update sampleSysDeferred 0 0 [(Msg.HM_WORKERTHREAD_DONE, 0)] true rfl rfl),
    by decide,
    (C22_restart_resets_per_run_state sampleDlgEnv sampleDlg0 sampleSysDeferred
      sampleSysRestarted
      (Relation.ReflTransGen.single
        (SysStep.ui_update sampleSysDeferred 0 0 [(Msg.HM_WORKERTHREAD_DONE, 0)] true rfl rfl))
      (by decide)).2.2.2.2.2.2.2.2.2.2.2.2,
    by decide⟩

/-! ### The length of the results block -/

theorem HASH_RESULT_op_length (alg : hash_algorithm) :
    (HASH_RNAME alg).length = 8 ∧ HASH_RESULT_op alg = HASH_RNAME alg ++ [':', ' ']
    ∧ (HASH_RESULT_op alg).length = 10 := by
  cases alg <;> decide

theorem HASH_RESULT_APPEND_op_length (alg : hash_algorithm) (results : WHRESULTEX) :
    (HASH_RESULT_APPEND_op alg results).length = 10 + 2 * DIGEST_LENGTH alg + 2 := by
  unfold HASH_RESULT_APPEND_op
  rw [List.length_append, List.length_append, readChars_length, (HASH_RESULT_op_length alg).2.2]
  have : CRLF.length = 2 := rfl
  rw [this]
  omega

theorem resultsText_length_sum (dw : Nat) (results : WHRESULTEX) :
    (resultsText dw results).length
      = ((FOR_EACH_HASH.filter (fun a => decide (dw &&& WHEX_CHECK a ≠ 0))).map
          (fun alg => 10 + 2 * DIGEST_LENGTH alg + 2)).sum := by
  rw [resultsText_eq_flatMap, List.flatMap, List.length_flatten, List.map_map]
  congr 1
  apply List.map_congr_left
  intro alg _
  exact HASH_RESULT_APPEND_op_length alg results

/-! ### C23 -/

/-- C23: the capacity estimate is a true upper bound. For every call of
`HashPropUpdateResults` for an item of the list whose path length is at least
the prefix length and at most `MAX_PATH_BUFFER`, and for every requested set:
what the call writes to the scratch buffer is the item's text and a
terminating NUL, and the number of these characters is at most the value of
`cchMaxBufferRequired` the call computes. The results block has the same
length for every item: the sum, over the requested algorithms, of
`10 + 2 * digest length + 2` characters, every label being the 8 characters of
the right-justified name followed by `": "`. -/
theorem C23_capacity_estimate_is_upper_bound (denv : DlgEnv) (d : HASHPROPDLG) (pItem : Nat)
    (item : HASHPROPITEM) (hget : d.ctx.hList.data.get? pItem = some item)
    (h1 : d.ctx.cchPrefix ≤ item.cchPath) (h2 : item.cchPath ≤ MAX_PATH_BUFFER) :
    (HashPropUpdateResults denv d pItem).ctx.scratch
        = memWrite d.ctx.scratch (d.ctx.obScratch / denv.sizeofTCHAR)
            (itemText denv d.ctx (itemShown d.ctx item) ++ [NUL])
    ∧ (itemText denv d.ctx (itemShown d.ctx item) ++ [NUL]).length
        ≤ cchMaxBufferRequired denv d.ctx (itemShown d.ctx item)
    ∧ (∀ (dw : Nat) (r1 r2 : WHRESULTEX),
        (resultsText dw r1).length = (resultsText dw r2).length)
    ∧ (∀ (dw : Nat) (results : WHRESULTEX),
        (resultsText dw results).length
          = ((FOR_EACH_HASH.filter (fun a => decide (dw &&& WHEX_CHECK a ≠ 0))).map
              (fun alg => 10 + 2 * DIGEST_LENGTH alg + 2)).sum)
    ∧ (∀ alg, (HASH_RNAME alg).length = 8 ∧ HASH_RESULT_op alg = HASH_RNAME alg ++ [':', ' ']
        ∧ (HASH_RESULT_op alg).length = 10) := by
  refine ⟨HashPropUpdateResults_scratch denv d pItem item hget, ?_,
    resultsText_length, resultsText_length_sum, HASH_RESULT_op_length⟩
  rw [List.length_append, List.length_singleton]
  exact itemText_length_le denv d.ctx (itemShown d.ctx item)
    (by rw [(itemShown_path d.ctx item).2]; exact h1)
    (by rw [(itemShown_path d.ctx item).2]; exact h2)

/-- C23 at a concrete call: for the first sample item (CRC-32, SHA-1 and SHA-256
requested) the text with its NUL has 160 characters, the estimate is 2260, and
the results block has 20 + 52 + 76 = 148 characters. -/
theorem C23_capacity_witness :
    sampleDlg0.ctx.hList.data.get? 0 = some (sampleItemA 1)
    ∧ (itemText sampleDlgEnv sampleDlg0.ctx (itemShown sampleDlg0.ctx (sampleItemA 1))
        ++ [NUL]).length = 160
    ∧ cchMaxBufferRequired sampleDlgEnv sampleDlg0.ctx (itemShown sampleDlg0.ctx (sampleItemA 1))
        = 2260
    ∧ (itemText sampleDlgEnv sampleDlg0.ctx (itemShown sampleDlg0.ctx (sampleItemA 1))
        ++ [NUL]).length
        ≤ cchMaxBufferRequired sampleDlgEnv sampleDlg0.ctx
            (itemShown sampleDlg0.ctx (sampleItemA 1))
    ∧ (resultsText sampleDlg0.ctx.opt.dwChecksums (sampleItemA 1).results).length = 148 :=
  ⟨rfl, by decide, by decide,
    (C23_capacity_estimate_is_upper_bound sampleDlgEnv sampleDlg0 0 (sampleItemA 1) rfl
      (by decide) (by decide)).2.1,
    by decide⟩

end HashCheck
